import Mathlib

/-!
# MusicBox: playback state machine, display renderer, LED animation engine

A shallow embedding of `src/main.cpp` (an ESP32 audio player sketch).

* File-scope variables of the sketch become fields of `Player`.
* `int` values are `Int` (C `/` and `%` are `Int.tdiv` and `Int.tmod`); no `int` of the
  sketch leaves the range of a few hundred, so no wrap-around is modelled for them.
* `unsigned long` time stamps are `Nat` readings of `millis()`; differences are
  taken with `usub`, the 32-bit wrap-around subtraction of the target.
* Everything an external collaborator answers (audio library, buttons, clock,
  LCD mutex, `random`) is an explicit input record (`PlayEnv`, `LoopEnv`,
  `DisplayEnv`, `LedEnv`); every call made to the audio library is appended to the
  trace `Player.audio`, and `ledMatrixAnimate` returns the calls it makes to the
  LED driver.
-/

namespace MusicBox

/-! ## Constants -/

/-- The value of `LCD_COLS`. -/
def LCD_COLS : Int := 16

/-- The value of `debounceDelay` (milliseconds). -/
def debounceDelay : Nat := 200

/-- The value of `scrollSpeedDelay` (milliseconds). -/
def scrollSpeedDelay : Nat := 350

/-- The value of `endScrollPauseDuration` (milliseconds). -/
def endScrollPauseDuration : Nat := 2000

/-- The glyph `PROGRESS_CHAR_FILLED`, `(byte)0`. -/
def PROGRESS_CHAR_FILLED : Char := Char.ofNat 0

/-- The glyph `MUSIC_NOTE_CHAR`, `(byte)1`. -/
def MUSIC_NOTE_CHAR : Char := Char.ofNat 1

/-- The character `PROGRESS_CHAR_EMPTY`. -/
def PROGRESS_CHAR_EMPTY : Char := '_'

/-- The catalog `tracks[]` of the sketch. -/
def tracks : List String :=
  [ "/A.R. Rahman, The Pussycat Dolls - Jai Ho (You Are My Destiny).wav",
    "/Avicii - Wake Me Up (Official Video).wav",
    "/Pitbull_-_Give_Me_Everything_ft._Ne-Yo,_Afrojack,_Nayer.wav",
    "/BABASHA_Marae.wav",
    "/Connect-R feat. Chris Mayer - Still.wav",
    "/Sexy Bitch (feat. Akon).wav",
    "/U 96 - Club Bizarre.wav",
    "/Welcome_to_Los_Santos.wav",
    "/will.i.am - Scream & Shout ft. Britney Spears.wav" ]

/-- The constant `numTracks = sizeof(tracks) / sizeof(tracks[0])` of a catalog. -/
def numTracks (cat : List String) : Int := (cat.length : Int)

/-- The entry `tracks[i]` of a catalog (the empty string outside the array). -/
def trackAt (cat : List String) (i : Int) : String :=
  if i < 0 then "" else cat.getD i.toNat ""

/-- `a - b` on `unsigned long` (32 bits): the difference modulo `2^32`. -/
def usub (a b : Nat) : Nat :=
  (a % 4294967296 + (4294967296 - b % 4294967296)) % 4294967296

/-! ## State -/

/-- The animation modes, `enum LedAnimation`, in declaration order. -/
inductive LedAnimation where
  | VERTICAL_SWEEP
  | HORIZONTAL_SWEEP
  | MUSIC
  | LIFELINE
  | OFF
  deriving DecidableEq, Repr

/-- The integer value of an enumerator, `(int)selectedLedAnimation`. -/
def LedAnimation.toInt : LedAnimation → Int
  | .VERTICAL_SWEEP => 0
  | .HORIZONTAL_SWEEP => 1
  | .MUSIC => 2
  | .LIFELINE => 3
  | .OFF => 4

/-- The cast `(LedAnimation)currentMode` for the values `0..4` (others map to `OFF`;
the sketch only casts values reduced modulo 5). -/
def LedAnimation.ofInt (n : Int) : LedAnimation :=
  if n = 0 then .VERTICAL_SWEEP
  else if n = 1 then .HORIZONTAL_SWEEP
  else if n = 2 then .MUSIC
  else if n = 3 then .LIFELINE
  else .OFF

/-- A call made to the audio library. -/
inductive AudioCall where
  /-- The call `wav->stop()`. -/
  | stop
  /-- The construction `new AudioFileSourceSD(filename)`. -/
  | openFile (filename : String)
  /-- The call `wav->begin(file, out)`. -/
  | begin
  /-- The call `wav->loop()`, which pumps one frame. -/
  | pump
  deriving DecidableEq, Repr

/-- The file-scope variables of the sketch that the playback state machine, the
button handlers and the title renderer read or write. -/
structure Player where
  /-- The variable `currentTrack`. -/
  currentTrack : Int
  /-- The variable `isPlaying`. -/
  isPlaying : Bool
  /-- The variable `isPaused`. -/
  isPaused : Bool
  /-- Whether the pointer `wav` is non-null. -/
  wav : Bool
  /-- Whether the pointer `file` is non-null. -/
  file : Bool
  /-- The variable `lastButtonPress`. -/
  lastButtonPress : Nat
  /-- The variable `lastAnimationButtonPress`. -/
  lastAnimationButtonPress : Nat
  /-- The variable `titleScrollOffset`. -/
  titleScrollOffset : Int
  /-- The variable `lastScrollTime`. -/
  lastScrollTime : Nat
  /-- The variable `endScrollPauseTime`. -/
  endScrollPauseTime : Nat
  /-- The variable `isScrollingPaused`. -/
  isScrollingPaused : Bool
  /-- The variable `selectedLedAnimation`. -/
  selectedLedAnimation : LedAnimation
  /-- The calls made to the audio library so far, oldest first. -/
  audio : List AudioCall
  deriving DecidableEq, Repr

/-- The values the file-scope variables are initialised with. -/
def Player.init : Player :=
  { currentTrack := 0, isPlaying := false, isPaused := false, wav := false, file := false,
    lastButtonPress := 0, lastAnimationButtonPress := 0, titleScrollOffset := 0,
    lastScrollTime := 0, endScrollPauseTime := 0, isScrollingPaused := false,
    selectedLedAnimation := .VERTICAL_SWEEP, audio := [] }

/-! ## `playWAV` -/

/-- What the audio library answers during one call of `playWAV`. -/
structure PlayEnv where
  /-- The answer of `wav->isRunning()` (asked only when `wav` is non-null). -/
  wasRunning : Bool
  /-- The value of `file && file->isOpen()` for the freshly constructed source. -/
  openOk : Bool
  /-- The value of `wav && wav->begin(file, out)`. -/
  beginOk : Bool
  deriving DecidableEq, Repr

/-- The function `playWAV(filename)`. -/
def playWAV (s : Player) (filename : String) (e : PlayEnv) : Player :=
  let s1 := { s with isPlaying := false }
  let s2 := if s1.wav && e.wasRunning then { s1 with audio := s1.audio ++ [AudioCall.stop] } else s1
  let s3 := { s2 with wav := false, file := false }
  let s4 := { s3 with file := true, audio := s3.audio ++ [AudioCall.openFile filename] }
  if !e.openOk then
    { s4 with file := false, isPaused := false, titleScrollOffset := 0,
              isScrollingPaused := false }
  else
    let s5 := { s4 with wav := true, audio := s4.audio ++ [AudioCall.begin] }
    if e.beginOk then
      { s5 with isPlaying := true, isPaused := false, titleScrollOffset := 0,
                isScrollingPaused := false }
    else
      { s5 with wav := false, file := false, isPaused := false, titleScrollOffset := 0,
                isScrollingPaused := false }

/-! ## `loop` -/

/-- What the collaborators answer during one iteration of `loop`. -/
structure LoopEnv where
  /-- The answer of `wav->isRunning()` in the playback tick. -/
  wavRunning : Bool
  /-- The answer of `wav->loop()`: the session can still produce output. -/
  pumpOk : Bool
  /-- The reading of `millis()` in the debounce test of the track buttons. -/
  tButtons : Nat
  /-- Whether `digitalRead(BTN_PREV) == LOW`. -/
  btnPrev : Bool
  /-- Whether `digitalRead(BTN_NEXT) == LOW`. -/
  btnNext : Bool
  /-- Whether `digitalRead(BTN_PLAY) == LOW`. -/
  btnPlay : Bool
  /-- The reading of `millis()` stored into `lastButtonPress`. -/
  tStamp : Nat
  /-- The answers of the audio library inside `playWAV`. -/
  play : PlayEnv
  /-- The reading of `millis()` in the debounce test of the animation button. -/
  tAnimation : Nat
  /-- Whether `digitalRead(BTN_ANIMATION) == LOW`. -/
  btnAnimation : Bool
  /-- The reading of `millis()` stored into `lastAnimationButtonPress`. -/
  tAnimStamp : Nat
  deriving DecidableEq, Repr

/-- The playback tick, the first block of `loop`. -/
def playbackTick (s : Player) (e : LoopEnv) : Player :=
  if s.isPlaying && !s.isPaused then
    if s.wav && e.wavRunning then
      let s1 := { s with audio := s.audio ++ [AudioCall.pump] }
      if !e.pumpOk then
        { s1 with audio := s1.audio ++ [AudioCall.stop], isPlaying := false }
      else s1
    else if s.isPlaying then
      { s with isPlaying := false, isPaused := false }
    else s
  else s

/-- The body of the `BTN_PREV` branch: an accepted Previous press. -/
def onPrev (cat : List String) (s : Player) (stamp : Nat) (e : PlayEnv) : Player :=
  let tempCurrentTrack := s.currentTrack
  let s1 := { s with lastButtonPress := stamp }
  let tempCurrentTrack := (tempCurrentTrack - 1 + numTracks cat).tmod (numTracks cat)
  let s2 := { s1 with currentTrack := tempCurrentTrack }
  playWAV s2 (trackAt cat s2.currentTrack) e

/-- The body of the `BTN_NEXT` branch: an accepted Next press. -/
def onNext (cat : List String) (s : Player) (stamp : Nat) (e : PlayEnv) : Player :=
  let tempCurrentTrack := s.currentTrack
  let s1 := { s with lastButtonPress := stamp }
  let tempCurrentTrack := (tempCurrentTrack + 1).tmod (numTracks cat)
  let s2 := { s1 with currentTrack := tempCurrentTrack }
  playWAV s2 (trackAt cat s2.currentTrack) e

/-- The body of the `BTN_PLAY` branch: an accepted Play/Pause press. -/
def onPlay (cat : List String) (s : Player) (stamp : Nat) (e : PlayEnv) : Player :=
  let s1 := { s with lastButtonPress := stamp }
  if !s1.isPlaying then playWAV s1 (trackAt cat s1.currentTrack) e
  else { s1 with isPaused := !s1.isPaused }

/-- The track-button block of `loop` (Previous, Next, Play/Pause). -/
def buttonBlock (cat : List String) (s : Player) (e : LoopEnv) : Player :=
  if usub e.tButtons s.lastButtonPress ≥ debounceDelay then
    if e.btnPrev then onPrev cat s e.tStamp e.play
    else if e.btnNext then onNext cat s e.tStamp e.play
    else if e.btnPlay then onPlay cat s e.tStamp e.play
    else s
  else s

/-- The body of the `BTN_ANIMATION` branch: an accepted Animation press. -/
def onAnimation (s : Player) (stamp : Nat) : Player :=
  let s1 := { s with lastAnimationButtonPress := stamp }
  let currentMode := s1.selectedLedAnimation.toInt
  let currentMode := (currentMode + 1).tmod 5
  { s1 with selectedLedAnimation := LedAnimation.ofInt currentMode }

/-- The animation-button block of `loop`. -/
def animationBlock (s : Player) (e : LoopEnv) : Player :=
  if usub e.tAnimation s.lastAnimationButtonPress ≥ debounceDelay then
    if e.btnAnimation then onAnimation s e.tAnimStamp else s
  else s

/-- One iteration of `loop`. The calls `updateVolume()` and `updateBrightness()`
write only the output gain and the LED intensity, which are not part of `Player`. -/
def loop (cat : List String) (s : Player) (e : LoopEnv) : Player :=
  animationBlock (buttonBlock cat (playbackTick s e) e) e

/-! ## Single-precision arithmetic of the progress bar

The progress value is computed as `(float)currentPos / totalSize` and then
`(int)(progress * LCD_COLS)`, in IEEE 754 binary32 with round-to-nearest,
ties-to-even. A non-negative binary32 value is represented by a fraction
`num / den` of naturals. -/

/-- The integer nearest to `n / d`, ties going to the even neighbour. -/
def roundNearestEven (n d : Nat) : Nat :=
  if 2 * (n % d) > d ∨ (2 * (n % d) = d ∧ (n / d) % 2 = 1) then n / d + 1 else n / d

/-- The least `k` (up to `fuel`) with `d * 2^k > n`: how often `d` must be
doubled to exceed `n`. -/
def shiftAbove : Nat → Nat → Nat → Nat
  | 0, _, _ => 0
  | fuel + 1, n, d => if n < d then 0 else shiftAbove fuel n (2 * d) + 1

/-- The least `k` (up to `fuel`) with `n * 2^k ≥ d`: how often `n` must be
doubled to reach `d`. -/
def shiftUpTo : Nat → Nat → Nat → Nat
  | 0, _, _ => 0
  | fuel + 1, n, d => if d ≤ n then 0 else shiftUpTo fuel (2 * n) d + 1

/-- The binary32 value nearest to the positive rational `n / d` (`0 < d`), as a
fraction: the quotient is scaled to a 24-bit significand in `[2^23, 2^24)`,
rounded to an integer, and scaled back. Zero stays zero. Exponent range is not
modelled (the quotients of two 32-bit sizes are far inside it). -/
def f32Round (n d : Nat) : Nat × Nat :=
  if n = 0 then (0, 1)
  else if d * 2 ^ 24 ≤ n then
    -- at least 25 significant bits before the binary point: drop `k` of them
    let k := shiftAbove 128 n (d * 2 ^ 24)
    (roundNearestEven n (d * 2 ^ k) * 2 ^ k, 1)
  else
    -- scale up by `2^k` until the significand reaches `2^23`
    let k := shiftUpTo 128 n (d * 2 ^ 23)
    (roundNearestEven (n * 2 ^ k) d, 2 ^ k)

/-- The conversion `(float)n` of a `uint32_t`. -/
def f32OfNat (n : Nat) : Nat × Nat := f32Round n 1

/-- The binary32 quotient `a / b` of two binary32 values. -/
def f32Div (a b : Nat × Nat) : Nat × Nat := f32Round (a.1 * b.2) (a.2 * b.1)

/-- The binary32 product `a * b` of two binary32 values. -/
def f32Mul (a b : Nat × Nat) : Nat × Nat := f32Round (a.1 * b.1) (a.2 * b.2)

/-- The conversion `(int)x` of a non-negative binary32 value: truncation. -/
def f32ToInt (x : Nat × Nat) : Int := ((x.1 / x.2 : Nat) : Int)

/-- The value `filledWidth` of `updateDisplay`:
`progress = (float)currentPos / totalSize; filledWidth = (int)(progress * LCD_COLS)`. -/
def filledWidth (currentPos totalSize : Nat) : Int :=
  let progress := f32Div (f32OfNat currentPos) (f32OfNat totalSize)
  f32ToInt (f32Mul progress (f32OfNat LCD_COLS.toNat))

/-! ## `updateDisplay` -/

/-- The part of a path after its last `'/'` (the whole path when it has none):
`strrchr(fullPath, '/')`, then `filenameStart + 1` or `fullPath`. -/
def filenameStart : List Char → List Char
  | [] => []
  | c :: t => if t.contains '/' then filenameStart t else if c = '/' then t else c :: t

/-- The index of the first occurrence of `needle` in `hay`, as `strstr` finds it. -/
def strstr (needle : List Char) : List Char → Option Nat
  | [] => if needle.isEmpty then some 0 else none
  | c :: t =>
    if needle.isPrefixOf (c :: t) then some 0
    else (strstr needle t).map (fun k => k + 1)

/-- The display name `tempName` that `updateDisplay` derives from a catalog path:
file name (at most 127 characters), cut at the first `".wav"` (else at the first
`".WAV"`), with every `'_'` replaced by a space. -/
def displayName (fullPath : String) : List Char :=
  let tempName := (filenameStart fullPath.toList).take 127
  let extension :=
    match strstr ".wav".toList tempName with
    | some k => some k
    | none => strstr ".WAV".toList tempName
  let tempName :=
    match extension with
    | some k => tempName.take k
    | none => tempName
  tempName.map (fun c => if c = '_' then ' ' else c)

/-- The character `str[k]` of a buffer for an `int` index `k` (a blank where the
C code would read outside the string, which no branch of `updateDisplay` does). -/
def charAt (str : List Char) (k : Int) : Char :=
  if k < 0 then ' ' else str.getD k.toNat ' '

/-- The cells `0 .. contentWidthLine0 - 1` of the title line written by the loop
`lineBuffer0[i] = (i < len) ? str[i] : ' '`. -/
def fitCells (str : List Char) : List Char :=
  (List.range (LCD_COLS - 1).toNat).map
    (fun (i : Nat) => if (i : Int) < (str.length : Int) then charAt str i else ' ')

/-- The cells `0 .. contentWidthLine0 - 1` of the title line written by the
scrolling loop for the offset `titleScrollOffset`. -/
def scrollCells (tempName : List Char) (titleScrollOffset : Int) : List Char :=
  let titleLen : Int := tempName.length
  let contentWidthLine0 : Int := LCD_COLS - 1
  (List.range contentWidthLine0.toNat).map
    (fun (i : Nat) =>
      let effectiveCharIndex := (titleScrollOffset + (i : Int)).tmod (titleLen + contentWidthLine0)
      if effectiveCharIndex < titleLen then charAt tempName effectiveCharIndex else ' ')

/-- The second line in the paused case: `"---PAUSED---"` written from `startCol`
over a line of blanks. -/
def pausedLine : List Char :=
  let pauseMsg := "---PAUSED---".toList
  let msgLen : Int := pauseMsg.length
  let startCol : Int :=
    if (LCD_COLS - msgLen).tdiv 2 < 0 then 0 else (LCD_COLS - msgLen).tdiv 2
  (List.range LCD_COLS.toNat).map
    (fun (j : Nat) => if startCol ≤ (j : Int) ∧ (j : Int) - startCol < msgLen
              then charAt pauseMsg ((j : Int) - startCol) else ' ')

/-- The second line in the playing case: `filledWidth` filled cells, then empty ones. -/
def progressLine (filled : Int) : List Char :=
  (List.range LCD_COLS.toNat).map
    (fun (i : Nat) => if (i : Int) < filled then PROGRESS_CHAR_FILLED else PROGRESS_CHAR_EMPTY)

/-- The second line in the remaining case: every cell empty. -/
def emptyLine : List Char :=
  (List.range LCD_COLS.toNat).map (fun _ => PROGRESS_CHAR_EMPTY)

/-- The bytes sent to LCD row 0 for a line buffer: cell by cell, `lcd.write` for the
two custom glyphs and `lcd.print` for any other character. -/
def lcdRow0 (lineBuffer0 : List Char) : List Char :=
  (List.range LCD_COLS.toNat).map
    (fun (i : Nat) =>
      let c := lineBuffer0.getD i ' '
      if c = MUSIC_NOTE_CHAR ∧ (i : Int) = LCD_COLS - 1 then MUSIC_NOTE_CHAR
      else if c = PROGRESS_CHAR_FILLED then PROGRESS_CHAR_FILLED
      else c)

/-- The bytes sent to LCD row 1 for a line buffer. -/
def lcdRow1 (lineBuffer1 : List Char) : List Char :=
  (List.range LCD_COLS.toNat).map
    (fun (i : Nat) =>
      let c := lineBuffer1.getD i ' '
      if c = PROGRESS_CHAR_FILLED then PROGRESS_CHAR_FILLED else c)

/-- What the collaborators answer during one call of `updateDisplay`. -/
structure DisplayEnv where
  /-- The answer of `file->isOpen()` (asked only when `file` is non-null). -/
  fileOpen : Bool
  /-- The answer of `file->getPos()`. -/
  pos : Nat
  /-- The answer of `file->getSize()`. -/
  size : Nat
  /-- The reading of `millis()` compared with `endScrollPauseTime`. -/
  tPauseCheck : Nat
  /-- The reading of `millis()` stored into `lastScrollTime` when the dwell ends. -/
  tResume : Nat
  /-- The reading of `millis()` compared with `lastScrollTime`. -/
  tScrollCheck : Nat
  /-- The reading of `millis()` stored into `lastScrollTime` when the offset advances. -/
  tScrollStamp : Nat
  /-- The reading of `millis()` stored into `endScrollPauseTime`. -/
  tPauseStamp : Nat
  /-- Whether `xSemaphoreTake(lcdMutex, 50 ms)` succeeds. -/
  lockOk : Bool
  deriving DecidableEq, Repr

/-- The outcome of one call of `updateDisplay`. -/
structure DisplayResult where
  /-- The file-scope variables after the call. -/
  state : Player
  /-- The 16 cells of `lineBuffer0`. -/
  lineBuffer0 : List Char
  /-- The 16 cells of `lineBuffer1`. -/
  lineBuffer1 : List Char
  /-- The two rows sent to the LCD, or `none` when the mutex was not obtained. -/
  lcd : Option (List Char × List Char)
  deriving DecidableEq, Repr

/-- The scroll step of `updateDisplay` for an overflowing title that is not in the
paused-at-end state: advance the offset when due, then enter the pause or wrap. -/
def scrollAdvance (s : Player) (titleLen : Int) (e : DisplayEnv) : Player :=
  let s1 :=
    if usub e.tScrollCheck s.lastScrollTime ≥ scrollSpeedDelay then
      { s with lastScrollTime := e.tScrollStamp, titleScrollOffset := s.titleScrollOffset + 1 }
    else s
  if s1.titleScrollOffset = titleLen then
    { s1 with isScrollingPaused := true, endScrollPauseTime := e.tPauseStamp }
  else if s1.titleScrollOffset ≥ titleLen + (LCD_COLS - 1) then
    { s1 with titleScrollOffset := 0 }
  else s1

/-- The title part of `updateDisplay`: the variables after the call and the cells
`0 .. 14` of `lineBuffer0`. -/
def titleLine (cat : List String) (s : Player) (e : DisplayEnv) : Player × List Char :=
  let tempIsPlaying := s.isPlaying
  let tempIsPaused := s.isPaused
  let tempCurrentTrack := s.currentTrack
  let contentWidthLine0 : Int := LCD_COLS - 1
  if tempIsPlaying || tempIsPaused then
    let tempName := displayName (trackAt cat tempCurrentTrack)
    let titleLen : Int := tempName.length
    if titleLen > contentWidthLine0 then
      if s.isScrollingPaused then
        let cells := fitCells tempName
        if usub e.tPauseCheck s.endScrollPauseTime ≥ endScrollPauseDuration then
          ({ s with isScrollingPaused := false, titleScrollOffset := 0,
                    lastScrollTime := e.tResume }, cells)
        else (s, cells)
      else
        let s2 := scrollAdvance s titleLen e
        (s2, scrollCells tempName s2.titleScrollOffset)
    else
      ({ s with titleScrollOffset := 0, isScrollingPaused := false }, fitCells tempName)
  else
    ({ s with titleScrollOffset := 0, isScrollingPaused := false }, fitCells "Ready...".toList)

/-- The function `updateDisplay()`. -/
def updateDisplay (cat : List String) (s : Player) (e : DisplayEnv) : DisplayResult :=
  let tempIsPlaying := s.isPlaying
  let tempIsPaused := s.isPaused
  let sizes : Nat × Nat :=
    if (tempIsPlaying || tempIsPaused) && s.file && e.fileOpen then
      (e.pos % 4294967296, e.size % 4294967296)
    else (0, 0)
  let currentPos := sizes.1
  let totalSize := sizes.2
  let title := titleLine cat s e
  let lineBuffer0 := title.2 ++ [MUSIC_NOTE_CHAR]
  let lineBuffer1 :=
    if tempIsPaused then pausedLine
    else if tempIsPlaying && decide (totalSize > 0) then progressLine (filledWidth currentPos totalSize)
    else emptyLine
  { state := title.1
    lineBuffer0 := lineBuffer0
    lineBuffer1 := lineBuffer1
    lcd := if e.lockOk then some (lcdRow0 lineBuffer0, lcdRow1 lineBuffer1) else none }

/-! ## Runs of the machine -/

/-- One step of the machine as the tasks interleave whole operations: an
iteration of `loop`, or a call of `updateDisplay` by the display task. -/
inductive Event where
  /-- One iteration of `loop`. -/
  | tick (e : LoopEnv)
  /-- One call of `updateDisplay`. -/
  | render (e : DisplayEnv)
  deriving DecidableEq, Repr

/-- The state after one event. -/
def step (cat : List String) (s : Player) : Event → Player
  | .tick e => loop cat s e
  | .render e => (updateDisplay cat s e).state

/-- The state after a sequence of events, oldest first. -/
def run (cat : List String) (s : Player) (evs : List Event) : Player :=
  evs.foldl (step cat) s

/-- The flag invariant: `isPaused` implies `isPlaying`. -/
def FlagsOk (s : Player) : Prop := s.isPaused = true → s.isPlaying = true

instance (s : Player) : Decidable (FlagsOk s) := by
  unfold FlagsOk; infer_instance

/-- The number of `playWAV` calls recorded in the audio trace (each call constructs
exactly one file source). -/
def playCalls (s : Player) : Nat :=
  (s.audio.filter (fun c => match c with | .openFile _ => true | _ => false)).length

/-- The number of `wav->loop()` calls recorded in the audio trace. -/
def pumpCalls (s : Player) : Nat :=
  (s.audio.filter (fun c => match c with | .pump => true | _ => false)).length

/-! ## Concrete inputs used in the examples -/

/-- A `loop` environment at clock reading `t` in which nothing is pressed and the
session keeps running. -/
def quietEnv (t : Nat) : LoopEnv :=
  { wavRunning := true, pumpOk := true, tButtons := t, btnPrev := false, btnNext := false,
    btnPlay := false, tStamp := t, play := { wasRunning := false, openOk := true, beginOk := true },
    tAnimation := t, btnAnimation := false, tAnimStamp := t }

/-- The state after a series of accepted Next presses, one per entry of `envs`
(the stamp and the audio answers of that press). -/
def pressNextMany (cat : List String) (s : Player) (envs : List (Nat × PlayEnv)) : Player :=
  envs.foldl (fun st x => onNext cat st x.1 x.2) s

/-- The state after a series of `loop` iterations, oldest first. -/
def loopMany (cat : List String) (s : Player) (envs : List LoopEnv) : Player :=
  envs.foldl (loop cat) s

/-- A `loop` environment at clock reading `t` with the given button levels
(`true` is pressed); the session keeps running and every file opens. -/
def buttonsEnv (t : Nat) (prev next play anim : Bool) : LoopEnv :=
  { quietEnv t with btnPrev := prev, btnNext := next, btnPlay := play, btnAnimation := anim }

/-- The display name of the current track, `tempName` in `updateDisplay`. -/
def titleOf (cat : List String) (s : Player) : List Char :=
  displayName (trackAt cat s.currentTrack)

/-- The state after a series of `updateDisplay` calls, oldest first. -/
def renderMany (cat : List String) (s : Player) (envs : List DisplayEnv) : Player :=
  envs.foldl (fun st e => (updateDisplay cat st e).state) s

/-- An `updateDisplay` environment in which every clock reading is `t`, the file is open
at position `pos` of `size` bytes, and the LCD mutex is obtained. -/
def renderEnv (t pos size : Nat) : DisplayEnv :=
  { fileOpen := true, pos := pos, size := size, tPauseCheck := t, tResume := t,
    tScrollCheck := t, tScrollStamp := t, tPauseStamp := t, lockOk := true }

/-- A player that is playing catalog entry `track` with the title scrolled to `offset`. -/
def playingAt (track offset : Int) : Player :=
  { Player.init with currentTrack := track, isPlaying := true, wav := true, file := true,
                     titleScrollOffset := offset }

/-- The sketch after Next is accepted at clock reading 1000 (track 1, a title of 36
characters, starts playing) and 36 renders follow, 350 ms apart: the last of them
advances the offset to 36 and enters the paused-at-end state at reading 13600. -/
def pausedAtEnd : Player :=
  run tracks Player.init
    (Event.tick (buttonsEnv 1000 false true false false) ::
      (List.range 36).map (fun k => Event.render (renderEnv (1350 + 350 * k) 0 100)))

/-! ## `ledMatrixAnimate` -/

/-- The value of `NUM_LED_MATRICES`. -/
def NUM_LED_MATRICES : Int := 4

/-- The byte `lifeline_base`, `0b00010000`. -/
def lifeline_base : Nat := 0b00010000

/-- The byte `blip_up1`, `0b00110000`. -/
def blip_up1 : Nat := 0b00110000

/-- The byte `blip_up2`, `0b01111000`. -/
def blip_up2 : Nat := 0b01111000

/-- A call made to the LED driver `lc`. -/
inductive LedCall where
  /-- The call `lc.clearDisplay(addr)`. -/
  | clearDisplay (addr : Int)
  /-- The call `lc.setColumn(addr, col, value)`. -/
  | setColumn (addr col : Int) (value : Nat)
  /-- The call `lc.setRow(addr, row, value)`. -/
  | setRow (addr row : Int) (value : Nat)
  deriving DecidableEq, Repr

/-- The file-scope variables owned by the LED task. -/
structure Led where
  /-- The variable `currentLedAnimation`. -/
  currentLedAnimation : LedAnimation
  /-- The variable `ledAnimationStep`. -/
  ledAnimationStep : Int
  /-- The array `lifeline_data` (32 bytes). -/
  lifeline_data : List Nat
  /-- The variable `lifeline_blip_counter`. -/
  lifeline_blip_counter : Int
  deriving DecidableEq, Repr

/-- The values the LED variables are initialised with (the array is zero-initialised). -/
def Led.init : Led :=
  { currentLedAnimation := .VERTICAL_SWEEP, ledAnimationStep := 0,
    lifeline_data := List.replicate 32 0, lifeline_blip_counter := 0 }

/-- What `random` answers during one call of `ledMatrixAnimate`. -/
structure LedEnv where
  /-- The draws `random(0, 9)` of the Music mode, one per column, in column order. -/
  heights : List Int
  /-- The draw `random(0, 10)` of the Lifeline mode. -/
  blipDraw : Int
  deriving DecidableEq, Repr

/-- The calls `lc.clearDisplay(i)` for `i = 0 .. NUM_LED_MATRICES - 1`. -/
def clearAll : List LedCall :=
  (List.range NUM_LED_MATRICES.toNat).map (fun (i : Nat) => LedCall.clearDisplay (i : Int))

/-- The byte `col_data` of the Music mode: bits `0 .. height - 1` set. -/
def colData (height : Int) : Nat :=
  (List.range height.toNat).foldl (fun acc (h : Nat) => (acc ||| (1 <<< h)) % 256) 0

/-- The array after `memmove(&lifeline_data[0], &lifeline_data[1], totalColumns - 1)`. -/
def lifelineShift (d : List Nat) : List Nat :=
  (List.range (NUM_LED_MATRICES * 8 - 1).toNat).map (fun (i : Nat) => d.getD (i + 1) 0)
    ++ [d.getD (NUM_LED_MATRICES * 8 - 1).toNat 0]

/-- The function `ledMatrixAnimate()`: the variables after the call and the calls made
to the LED driver, in order. The argument `selectedLedAnimation` is the value read from
the shared variable of that name. -/
def ledMatrixAnimate (s : Led) (selectedLedAnimation : LedAnimation) (e : LedEnv) :
    Led × List LedCall :=
  let s :=
    if s.currentLedAnimation ≠ selectedLedAnimation then
      { s with currentLedAnimation := selectedLedAnimation, ledAnimationStep := 0 }
    else s
  match s.currentLedAnimation with
  | .VERTICAL_SWEEP =>
    let totalColumns := NUM_LED_MATRICES * 8
    let col_to_light := (totalColumns - 1) - s.ledAnimationStep
    let addr_logical := col_to_light.tdiv 8
    let col_in_matrix := col_to_light.tmod 8
    let addr_physical := (NUM_LED_MATRICES - 1) - addr_logical
    let calls := clearAll ++ [LedCall.setColumn addr_physical col_in_matrix 0xFF]
    let s1 := { s with ledAnimationStep := s.ledAnimationStep + 1 }
    (if s1.ledAnimationStep ≥ totalColumns then { s1 with ledAnimationStep := 0 } else s1, calls)
  | .HORIZONTAL_SWEEP =>
    let totalSteps := NUM_LED_MATRICES * 8
    let matrix_logical := s.ledAnimationStep.tdiv 8
    let row_sequence := s.ledAnimationStep.tmod 8
    let row_to_light := 7 - row_sequence
    let matrix_physical := (NUM_LED_MATRICES - 1) - matrix_logical
    let calls := clearAll ++ [LedCall.setRow matrix_physical row_to_light 0xFF]
    let s1 := { s with ledAnimationStep := s.ledAnimationStep + 1 }
    (if s1.ledAnimationStep ≥ totalSteps then { s1 with ledAnimationStep := 0 } else s1, calls)
  | .MUSIC =>
    let totalColumns := NUM_LED_MATRICES * 8
    (s, clearAll ++ (List.range totalColumns.toNat).map (fun (col : Nat) =>
      LedCall.setColumn ((col : Int).tdiv 8) ((col : Int).tmod 8) (colData (e.heights.getD col 0))))
  | .LIFELINE =>
    let totalColumns := NUM_LED_MATRICES * 8
    let d := lifelineShift s.lifeline_data
    let s1 :=
      if s.lifeline_blip_counter > 0 then
        let d1 :=
          if s.lifeline_blip_counter = 3 then d.set (totalColumns - 1).toNat blip_up1
          else if s.lifeline_blip_counter = 2 then d.set (totalColumns - 1).toNat blip_up2
          else if s.lifeline_blip_counter = 1 then d.set (totalColumns - 1).toNat blip_up1
          else d
        { s with lifeline_data := d1, lifeline_blip_counter := s.lifeline_blip_counter - 1 }
      else
        let d1 := d.set (totalColumns - 1).toNat lifeline_base
        if e.blipDraw = 0 then { s with lifeline_data := d1, lifeline_blip_counter := 3 }
        else { s with lifeline_data := d1 }
    (s1, clearAll ++ (List.range totalColumns.toNat).map (fun (col_logical : Nat) =>
      LedCall.setColumn ((NUM_LED_MATRICES - 1) - (col_logical : Int).tdiv 8)
        ((col_logical : Int).tmod 8) (s1.lifeline_data.getD col_logical 0)))
  | .OFF => (s, clearAll)

/-- One call of `ledMatrixAnimate`: the mode selected at that moment and the random draws. -/
structure LedTick where
  /-- The value of `selectedLedAnimation` read by the call. -/
  selected : LedAnimation
  /-- The random draws of the call. -/
  env : LedEnv
  deriving DecidableEq, Repr

/-- The LED variables after a series of calls of `ledMatrixAnimate`, oldest first. -/
def ledRun (s : Led) (ticks : List LedTick) : Led :=
  ticks.foldl (fun st t => (ledMatrixAnimate st t.selected t.env).1) s

/-- The driver calls of each call of `ledMatrixAnimate` in a series, oldest first. -/
def ledFrames : Led → List LedTick → List (List LedCall)
  | _, [] => []
  | s, t :: rest =>
    (ledMatrixAnimate s t.selected t.env).2 :: ledFrames (ledMatrixAnimate s t.selected t.env).1 rest

/-- A call of `ledMatrixAnimate` with mode `m` selected in which every random draw is 1. -/
def ledTickOf (m : LedAnimation) : LedTick :=
  { selected := m, env := { heights := List.replicate 32 1, blipDraw := 1 } }

/-- The driver calls of a Vertical Sweep tick at step `n`: clear every panel, then light
logical column `31 - n`, which is column `(31 - n) % 8` of physical panel `3 - (31 - n) / 8`. -/
def verticalFrame (n : Nat) : List LedCall :=
  clearAll ++ [LedCall.setColumn ((3 - (31 - n) / 8 : Nat) : Int) (((31 - n) % 8 : Nat) : Int) 0xFF]

/-- The driver calls of a Horizontal Sweep tick at step `n`: clear every panel, then light
row `7 - n % 8` of physical panel `3 - n / 8`. -/
def horizontalFrame (n : Nat) : List LedCall :=
  clearAll ++ [LedCall.setRow ((3 - n / 8 : Nat) : Int) ((7 - n % 8 : Nat) : Int) 0xFF]

/-- The driver calls of a Lifeline tick that leaves the array `d`: clear every panel, then
write `d[k]` to column `k % 8` of physical panel `3 - k / 8`, for `k = 0 .. 31`. -/
def lifelineFrame (d : List Nat) : List LedCall :=
  clearAll ++ (List.range 32).map (fun (k : Nat) =>
    LedCall.setColumn ((3 - k / 8 : Nat) : Int) ((k % 8 : Nat) : Int) (d.getD k 0))

/-- Whether a driver call addresses an existing panel (`0 .. 3`) and an existing column
or row (`0 .. 7`). -/
def LedCall.inRange : LedCall → Prop
  | .clearDisplay addr => 0 ≤ addr ∧ addr < 4
  | .setColumn addr col _ => 0 ≤ addr ∧ addr < 4 ∧ 0 ≤ col ∧ col < 8
  | .setRow addr row _ => 0 ≤ addr ∧ addr < 4 ∧ 0 ≤ row ∧ row < 8

/-- The successor of a mode in the cycle
Vertical Sweep, Horizontal Sweep, Music, Lifeline, Off, Vertical Sweep. -/
def LedAnimation.next : LedAnimation → LedAnimation
  | .VERTICAL_SWEEP => .HORIZONTAL_SWEEP
  | .HORIZONTAL_SWEEP => .MUSIC
  | .MUSIC => .LIFELINE
  | .LIFELINE => .OFF
  | .OFF => .VERTICAL_SWEEP

/-- The state after a series of accepted Animation presses with the given stamps. -/
def pressAnimationMany (s : Player) (stamps : List Nat) : Player :=
  stamps.foldl onAnimation s

/-- The first statement of the scrolling branch of `updateDisplay`: when at least
`scrollSpeedDelay` has elapsed, store the clock reading and increment the offset. -/
def scrollStep (s : Player) (e : DisplayEnv) : Player :=
  if usub e.tScrollCheck s.lastScrollTime ≥ scrollSpeedDelay then
    { s with lastScrollTime := e.tScrollStamp, titleScrollOffset := s.titleScrollOffset + 1 }
  else s

/-- Whether a render entering the scrolling branch takes the wrap branch
`else if (titleScrollOffset >= titleLen + contentWidthLine0)`. -/
def wrapTaken (s : Player) (titleLen : Int) (e : DisplayEnv) : Bool :=
  decide ((scrollStep s e).titleScrollOffset ≠ titleLen ∧
    (scrollStep s e).titleScrollOffset ≥ titleLen + (LCD_COLS - 1))

/-- The scroll invariant for the title of the current track, of length `L`: in the
paused-at-end state the offset is `L` (and the title overflows); otherwise the offset
is 0 or lies in `[0, L)`. -/
def ScrollOk (cat : List String) (s : Player) : Prop :=
  (s.isScrollingPaused = true →
    s.titleScrollOffset = ((titleOf cat s).length : Int) ∧ 15 < (titleOf cat s).length) ∧
  (s.isScrollingPaused = false →
    s.titleScrollOffset = 0 ∨
      (0 ≤ s.titleScrollOffset ∧ s.titleScrollOffset < ((titleOf cat s).length : Int)))

/-! # Theorems -/

/-! ## The flag invariant -/

lemma playWAV_flagsOk (s : Player) (f : String) (e : PlayEnv) : FlagsOk (playWAV s f e) := by
  unfold FlagsOk playWAV
  cases h1 : e.openOk <;> cases h2 : e.beginOk <;> simp

lemma playWAV_currentTrack (s : Player) (f : String) (e : PlayEnv) :
    (playWAV s f e).currentTrack = s.currentTrack := by
  unfold playWAV
  cases h1 : e.openOk <;> cases h2 : e.beginOk <;> cases h3 : (s.wav && e.wasRunning) <;> simp [h3]

lemma playWAV_lastButtonPress (s : Player) (f : String) (e : PlayEnv) :
    (playWAV s f e).lastButtonPress = s.lastButtonPress := by
  unfold playWAV
  cases h1 : e.openOk <;> cases h2 : e.beginOk <;> cases h3 : (s.wav && e.wasRunning) <;> simp [h3]

lemma playWAV_lastAnimationButtonPress (s : Player) (f : String) (e : PlayEnv) :
    (playWAV s f e).lastAnimationButtonPress = s.lastAnimationButtonPress := by
  unfold playWAV
  cases h1 : e.openOk <;> cases h2 : e.beginOk <;> cases h3 : (s.wav && e.wasRunning) <;> simp [h3]

lemma playWAV_selectedLedAnimation (s : Player) (f : String) (e : PlayEnv) :
    (playWAV s f e).selectedLedAnimation = s.selectedLedAnimation := by
  unfold playWAV
  cases h1 : e.openOk <;> cases h2 : e.beginOk <;> cases h3 : (s.wav && e.wasRunning) <;> simp [h3]

lemma playbackTick_flagsOk (s : Player) (e : LoopEnv) (h : FlagsOk s) :
    FlagsOk (playbackTick s e) := by
  unfold FlagsOk at *
  unfold playbackTick
  cases h1 : s.isPlaying <;> cases h2 : s.isPaused <;> cases h3 : (s.wav && e.wavRunning) <;>
    cases h4 : e.pumpOk <;> simp_all

lemma onPrev_flagsOk (cat : List String) (s : Player) (t : Nat) (e : PlayEnv) :
    FlagsOk (onPrev cat s t e) := playWAV_flagsOk _ _ _

lemma onNext_flagsOk (cat : List String) (s : Player) (t : Nat) (e : PlayEnv) :
    FlagsOk (onNext cat s t e) := playWAV_flagsOk _ _ _

lemma onPlay_flagsOk (cat : List String) (s : Player) (t : Nat) (e : PlayEnv) :
    FlagsOk (onPlay cat s t e) := by
  unfold onPlay
  cases h : s.isPlaying
  · simpa [h] using playWAV_flagsOk _ _ _
  · simp [h, FlagsOk]

lemma buttonBlock_flagsOk (cat : List String) (s : Player) (e : LoopEnv) (h : FlagsOk s) :
    FlagsOk (buttonBlock cat s e) := by
  unfold buttonBlock
  split_ifs
  · exact onPrev_flagsOk _ _ _ _
  · exact onNext_flagsOk _ _ _ _
  · exact onPlay_flagsOk _ _ _ _
  · exact h
  · exact h

lemma animationBlock_flags (s : Player) (e : LoopEnv) :
    (animationBlock s e).isPlaying = s.isPlaying ∧ (animationBlock s e).isPaused = s.isPaused ∧
    (animationBlock s e).currentTrack = s.currentTrack ∧
    (animationBlock s e).lastButtonPress = s.lastButtonPress ∧
    (animationBlock s e).audio = s.audio := by
  unfold animationBlock onAnimation
  split_ifs <;> simp

lemma loop_flagsOk (cat : List String) (s : Player) (e : LoopEnv) (h : FlagsOk s) :
    FlagsOk (loop cat s e) := by
  have h1 := buttonBlock_flagsOk cat _ e (playbackTick_flagsOk s e h)
  have h2 := animationBlock_flags (buttonBlock cat (playbackTick s e) e) e
  unfold FlagsOk at *
  unfold loop
  rw [h2.1, h2.2.1]
  exact h1

lemma titleLine_flags (cat : List String) (s : Player) (e : DisplayEnv) :
    (titleLine cat s e).1.isPlaying = s.isPlaying ∧ (titleLine cat s e).1.isPaused = s.isPaused ∧
    (titleLine cat s e).1.currentTrack = s.currentTrack := by
  unfold titleLine scrollAdvance
  simp only
  split_ifs <;> simp

lemma updateDisplay_flagsOk (cat : List String) (s : Player) (e : DisplayEnv) (h : FlagsOk s) :
    FlagsOk (updateDisplay cat s e).state := by
  have h2 := titleLine_flags cat s e
  unfold FlagsOk at *
  unfold updateDisplay
  simp only
  rw [h2.1, h2.2.1]
  exact h

lemma run_flagsOk (cat : List String) (evs : List Event) :
    ∀ s, FlagsOk s → FlagsOk (run cat s evs) := by
  induction evs with
  | nil => intro s h; simpa [run] using h
  | cons ev rest ih =>
    intro s h
    have : run cat s (ev :: rest) = run cat (step cat s ev) rest := by simp [run]
    rw [this]
    apply ih
    cases ev with
    | tick e => exact loop_flagsOk cat s e h
    | render e => exact updateDisplay_flagsOk cat s e h

lemma playWAV_audio_playCalls (s : Player) (f : String) (e : PlayEnv) :
    playCalls (playWAV s f e) = playCalls s + 1 := by
  unfold playWAV playCalls
  cases h1 : e.openOk <;> cases h2 : e.beginOk <;> cases h3 : (s.wav && e.wasRunning) <;>
    simp [h3, List.filter_append]

/-- C1: `isPaused` implies `isPlaying` in every reachable state: it holds initially,
after every `playWAV` (whatever the outcome), is preserved by the playback tick,
holds after every accepted Prev, Next and Play/Pause handler, is preserved by a whole
`loop` iteration, and therefore holds after every sequence of `loop` iterations and
`updateDisplay` calls from the initial state. -/
theorem C1_flags_invariant (cat : List String) :
    FlagsOk Player.init ∧
    (∀ s f e, FlagsOk (playWAV s f e)) ∧
    (∀ s e, FlagsOk s → FlagsOk (playbackTick s e)) ∧
    (∀ s t e, FlagsOk (onPrev cat s t e)) ∧
    (∀ s t e, FlagsOk (onNext cat s t e)) ∧
    (∀ s t e, FlagsOk (onPlay cat s t e)) ∧
    (∀ s e, FlagsOk s → FlagsOk (loop cat s e)) ∧
    (∀ evs, FlagsOk (run cat Player.init evs)) := by
  refine ⟨by decide, playWAV_flagsOk, playbackTick_flagsOk, onPrev_flagsOk cat,
    onNext_flagsOk cat, onPlay_flagsOk cat, loop_flagsOk cat, ?_⟩
  intro evs
  exact run_flagsOk cat evs Player.init (by decide)

/-- C1 applied: a paused player stays consistent through a playback tick. -/
theorem C1_flags_invariant_witness :
    FlagsOk { Player.init with isPlaying := true, isPaused := true } ∧
    FlagsOk (playbackTick { Player.init with isPlaying := true, isPaused := true } (quietEnv 0)) :=
  ⟨by decide, (C1_flags_invariant tracks).2.2.1 _ _ (by decide)⟩


/-! ## Track selection -/

lemma onNext_currentTrack (cat : List String) (s : Player) (t : Nat) (e : PlayEnv) :
    (onNext cat s t e).currentTrack = (s.currentTrack + 1).tmod (numTracks cat) := by
  unfold onNext
  simp only [playWAV_currentTrack]

lemma onPrev_currentTrack (cat : List String) (s : Player) (t : Nat) (e : PlayEnv) :
    (onPrev cat s t e).currentTrack = (s.currentTrack - 1 + numTracks cat).tmod (numTracks cat) := by
  unfold onPrev
  simp only [playWAV_currentTrack]

lemma tmod_eq_emod_of_nonneg (a n : Int) (ha : 0 ≤ a) (hn : 0 < n) : a.tmod n = a % n := by
  rw [Int.tmod_eq_emod ha (le_of_lt hn)]

lemma pressNextMany_currentTrack (cat : List String) (n : Int) (hn : 0 < n)
    (hcat : numTracks cat = n) (envs : List (Nat × PlayEnv)) :
    ∀ s : Player, 0 ≤ s.currentTrack → s.currentTrack < n →
      (pressNextMany cat s envs).currentTrack = (s.currentTrack + (envs.length : Int)) % n := by
  induction envs with
  | nil =>
    intro s h0 h1
    simp [pressNextMany, Int.emod_eq_of_lt h0 h1]
  | cons x rest ih =>
    intro s h0 h1
    have hstep : pressNextMany cat s (x :: rest) = pressNextMany cat (onNext cat s x.1 x.2) rest := by
      simp [pressNextMany]
    have hc : (onNext cat s x.1 x.2).currentTrack = (s.currentTrack + 1) % n := by
      rw [onNext_currentTrack, hcat, tmod_eq_emod_of_nonneg _ _ (by omega) hn]
    rw [hstep, ih _ (by rw [hc]; exact Int.emod_nonneg _ (by omega))
      (by rw [hc]; exact Int.emod_lt_of_pos _ hn), hc]
    simp only [List.length_cons, Nat.cast_add, Nat.cast_one]
    rw [Int.emod_add_emod]
    congr 1
    ring

/-- C2: for every `numTracks = n > 0` and every `currentTrack = i` with `0 ≤ i < n`, an
accepted Previous press stores `(i - 1 + n) % n` and an accepted Next press stores
`(i + 1) % n` (the C remainder and the mathematical one agree here), both indices lie in
`[0, n)`, and `n` accepted Next presses in a row bring `currentTrack` back to `i`. -/
theorem C2_prev_next_cyclic (cat : List String) (n : Int) (hcat : numTracks cat = n)
    (hn : 0 < n) (s : Player) (h0 : 0 ≤ s.currentTrack) (h1 : s.currentTrack < n) :
    (∀ t e, (onPrev cat s t e).currentTrack = (s.currentTrack - 1 + n).tmod n ∧
            (onPrev cat s t e).currentTrack = (s.currentTrack - 1 + n) % n ∧
            0 ≤ (onPrev cat s t e).currentTrack ∧ (onPrev cat s t e).currentTrack < n) ∧
    (∀ t e, (onNext cat s t e).currentTrack = (s.currentTrack + 1).tmod n ∧
            (onNext cat s t e).currentTrack = (s.currentTrack + 1) % n ∧
            0 ≤ (onNext cat s t e).currentTrack ∧ (onNext cat s t e).currentTrack < n) ∧
    (∀ envs : List (Nat × PlayEnv), (envs.length : Int) = n →
            (pressNextMany cat s envs).currentTrack = s.currentTrack) := by
  refine ⟨?_, ?_, ?_⟩
  · intro t e
    have hc : (onPrev cat s t e).currentTrack = (s.currentTrack - 1 + n) % n := by
      rw [onPrev_currentTrack, hcat, tmod_eq_emod_of_nonneg _ _ (by omega) hn]
    refine ⟨by rw [onPrev_currentTrack, hcat], hc, ?_, ?_⟩
    · rw [hc]; exact Int.emod_nonneg _ (by omega)
    · rw [hc]; exact Int.emod_lt_of_pos _ hn
  · intro t e
    have hc : (onNext cat s t e).currentTrack = (s.currentTrack + 1) % n := by
      rw [onNext_currentTrack, hcat, tmod_eq_emod_of_nonneg _ _ (by omega) hn]
    refine ⟨by rw [onNext_currentTrack, hcat], hc, ?_, ?_⟩
    · rw [hc]; exact Int.emod_nonneg _ (by omega)
    · rw [hc]; exact Int.emod_lt_of_pos _ hn
  · intro envs hlen
    rw [pressNextMany_currentTrack cat n hn hcat envs s h0 h1, hlen, Int.add_emod_self]
    exact Int.emod_eq_of_lt h0 h1

/-- C2 applied to the catalog of the sketch (nine tracks) at track 8: Previous gives 7,
Next wraps to 0, and nine Next presses return to 8. -/
theorem C2_prev_next_cyclic_witness :
    (onPrev tracks { Player.init with currentTrack := 8 } 0 ⟨false, true, true⟩).currentTrack = 7 ∧
    (onNext tracks { Player.init with currentTrack := 8 } 0 ⟨false, true, true⟩).currentTrack = 0 ∧
    (pressNextMany tracks { Player.init with currentTrack := 8 }
      (List.replicate 9 (0, ⟨false, true, true⟩))).currentTrack = 8 := by
  have h := C2_prev_next_cyclic tracks 9 (by decide) (by decide)
    { Player.init with currentTrack := 8 } (by decide) (by decide)
  refine ⟨?_, ?_, ?_⟩
  · rw [(h.1 0 ⟨false, true, true⟩).1]; decide
  · rw [(h.2.1 0 ⟨false, true, true⟩).1]; decide
  · exact h.2.2 _ (by decide)


/-! ## Postconditions of `playWAV` and of the playback tick -/

/-- C3: postcondition of `playWAV` for every prior state and track: when the file does not
open, or the decoder does not begin, `isPlaying` and `isPaused` are false afterwards; when
the file opens and the decoder begins, `isPlaying` is true and `isPaused` is false; in every
outcome `titleScrollOffset = 0`, `isScrollingPaused = false` and `currentTrack` is unchanged. -/
theorem C3_playWAV_post (s : Player) (filename : String) (e : PlayEnv) :
    (e.openOk = false ∨ e.beginOk = false →
      (playWAV s filename e).isPlaying = false ∧ (playWAV s filename e).isPaused = false) ∧
    (e.openOk = true ∧ e.beginOk = true →
      (playWAV s filename e).isPlaying = true ∧ (playWAV s filename e).isPaused = false) ∧
    (playWAV s filename e).titleScrollOffset = 0 ∧
    (playWAV s filename e).isScrollingPaused = false ∧
    (playWAV s filename e).currentTrack = s.currentTrack := by
  unfold playWAV
  cases h1 : e.openOk <;> cases h2 : e.beginOk <;> cases h3 : (s.wav && e.wasRunning) <;>
    simp [h3]

/-- C3 applied to a paused player with a scrolled title whose next file fails to open. -/
theorem C3_playWAV_post_witness :
    (playWAV { Player.init with isPlaying := true, isPaused := true, titleScrollOffset := 7 }
      "/BABASHA_Marae.wav" ⟨true, false, true⟩).isPlaying = false ∧
    (playWAV { Player.init with isPlaying := true, isPaused := true, titleScrollOffset := 7 }
      "/BABASHA_Marae.wav" ⟨true, false, true⟩).isPaused = false :=
  (C3_playWAV_post { Player.init with isPlaying := true, isPaused := true, titleScrollOffset := 7 }
    "/BABASHA_Marae.wav" ⟨true, false, true⟩).1 (Or.inl rfl)

/-- C4: the playback tick. With `isPlaying` and not `isPaused`: (a) a running session whose
pump reports still-running is pumped once and both flags stay as they were; (b) a running
session whose pump reports completion or failure is pumped once, then stopped, and
`isPlaying` becomes false (with `isPaused` still false); (c) without a running session both
flags become false and the session is not pumped. With `isPaused` set or `isPlaying` clear
the tick changes nothing at all: no pump, no flag. -/
theorem C4_playback_tick (s : Player) (e : LoopEnv) :
    (s.isPlaying = true ∧ s.isPaused = false →
      (s.wav = true ∧ e.wavRunning = true ∧ e.pumpOk = true →
        (playbackTick s e).isPlaying = s.isPlaying ∧ (playbackTick s e).isPaused = s.isPaused ∧
        (playbackTick s e).audio = s.audio ++ [AudioCall.pump]) ∧
      (s.wav = true ∧ e.wavRunning = true ∧ e.pumpOk = false →
        (playbackTick s e).isPlaying = false ∧ (playbackTick s e).isPaused = false ∧
        (playbackTick s e).audio = s.audio ++ [AudioCall.pump, AudioCall.stop]) ∧
      (s.wav = false ∨ e.wavRunning = false →
        (playbackTick s e).isPlaying = false ∧ (playbackTick s e).isPaused = false ∧
        (playbackTick s e).audio = s.audio)) ∧
    (s.isPaused = true ∨ s.isPlaying = false → playbackTick s e = s) := by
  unfold playbackTick
  cases h1 : s.isPlaying <;> cases h2 : s.isPaused <;> cases h3 : s.wav <;>
    cases h4 : e.wavRunning <;> cases h5 : e.pumpOk <;> simp [h1, h2]

/-- C4 applied: a playing session that reports completion is stopped and `isPlaying` clears. -/
theorem C4_playback_tick_witness :
    (playbackTick { Player.init with isPlaying := true, wav := true }
        { quietEnv 0 with pumpOk := false }).isPlaying = false ∧
    (playbackTick { Player.init with isPlaying := true, wav := true }
        { quietEnv 0 with pumpOk := false }).isPaused = false ∧
    (playbackTick { Player.init with isPlaying := true, wav := true }
        { quietEnv 0 with pumpOk := false }).audio = [AudioCall.pump, AudioCall.stop] :=
  ((C4_playback_tick { Player.init with isPlaying := true, wav := true }
      { quietEnv 0 with pumpOk := false }).1 ⟨rfl, rfl⟩).2.1 ⟨rfl, rfl, rfl⟩


/-! ## Debounce -/

lemma playbackTick_frame (s : Player) (e : LoopEnv) :
    (playbackTick s e).lastButtonPress = s.lastButtonPress ∧
    (playbackTick s e).lastAnimationButtonPress = s.lastAnimationButtonPress ∧
    (playbackTick s e).currentTrack = s.currentTrack ∧
    (playbackTick s e).selectedLedAnimation = s.selectedLedAnimation ∧
    (playbackTick s e).isPaused = s.isPaused ∧
    playCalls (playbackTick s e) = playCalls s := by
  unfold playbackTick playCalls
  cases h1 : s.isPlaying <;> cases h2 : s.isPaused <;> cases h3 : s.wav <;>
    cases h4 : e.wavRunning <;> cases h5 : e.pumpOk <;> simp [h1, h2, List.filter_append]

lemma buttonBlock_blocked (cat : List String) (s : Player) (e : LoopEnv)
    (h : usub e.tButtons s.lastButtonPress < debounceDelay) : buttonBlock cat s e = s := by
  unfold buttonBlock
  rw [if_neg (by omega)]

lemma animationBlock_blocked (s : Player) (e : LoopEnv)
    (h : usub e.tAnimation s.lastAnimationButtonPress < debounceDelay) :
    animationBlock s e = s := by
  unfold animationBlock
  rw [if_neg (by omega)]

lemma onTrack_frame (cat : List String) (s : Player) (t : Nat) (e : PlayEnv) :
    ((onPrev cat s t e).lastButtonPress = t ∧
      (onPrev cat s t e).lastAnimationButtonPress = s.lastAnimationButtonPress ∧
      (onPrev cat s t e).selectedLedAnimation = s.selectedLedAnimation) ∧
    ((onNext cat s t e).lastButtonPress = t ∧
      (onNext cat s t e).lastAnimationButtonPress = s.lastAnimationButtonPress ∧
      (onNext cat s t e).selectedLedAnimation = s.selectedLedAnimation) ∧
    ((onPlay cat s t e).lastButtonPress = t ∧
      (onPlay cat s t e).lastAnimationButtonPress = s.lastAnimationButtonPress ∧
      (onPlay cat s t e).selectedLedAnimation = s.selectedLedAnimation) := by
  refine ⟨?_, ?_, ?_⟩
  · unfold onPrev
    simp [playWAV_lastButtonPress, playWAV_lastAnimationButtonPress, playWAV_selectedLedAnimation]
  · unfold onNext
    simp [playWAV_lastButtonPress, playWAV_lastAnimationButtonPress, playWAV_selectedLedAnimation]
  · unfold onPlay
    cases h : s.isPlaying <;>
    simp [h, playWAV_lastButtonPress, playWAV_lastAnimationButtonPress,
      playWAV_selectedLedAnimation]

lemma buttonBlock_animation_frame (cat : List String) (s : Player) (e : LoopEnv) :
    (buttonBlock cat s e).lastAnimationButtonPress = s.lastAnimationButtonPress ∧
    (buttonBlock cat s e).selectedLedAnimation = s.selectedLedAnimation := by
  have h := onTrack_frame cat s e.tStamp e.play
  unfold buttonBlock
  split_ifs
  · exact ⟨h.1.2.1, h.1.2.2⟩
  · exact ⟨h.2.1.2.1, h.2.1.2.2⟩
  · exact ⟨h.2.2.2.1, h.2.2.2.2⟩
  · exact ⟨rfl, rfl⟩
  · exact ⟨rfl, rfl⟩

lemma loop_track_blocked (cat : List String) (s : Player) (e : LoopEnv)
    (h : usub e.tButtons s.lastButtonPress < debounceDelay) :
    loop cat s e = animationBlock (playbackTick s e) e ∧
    (loop cat s e).lastButtonPress = s.lastButtonPress ∧
    (loop cat s e).currentTrack = s.currentTrack ∧
    (loop cat s e).isPaused = s.isPaused ∧
    playCalls (loop cat s e) = playCalls s := by
  have ht := playbackTick_frame s e
  have hb : buttonBlock cat (playbackTick s e) e = playbackTick s e :=
    buttonBlock_blocked cat _ e (by rw [ht.1]; exact h)
  have ha := animationBlock_flags (playbackTick s e) e
  unfold loop
  rw [hb]
  refine ⟨rfl, ?_, ?_, ?_, ?_⟩
  · rw [ha.2.2.2.1, ht.1]
  · rw [ha.2.2.1, ht.2.2.1]
  · rw [ha.2.1, ht.2.2.2.2.1]
  · unfold playCalls
    rw [ha.2.2.2.2]
    exact ht.2.2.2.2.2

lemma loop_animation_blocked (cat : List String) (s : Player) (e : LoopEnv)
    (h : usub e.tAnimation s.lastAnimationButtonPress < debounceDelay) :
    loop cat s e = buttonBlock cat (playbackTick s e) e ∧
    (loop cat s e).lastAnimationButtonPress = s.lastAnimationButtonPress ∧
    (loop cat s e).selectedLedAnimation = s.selectedLedAnimation := by
  have ht := playbackTick_frame s e
  have hb := buttonBlock_animation_frame cat (playbackTick s e) e
  have ha : animationBlock (buttonBlock cat (playbackTick s e) e) e
      = buttonBlock cat (playbackTick s e) e :=
    animationBlock_blocked _ e (by rw [hb.1, ht.2.1]; exact h)
  unfold loop
  rw [ha]
  exact ⟨rfl, by rw [hb.1, ht.2.1], by rw [hb.2, ht.2.2.2.1]⟩

lemma loopMany_track_blocked (cat : List String) (envs : List LoopEnv) :
    ∀ s : Player, (∀ e ∈ envs, usub e.tButtons s.lastButtonPress < debounceDelay) →
      (loopMany cat s envs).lastButtonPress = s.lastButtonPress ∧
      (loopMany cat s envs).currentTrack = s.currentTrack ∧
      (loopMany cat s envs).isPaused = s.isPaused ∧
      playCalls (loopMany cat s envs) = playCalls s := by
  induction envs with
  | nil => intro s _; simp [loopMany]
  | cons e rest ih =>
    intro s h
    have h1 := loop_track_blocked cat s e (h e (List.mem_cons_self _ _))
    have hstep : loopMany cat s (e :: rest) = loopMany cat (loop cat s e) rest := by
      simp [loopMany]
    have h2 := ih (loop cat s e) (by
      intro e' he'
      rw [h1.2.1]
      exact h e' (List.mem_cons_of_mem _ he'))
    rw [hstep]
    exact ⟨by rw [h2.1, h1.2.1], by rw [h2.2.1, h1.2.2.1], by rw [h2.2.2.1, h1.2.2.2.1],
      by rw [h2.2.2.2, h1.2.2.2.2]⟩

lemma loopMany_animation_blocked (cat : List String) (envs : List LoopEnv) :
    ∀ s : Player,
      (∀ e ∈ envs, usub e.tAnimation s.lastAnimationButtonPress < debounceDelay) →
      (loopMany cat s envs).lastAnimationButtonPress = s.lastAnimationButtonPress ∧
      (loopMany cat s envs).selectedLedAnimation = s.selectedLedAnimation := by
  induction envs with
  | nil => intro s _; simp [loopMany]
  | cons e rest ih =>
    intro s h
    have h1 := loop_animation_blocked cat s e (h e (List.mem_cons_self _ _))
    have hstep : loopMany cat s (e :: rest) = loopMany cat (loop cat s e) rest := by
      simp [loopMany]
    have h2 := ih (loop cat s e) (by
      intro e' he'
      rw [h1.2.1]
      exact h e' (List.mem_cons_of_mem _ he'))
    rw [hstep]
    exact ⟨by rw [h2.1, h1.2.1], by rw [h2.2, h1.2.2]⟩

lemma loop_track_accepted (cat : List String) (s : Player) (e : LoopEnv)
    (h : usub e.tButtons s.lastButtonPress ≥ debounceDelay) :
    buttonBlock cat (playbackTick s e) e =
      (if e.btnPrev then onPrev cat (playbackTick s e) e.tStamp e.play
       else if e.btnNext then onNext cat (playbackTick s e) e.tStamp e.play
       else if e.btnPlay then onPlay cat (playbackTick s e) e.tStamp e.play
       else playbackTick s e) := by
  unfold buttonBlock
  rw [if_pos (by rw [(playbackTick_frame s e).1]; exact h)]

lemma onAnimation_frame (s : Player) (t : Nat) :
    (onAnimation s t).lastAnimationButtonPress = t ∧
    (onAnimation s t).lastButtonPress = s.lastButtonPress ∧
    (onAnimation s t).currentTrack = s.currentTrack ∧
    (onAnimation s t).isPlaying = s.isPlaying ∧
    (onAnimation s t).isPaused = s.isPaused := by
  unfold onAnimation
  simp

lemma loop_accept_track (cat : List String) (s0 : Player) (e0 : LoopEnv)
    (hd : usub e0.tButtons s0.lastButtonPress ≥ debounceDelay) (hanim : e0.btnAnimation = false) :
    (e0.btnPrev = true →
      loop cat s0 e0 = onPrev cat (playbackTick s0 e0) e0.tStamp e0.play ∧
      playCalls (loop cat s0 e0) = playCalls s0 + 1) ∧
    (e0.btnPrev = false ∧ e0.btnNext = true →
      loop cat s0 e0 = onNext cat (playbackTick s0 e0) e0.tStamp e0.play ∧
      playCalls (loop cat s0 e0) = playCalls s0 + 1) ∧
    (e0.btnPrev = false ∧ e0.btnNext = false ∧ e0.btnPlay = true →
      loop cat s0 e0 = onPlay cat (playbackTick s0 e0) e0.tStamp e0.play) := by
  have ht := playbackTick_frame s0 e0
  have hb := loop_track_accepted cat s0 e0 hd
  have ha : ∀ s, animationBlock s e0 = s := by
    intro s
    unfold animationBlock
    simp [hanim]
  refine ⟨?_, ?_, ?_⟩
  · intro h1
    have hl : loop cat s0 e0 = onPrev cat (playbackTick s0 e0) e0.tStamp e0.play := by
      unfold loop
      rw [ha, hb, if_pos h1]
    refine ⟨hl, ?_⟩
    rw [hl]
    unfold onPrev
    rw [playWAV_audio_playCalls]
    exact congrArg (fun k => k + 1) ht.2.2.2.2.2
  · rintro ⟨h1, h2⟩
    have hl : loop cat s0 e0 = onNext cat (playbackTick s0 e0) e0.tStamp e0.play := by
      unfold loop
      rw [ha, hb, if_neg (by simp [h1]), if_pos h2]
    refine ⟨hl, ?_⟩
    rw [hl]
    unfold onNext
    rw [playWAV_audio_playCalls]
    exact congrArg (fun k => k + 1) ht.2.2.2.2.2
  · rintro ⟨h1, h2, h3⟩
    unfold loop
    rw [ha, hb, if_neg (by simp [h1]), if_neg (by simp [h2]), if_pos h3]

lemma loop_accept_animation (cat : List String) (s0 : Player) (e0 : LoopEnv)
    (hd : usub e0.tAnimation s0.lastAnimationButtonPress ≥ debounceDelay)
    (h0 : e0.btnAnimation = true) (h1 : e0.btnPrev = false) (h2 : e0.btnNext = false)
    (h3 : e0.btnPlay = false) :
    loop cat s0 e0 = onAnimation (playbackTick s0 e0) e0.tAnimStamp := by
  have ht := playbackTick_frame s0 e0
  have hbb : buttonBlock cat (playbackTick s0 e0) e0 = playbackTick s0 e0 := by
    unfold buttonBlock
    simp [h1, h2, h3]
  unfold loop
  rw [hbb]
  unfold animationBlock
  rw [if_pos (by rw [ht.2.1]; exact hd), if_pos h0]

/-- C5: debounce of one button, with elapsed time taken as the sketch computes it
(`millis() - last` on `unsigned long`, here `usub`) against the stamp stored by the last
accepted press of the button's timer.
Track buttons (timer `lastButtonPress`): when an iteration `e0` accepts a Prev, Next or
Play/Pause press it stores its stamp, and through every series of later iterations whose
clock reading is less than 200 ms past that stamp no pressed level does anything: the
track, the pause flag, the number of `playWAV` calls and the stamp stay as they were.
Animation button (timer `lastAnimationButtonPress`): likewise the selected mode and the
stamp stay as they were. And in an iteration at least 200 ms past the stamp in which only
one button reads pressed, exactly the handler of that button runs, once, after the
playback tick. -/
theorem C5_debounce (cat : List String) (s0 : Player) (e0 : LoopEnv) :
    (usub e0.tButtons s0.lastButtonPress ≥ debounceDelay →
      (e0.btnPrev = true ∨ e0.btnNext = true ∨ e0.btnPlay = true) →
      (loop cat s0 e0).lastButtonPress = e0.tStamp ∧
      ∀ envs : List LoopEnv, (∀ e ∈ envs, usub e.tButtons e0.tStamp < debounceDelay) →
        (loopMany cat (loop cat s0 e0) envs).lastButtonPress = e0.tStamp ∧
        (loopMany cat (loop cat s0 e0) envs).currentTrack = (loop cat s0 e0).currentTrack ∧
        (loopMany cat (loop cat s0 e0) envs).isPaused = (loop cat s0 e0).isPaused ∧
        playCalls (loopMany cat (loop cat s0 e0) envs) = playCalls (loop cat s0 e0)) ∧
    (usub e0.tAnimation s0.lastAnimationButtonPress ≥ debounceDelay →
      e0.btnAnimation = true →
      (loop cat s0 e0).lastAnimationButtonPress = e0.tAnimStamp ∧
      ∀ envs : List LoopEnv, (∀ e ∈ envs, usub e.tAnimation e0.tAnimStamp < debounceDelay) →
        (loopMany cat (loop cat s0 e0) envs).lastAnimationButtonPress = e0.tAnimStamp ∧
        (loopMany cat (loop cat s0 e0) envs).selectedLedAnimation
          = (loop cat s0 e0).selectedLedAnimation) ∧
    (usub e0.tButtons s0.lastButtonPress ≥ debounceDelay → e0.btnAnimation = false →
      (e0.btnPrev = true ∧ e0.btnNext = false ∧ e0.btnPlay = false →
        loop cat s0 e0 = onPrev cat (playbackTick s0 e0) e0.tStamp e0.play ∧
        playCalls (loop cat s0 e0) = playCalls s0 + 1) ∧
      (e0.btnPrev = false ∧ e0.btnNext = true ∧ e0.btnPlay = false →
        loop cat s0 e0 = onNext cat (playbackTick s0 e0) e0.tStamp e0.play ∧
        playCalls (loop cat s0 e0) = playCalls s0 + 1) ∧
      (e0.btnPrev = false ∧ e0.btnNext = false ∧ e0.btnPlay = true →
        loop cat s0 e0 = onPlay cat (playbackTick s0 e0) e0.tStamp e0.play)) ∧
    (usub e0.tAnimation s0.lastAnimationButtonPress ≥ debounceDelay →
      e0.btnAnimation = true ∧ e0.btnPrev = false ∧ e0.btnNext = false ∧ e0.btnPlay = false →
      loop cat s0 e0 = onAnimation (playbackTick s0 e0) e0.tAnimStamp) := by
  have ht := playbackTick_frame s0 e0
  refine ⟨?_, ?_, ?_, ?_⟩
  · intro hd hbtn
    have hb := loop_track_accepted cat s0 e0 hd
    have hf := onTrack_frame cat (playbackTick s0 e0) e0.tStamp e0.play
    have hstamp : (loop cat s0 e0).lastButtonPress = e0.tStamp := by
      unfold loop
      rw [(animationBlock_flags _ e0).2.2.2.1, hb]
      rcases hbtn with h | h | h
      · rw [if_pos h]; exact hf.1.1
      · split_ifs
        · exact hf.1.1
        · exact hf.2.1.1
      · split_ifs
        · exact hf.1.1
        · exact hf.2.1.1
        · exact hf.2.2.1
    refine ⟨hstamp, ?_⟩
    intro envs henvs
    have h := loopMany_track_blocked cat envs (loop cat s0 e0) (by rw [hstamp]; exact henvs)
    exact ⟨by rw [h.1, hstamp], h.2.1, h.2.2.1, h.2.2.2⟩
  · intro hd hbtn
    have hb := buttonBlock_animation_frame cat (playbackTick s0 e0) e0
    have hstamp : (loop cat s0 e0).lastAnimationButtonPress = e0.tAnimStamp := by
      unfold loop animationBlock
      rw [if_pos (by rw [hb.1, ht.2.1]; exact hd), if_pos hbtn]
      exact (onAnimation_frame _ _).1
    refine ⟨hstamp, ?_⟩
    intro envs henvs
    have h := loopMany_animation_blocked cat envs (loop cat s0 e0) (by rw [hstamp]; exact henvs)
    exact ⟨by rw [h.1, hstamp], h.2⟩
  · intro hd hanim
    have h := loop_accept_track cat s0 e0 hd hanim
    exact ⟨fun hb => h.1 hb.1, fun hb => h.2.1 ⟨hb.1, hb.2.1⟩, fun hb => h.2.2 hb⟩
  · rintro hd ⟨h0, h1, h2, h3⟩
    exact loop_accept_animation cat s0 e0 hd h0 h1 h2 h3

/-- C5 applied to the sketch: from the initial state a Next press is accepted at clock
reading 1000 (track 1, one `playWAV` call); Next is still held at readings 1050 and 1199,
which are inside the window, and nothing more happens. -/
theorem C5_debounce_witness :
    usub 1000 Player.init.lastButtonPress ≥ debounceDelay ∧
    (loop tracks Player.init (buttonsEnv 1000 false true false false)).currentTrack = 1 ∧
    playCalls (loop tracks Player.init (buttonsEnv 1000 false true false false)) = 1 ∧
    (loopMany tracks (loop tracks Player.init (buttonsEnv 1000 false true false false))
      [buttonsEnv 1050 false true false false, buttonsEnv 1199 false true false false]).currentTrack
      = 1 ∧
    playCalls (loopMany tracks (loop tracks Player.init (buttonsEnv 1000 false true false false))
      [buttonsEnv 1050 false true false false, buttonsEnv 1199 false true false false]) = 1 := by
  have h := ((C5_debounce tracks Player.init (buttonsEnv 1000 false true false false)).1
    (by decide) (by decide)).2
    [buttonsEnv 1050 false true false false, buttonsEnv 1199 false true false false] (by decide)
  have h1 : (loop tracks Player.init (buttonsEnv 1000 false true false false)).currentTrack = 1 := by
    decide
  have h2 : playCalls (loop tracks Player.init (buttonsEnv 1000 false true false false)) = 1 := by
    decide
  exact ⟨by decide, h1, h2, by rw [h.2.1, h1], by rw [h.2.2.2, h2]⟩


/-- C6 as stated fails for two track buttons: Prev, Next and Play/Pause share the one
timer `lastButtonPress`. From the initial state, accepting Prev at clock reading 1000
moves that timer from 0 to 1000; a Next press at reading 1100 (Prev released, Next never
accepted before) falls inside the window and is dropped: no track change, no `playWAV`
call, whereas the Next handler would have moved to track 0. -/
theorem C6_counterexample :
    Player.init.lastButtonPress = 0 ∧
    (loop tracks Player.init (buttonsEnv 1000 true false false false)).lastButtonPress = 1000 ∧
    (loop tracks Player.init (buttonsEnv 1000 true false false false)).currentTrack = 8 ∧
    (loop tracks (loop tracks Player.init (buttonsEnv 1000 true false false false))
      (buttonsEnv 1100 false true false false)).currentTrack = 8 ∧
    playCalls (loop tracks (loop tracks Player.init (buttonsEnv 1000 true false false false))
      (buttonsEnv 1100 false true false false))
      = playCalls (loop tracks Player.init (buttonsEnv 1000 true false false false)) ∧
    (onNext tracks (loop tracks Player.init (buttonsEnv 1000 true false false false)) 1100
      (buttonsEnv 1100 false true false false).play).currentTrack = 0 := by
  decide

/-- C6 amended: the sketch has two debounce groups, the track buttons (Prev, Next,
Play/Pause, timer `lastButtonPress`) and the Animation button (timer
`lastAnimationButtonPress`). An accepted track-button press leaves the Animation timer
unchanged and an accepted Animation press leaves the track timer unchanged. Hence, right
after an accepted track press, an iteration in which only Animation reads pressed accepts
it as soon as Animation's own timer is at least 200 ms old, whatever the time since the
track press; and right after an accepted Animation press, an iteration in which only one
track button reads pressed accepts it as soon as the track timer is at least 200 ms old. -/
theorem C6_groups_independent (cat : List String) (s : Player) (t : Nat) (pe : PlayEnv)
    (e : LoopEnv) :
    ((onPrev cat s t pe).lastAnimationButtonPress = s.lastAnimationButtonPress ∧
      (onNext cat s t pe).lastAnimationButtonPress = s.lastAnimationButtonPress ∧
      (onPlay cat s t pe).lastAnimationButtonPress = s.lastAnimationButtonPress ∧
      (onAnimation s t).lastButtonPress = s.lastButtonPress) ∧
    (usub e.tAnimation s.lastAnimationButtonPress ≥ debounceDelay →
      e.btnAnimation = true ∧ e.btnPrev = false ∧ e.btnNext = false ∧ e.btnPlay = false →
      ∀ s1 ∈ [onPrev cat s t pe, onNext cat s t pe, onPlay cat s t pe],
        loop cat s1 e = onAnimation (playbackTick s1 e) e.tAnimStamp) ∧
    (usub e.tButtons s.lastButtonPress ≥ debounceDelay → e.btnAnimation = false →
      (e.btnPrev = true ∧ e.btnNext = false ∧ e.btnPlay = false →
        loop cat (onAnimation s t) e
          = onPrev cat (playbackTick (onAnimation s t) e) e.tStamp e.play) ∧
      (e.btnPrev = false ∧ e.btnNext = true ∧ e.btnPlay = false →
        loop cat (onAnimation s t) e
          = onNext cat (playbackTick (onAnimation s t) e) e.tStamp e.play) ∧
      (e.btnPrev = false ∧ e.btnNext = false ∧ e.btnPlay = true →
        loop cat (onAnimation s t) e
          = onPlay cat (playbackTick (onAnimation s t) e) e.tStamp e.play)) := by
  have hf := onTrack_frame cat s t pe
  have ha := onAnimation_frame s t
  refine ⟨⟨hf.1.2.1, hf.2.1.2.1, hf.2.2.2.1, ha.2.1⟩, ?_, ?_⟩
  · rintro hd ⟨h0, h1, h2, h3⟩ s1 hs1
    simp only [List.mem_cons, List.mem_singleton, List.not_mem_nil, or_false] at hs1
    rcases hs1 with rfl | rfl | rfl
    · exact loop_accept_animation cat _ e (by rw [hf.1.2.1]; exact hd) h0 h1 h2 h3
    · exact loop_accept_animation cat _ e (by rw [hf.2.1.2.1]; exact hd) h0 h1 h2 h3
    · exact loop_accept_animation cat _ e (by rw [hf.2.2.2.1]; exact hd) h0 h1 h2 h3
  · intro hd hanim
    have h := loop_accept_track cat (onAnimation s t) e (by rw [ha.2.1]; exact hd) hanim
    exact ⟨fun hb => (h.1 hb.1).1, fun hb => (h.2.1 ⟨hb.1, hb.2.1⟩).1, fun hb => h.2.2 hb⟩

/-- C6 amended, applied to the sketch: Prev is accepted at clock reading 1000; an
Animation press at reading 1100, inside the track window, is accepted and selects the
next mode. -/
theorem C6_groups_independent_witness :
    usub 1100 Player.init.lastAnimationButtonPress ≥ debounceDelay ∧
    (loop tracks (onPrev tracks Player.init 1000 ⟨false, true, true⟩)
      (buttonsEnv 1100 false false false true)).selectedLedAnimation
      = LedAnimation.HORIZONTAL_SWEEP := by
  have h := (C6_groups_independent tracks Player.init 1000 ⟨false, true, true⟩
    (buttonsEnv 1100 false false false true)).2.1 (by decide) (by decide)
    (onPrev tracks Player.init 1000 ⟨false, true, true⟩) (by simp)
  refine ⟨by decide, ?_⟩
  rw [h]
  decide


/-! ## The title line -/

lemma fitCells_length (str : List Char) : (fitCells str).length = 15 := by
  simp [fitCells, LCD_COLS]

lemma scrollCells_length (str : List Char) (o : Int) : (scrollCells str o).length = 15 := by
  simp [scrollCells, LCD_COLS]

lemma titleLine_length (cat : List String) (s : Player) (e : DisplayEnv) :
    (titleLine cat s e).2.length = 15 := by
  unfold titleLine
  simp only
  split_ifs <;> simp [fitCells_length, scrollCells_length]

lemma lineBuffer0_length (cat : List String) (s : Player) (e : DisplayEnv) :
    (updateDisplay cat s e).lineBuffer0.length = 16 := by
  simp [updateDisplay, titleLine_length]

lemma lineBuffer0_glyph (cat : List String) (s : Player) (e : DisplayEnv) :
    (updateDisplay cat s e).lineBuffer0.getD 15 ' ' = MUSIC_NOTE_CHAR := by
  have h := titleLine_length cat s e
  simp only [updateDisplay]
  rw [List.getD_eq_getElem?_getD, List.getElem?_append_right (by omega)]
  simp [h]

lemma lineBuffer0_cells (cat : List String) (s : Player) (e : DisplayEnv) (i : Nat)
    (hi : i < 15) :
    (updateDisplay cat s e).lineBuffer0.getD i ' ' = (titleLine cat s e).2.getD i ' ' := by
  have h := titleLine_length cat s e
  simp only [updateDisplay]
  rw [List.getD_eq_getElem?_getD, List.getD_eq_getElem?_getD,
    List.getElem?_append_left (by omega)]

lemma lcdRow0_eq (buf : List Char) (h : buf.length = 16) : lcdRow0 buf = buf := by
  apply List.ext_getElem
  · simp [lcdRow0, LCD_COLS, h]
  · intro i h1 h2
    simp only [lcdRow0, List.getElem_map, List.getElem_range]
    rw [List.getD_eq_getElem _ _ h2]
    split_ifs with h3 h4
    · exact h3.1.symm
    · exact h4.symm
    · rfl

lemma lcdRow1_eq (buf : List Char) (h : buf.length = 16) : lcdRow1 buf = buf := by
  apply List.ext_getElem
  · simp [lcdRow1, LCD_COLS, h]
  · intro i h1 h2
    simp only [lcdRow1, List.getElem_map, List.getElem_range]
    rw [List.getD_eq_getElem _ _ h2]
    split_ifs with h3
    · exact h3.symm
    · rfl

lemma charAt_natCast (str : List Char) (k : Nat) : charAt str (k : Int) = str.getD k ' ' := by
  unfold charAt
  rw [if_neg (by omega)]
  simp

lemma scrollCells_getD (str : List Char) (o i : Nat) (hi : i < 15) :
    (scrollCells str (o : Int)).getD i ' '
      = if (o + i) % (str.length + 15) < str.length
        then str.getD ((o + i) % (str.length + 15)) ' ' else ' ' := by
  have hmod : ((o : Int) + (i : Int)).tmod ((str.length : Int) + (LCD_COLS - 1))
      = (((o + i) % (str.length + 15) : Nat) : Int) := by
    rw [Int.tmod_eq_emod (by omega) (by simp [LCD_COLS]; omega)]
    simp [LCD_COLS]
  unfold scrollCells
  simp only
  rw [List.getD_eq_getElem _ _ (by simp [LCD_COLS]; exact hi)]
  simp only [List.getElem_map, List.getElem_range]
  rw [hmod, charAt_natCast]
  simp only [Nat.cast_lt]

lemma fitCells_getD (str : List Char) (i : Nat) (hi : i < 15) :
    (fitCells str).getD i ' ' = if i < str.length then str.getD i ' ' else ' ' := by
  unfold fitCells
  rw [List.getD_eq_getElem _ _ (by simp [LCD_COLS]; exact hi)]
  simp only [List.getElem_map, List.getElem_range, charAt_natCast, Nat.cast_lt]

lemma scrollAdvance_nonneg (s : Player) (L : Int) (e : DisplayEnv)
    (h0 : 0 ≤ s.titleScrollOffset) : 0 ≤ (scrollAdvance s L e).titleScrollOffset := by
  unfold scrollAdvance
  simp only
  split_ifs <;> (try dsimp only) <;> omega

lemma titleLine_scrolling (cat : List String) (s : Player) (e : DisplayEnv)
    (hplay : s.isPlaying = true ∨ s.isPaused = true) (hL : 15 < (titleOf cat s).length)
    (hnp : s.isScrollingPaused = false) :
    titleLine cat s e
      = (scrollAdvance s ((titleOf cat s).length : Int) e,
         scrollCells (titleOf cat s)
           (scrollAdvance s ((titleOf cat s).length : Int) e).titleScrollOffset) := by
  unfold titleLine
  simp only
  have h1 : (s.isPlaying || s.isPaused) = true := by
    rcases hplay with h | h <;> simp [h]
  have h2 : ((displayName (trackAt cat s.currentTrack)).length : Int) > LCD_COLS - 1 := by
    unfold titleOf at hL
    simp only [LCD_COLS]
    omega
  rw [if_pos h1, if_pos h2, if_neg (by simp [hnp])]
  rfl

lemma titleLine_paused (cat : List String) (s : Player) (e : DisplayEnv)
    (hplay : s.isPlaying = true ∨ s.isPaused = true) (hL : 15 < (titleOf cat s).length)
    (hp : s.isScrollingPaused = true) :
    titleLine cat s e
      = (if usub e.tPauseCheck s.endScrollPauseTime ≥ endScrollPauseDuration then
           ({ s with isScrollingPaused := false, titleScrollOffset := 0,
                     lastScrollTime := e.tResume }, fitCells (titleOf cat s))
         else (s, fitCells (titleOf cat s))) := by
  unfold titleLine
  simp only
  have h1 : (s.isPlaying || s.isPaused) = true := by
    rcases hplay with h | h <;> simp [h]
  have h2 : ((displayName (trackAt cat s.currentTrack)).length : Int) > LCD_COLS - 1 := by
    unfold titleOf at hL
    simp only [LCD_COLS]
    omega
  rw [if_pos h1, if_pos h2, if_pos hp]
  rfl

lemma updateDisplay_state (cat : List String) (s : Player) (e : DisplayEnv) :
    (updateDisplay cat s e).state = (titleLine cat s e).1 := rfl

lemma lineBuffer1_length (cat : List String) (s : Player) (e : DisplayEnv) :
    (updateDisplay cat s e).lineBuffer1.length = 16 := by
  simp only [updateDisplay]
  split_ifs <;> simp [pausedLine, progressLine, emptyLine, LCD_COLS]

lemma updateDisplay_lcd (cat : List String) (s : Player) (e : DisplayEnv)
    (h : e.lockOk = true) :
    (updateDisplay cat s e).lcd
      = some ((updateDisplay cat s e).lineBuffer0, (updateDisplay cat s e).lineBuffer1) := by
  have h0 := lcdRow0_eq _ (lineBuffer0_length cat s e)
  have h1 := lcdRow1_eq _ (lineBuffer1_length cat s e)
  have h2 : (updateDisplay cat s e).lcd
      = some (lcdRow0 (updateDisplay cat s e).lineBuffer0,
              lcdRow1 (updateDisplay cat s e).lineBuffer1) := by
    simp [updateDisplay, h]
  rw [h2, h0, h1]

/-- C7: while scrolling (the title is longer than 15 characters and the renderer is not in
the paused-at-end state on entry; the offset is non-negative, as it always is), with `o`
the offset in effect after this render's advance step, each visible column `i < 15` of the
title line holds `name[(o + i) mod (L + 15)]` when that index is below `L` and a blank
otherwise. In every render, whatever the state, the title line has 16 cells, column 15
holds the music-note glyph, and when the LCD mutex is obtained exactly the two line
buffers are sent to the display. -/
theorem C7_scroll_window (cat : List String) (s : Player) (e : DisplayEnv) :
    (s.isPlaying = true ∨ s.isPaused = true → 15 < (titleOf cat s).length →
      s.isScrollingPaused = false → 0 ≤ s.titleScrollOffset →
      0 ≤ (updateDisplay cat s e).state.titleScrollOffset ∧
      ∀ i, i < 15 →
        (updateDisplay cat s e).lineBuffer0.getD i ' '
          = if ((updateDisplay cat s e).state.titleScrollOffset.toNat + i)
                % ((titleOf cat s).length + 15) < (titleOf cat s).length
            then (titleOf cat s).getD
              (((updateDisplay cat s e).state.titleScrollOffset.toNat + i)
                % ((titleOf cat s).length + 15)) ' '
            else ' ') ∧
    (updateDisplay cat s e).lineBuffer0.length = 16 ∧
    (updateDisplay cat s e).lineBuffer0.getD 15 ' ' = MUSIC_NOTE_CHAR ∧
    (e.lockOk = true →
      (updateDisplay cat s e).lcd
        = some ((updateDisplay cat s e).lineBuffer0, (updateDisplay cat s e).lineBuffer1)) := by
  refine ⟨?_, lineBuffer0_length cat s e, lineBuffer0_glyph cat s e, updateDisplay_lcd cat s e⟩
  intro hplay hL hnp h0
  have ht := titleLine_scrolling cat s e hplay hL hnp
  have hnn := scrollAdvance_nonneg s ((titleOf cat s).length : Int) e h0
  rw [updateDisplay_state, ht]
  refine ⟨hnn, ?_⟩
  intro i hi
  rw [lineBuffer0_cells cat s e i hi, ht]
  simp only
  obtain ⟨o, ho⟩ := Int.eq_ofNat_of_zero_le hnn
  rw [ho, scrollCells_getD _ _ _ hi]
  simp

/-- C7 applied to track 1 of the sketch (a title of 36 characters) at offset 3 with a
scroll step due: the offset becomes 4 and column 0 shows the title's character 4. -/
theorem C7_scroll_window_witness :
    (updateDisplay tracks (playingAt 1 3) (renderEnv 400 0 100)).state.titleScrollOffset = 4 ∧
    (updateDisplay tracks (playingAt 1 3) (renderEnv 400 0 100)).lineBuffer0.getD 0 ' ' = 'i' ∧
    (updateDisplay tracks (playingAt 1 3) (renderEnv 400 0 100)).lineBuffer0.getD 15 ' '
      = MUSIC_NOTE_CHAR := by
  have h := (C7_scroll_window tracks (playingAt 1 3) (renderEnv 400 0 100)).1
    (by decide) (by decide) (by decide) (by decide)
  have ho : (updateDisplay tracks (playingAt 1 3) (renderEnv 400 0 100)).state.titleScrollOffset
      = 4 := by decide
  refine ⟨ho, ?_, (C7_scroll_window tracks (playingAt 1 3) (renderEnv 400 0 100)).2.2.1⟩
  rw [h.2 0 (by decide), ho]
  decide


set_option maxRecDepth 1000000 in
/-- C8 as stated fails: in the paused-at-end state of track 1 (offset 36 = title length,
reached by 36 scroll steps) the render shows in columns 0..14 the first 15 characters of
the title, `Avicii - Wake M`, not its final 15 characters, `Official Video)`; column 0
holds `name[0]`, which differs from `name[L - 15 + 0]`. -/
theorem C8_counterexample :
    pausedAtEnd.isScrollingPaused = true ∧ pausedAtEnd.titleScrollOffset = 36 ∧
    (titleOf tracks pausedAtEnd).length = 36 ∧
    (updateDisplay tracks pausedAtEnd (renderEnv 13850 0 100)).lineBuffer0.take 15
      = "Avicii - Wake M".toList ∧
    (titleOf tracks pausedAtEnd).drop (36 - 15) = "Official Video)".toList ∧
    (updateDisplay tracks pausedAtEnd (renderEnv 13850 0 100)).lineBuffer0.getD 0 ' '
      ≠ (titleOf tracks pausedAtEnd).getD (36 - 15 + 0) ' ' := by
  decide

/-- C8 amended: for every title of length `L > 15`, every render performed while the
scroll is in the paused-at-end state (`isScrollingPaused` true on entry) shows in columns
0..14 of the title line the first 15 characters of the title: column `i` holds `name[i]`. -/
theorem C8_paused_frame (cat : List String) (s : Player) (e : DisplayEnv)
    (hplay : s.isPlaying = true ∨ s.isPaused = true) (hL : 15 < (titleOf cat s).length)
    (hp : s.isScrollingPaused = true) (i : Nat) (hi : i < 15) :
    (updateDisplay cat s e).lineBuffer0.getD i ' ' = (titleOf cat s).getD i ' ' := by
  have ht : (titleLine cat s e).2 = fitCells (titleOf cat s) := by
    rw [titleLine_paused cat s e hplay hL hp]
    split_ifs <;> rfl
  rw [lineBuffer0_cells cat s e i hi, ht, fitCells_getD _ _ hi, if_pos (by omega)]

set_option maxRecDepth 1000000 in
/-- C8 amended, applied to the paused-at-end state of track 1: column 14 holds `name[14]`. -/
theorem C8_paused_frame_witness :
    pausedAtEnd.isScrollingPaused = true ∧
    (updateDisplay tracks pausedAtEnd (renderEnv 13850 0 100)).lineBuffer0.getD 14 ' ' = 'M' := by
  have h := C8_paused_frame tracks pausedAtEnd (renderEnv 13850 0 100) (by decide) (by decide)
    (by decide) 14 (by decide)
  refine ⟨by decide, ?_⟩
  rw [h]
  decide

lemma updateDisplay_dwell (cat : List String) (s : Player) (e : DisplayEnv)
    (hplay : s.isPlaying = true ∨ s.isPaused = true) (hL : 15 < (titleOf cat s).length)
    (hp : s.isScrollingPaused = true)
    (ht : usub e.tPauseCheck s.endScrollPauseTime < endScrollPauseDuration) :
    (updateDisplay cat s e).state = s := by
  rw [updateDisplay_state, titleLine_paused cat s e hplay hL hp, if_neg (by omega)]

lemma renderMany_dwell (cat : List String) (s : Player)
    (hplay : s.isPlaying = true ∨ s.isPaused = true) (hL : 15 < (titleOf cat s).length)
    (hp : s.isScrollingPaused = true) (envs : List DisplayEnv)
    (ht : ∀ e ∈ envs, usub e.tPauseCheck s.endScrollPauseTime < endScrollPauseDuration) :
    renderMany cat s envs = s := by
  induction envs with
  | nil => rfl
  | cons e rest ih =>
    have hstep : renderMany cat s (e :: rest)
        = renderMany cat (updateDisplay cat s e).state rest := by
      simp [renderMany]
    rw [hstep, updateDisplay_dwell cat s e hplay hL hp (ht e (List.mem_cons_self _ _))]
    exact ih (fun e' he' => ht e' (List.mem_cons_of_mem _ he'))

/-- C9: end-of-scroll dwell for a title of length `L > 15` being rendered (elapsed time
as the sketch computes it, `millis() - endScrollPauseTime` on `unsigned long`).
(a) A render entered unpaused that leaves `titleScrollOffset = L` sets
`isScrollingPaused` and stores the clock reading in `endScrollPauseTime`; this is what
happens when the offset is `L - 1` and a scroll step is due.
(b) From a paused state with pause time `p`, every series of renders whose readings are
all less than 2000 ms past `p` leaves the whole state as it is: `isScrollingPaused` stays
true and `titleScrollOffset` unchanged.
(c) A render in the paused state whose reading is at least 2000 ms past `p` clears
`isScrollingPaused`, resets `titleScrollOffset` to 0 and stores the clock reading in
`lastScrollTime`. -/
theorem C9_end_scroll_dwell (cat : List String) (s : Player) (e : DisplayEnv)
    (hplay : s.isPlaying = true ∨ s.isPaused = true) (hL : 15 < (titleOf cat s).length) :
    (s.isScrollingPaused = false →
      ((updateDisplay cat s e).state.titleScrollOffset = ((titleOf cat s).length : Int) →
        (updateDisplay cat s e).state.isScrollingPaused = true ∧
        (updateDisplay cat s e).state.endScrollPauseTime = e.tPauseStamp) ∧
      (s.titleScrollOffset + 1 = ((titleOf cat s).length : Int) →
        usub e.tScrollCheck s.lastScrollTime ≥ scrollSpeedDelay →
        (updateDisplay cat s e).state.titleScrollOffset = ((titleOf cat s).length : Int))) ∧
    (s.isScrollingPaused = true →
      (∀ envs : List DisplayEnv,
        (∀ e1 ∈ envs, usub e1.tPauseCheck s.endScrollPauseTime < endScrollPauseDuration) →
        renderMany cat s envs = s) ∧
      (usub e.tPauseCheck s.endScrollPauseTime ≥ endScrollPauseDuration →
        (updateDisplay cat s e).state.isScrollingPaused = false ∧
        (updateDisplay cat s e).state.titleScrollOffset = 0 ∧
        (updateDisplay cat s e).state.lastScrollTime = e.tResume)) := by
  refine ⟨?_, ?_⟩
  · intro hnp
    rw [updateDisplay_state, titleLine_scrolling cat s e hplay hL hnp]
    simp only
    refine ⟨?_, ?_⟩
    · unfold scrollAdvance
      simp only
      split_ifs <;> (try dsimp only) <;> intro h <;> (try dsimp only at *) <;>
        first | exact ⟨rfl, rfl⟩ | (exfalso; simp only [LCD_COLS] at *; omega)
    · intro h1 h2
      unfold scrollAdvance
      simp only
      rw [if_pos h2]
      dsimp only
      rw [if_pos h1]
      exact h1
  · intro hp
    refine ⟨fun envs h => renderMany_dwell cat s hplay hL hp envs h, ?_⟩
    intro h
    rw [updateDisplay_state, titleLine_paused cat s e hplay hL hp, if_pos h]
    exact ⟨rfl, rfl, rfl⟩

set_option maxRecDepth 1000000 in
/-- C9 applied to the paused-at-end state of track 1 (pause time 13600): renders at
readings 13850 and 15599 change nothing, the render at 15600 resumes from offset 0. -/
theorem C9_end_scroll_dwell_witness :
    pausedAtEnd.isScrollingPaused = true ∧ pausedAtEnd.endScrollPauseTime = 13600 ∧
    renderMany tracks pausedAtEnd [renderEnv 13850 0 100, renderEnv 15599 0 100] = pausedAtEnd ∧
    (updateDisplay tracks pausedAtEnd (renderEnv 15600 0 100)).state.isScrollingPaused = false ∧
    (updateDisplay tracks pausedAtEnd (renderEnv 15600 0 100)).state.titleScrollOffset = 0 ∧
    (updateDisplay tracks pausedAtEnd (renderEnv 15600 0 100)).state.lastScrollTime = 15600 := by
  have h := (C9_end_scroll_dwell tracks pausedAtEnd (renderEnv 15600 0 100) (by decide)
    (by decide)).2 (by decide)
  exact ⟨by decide, by decide, h.1 _ (by decide), h.2 (by decide)⟩


/-! ## Single-precision rounding -/

lemma roundNearestEven_exact (n d : Nat) (hd : d ∣ n) :
    roundNearestEven n d = n / d := by
  unfold roundNearestEven
  have h : n % d = 0 := Nat.mod_eq_zero_of_dvd hd
  rw [h]
  rcases Nat.eq_zero_or_pos d with h0 | h0
  · subst h0; simp
  · rw [if_neg (by omega)]

lemma roundNearestEven_scale (n d c : Nat) (hc : 0 < c) :
    roundNearestEven (n * c) (d * c) = roundNearestEven n d := by
  unfold roundNearestEven
  rw [Nat.mul_mod_mul_right, Nat.mul_div_mul_right _ _ hc]
  have h1 : (2 * (n % d * c) > d * c) ↔ (2 * (n % d) > d) := by
    rw [← mul_assoc]
    exact Nat.mul_lt_mul_right hc
  have h2 : (2 * (n % d * c) = d * c) ↔ (2 * (n % d) = d) := by
    rw [← mul_assoc]
    exact Nat.mul_left_inj (by omega)
  simp only [h1, h2]

lemma shiftUpTo_scale (c : Nat) (hc : 0 < c) (fuel : Nat) :
    ∀ n d, shiftUpTo fuel (n * c) (d * c) = shiftUpTo fuel n d := by
  induction fuel with
  | zero => intro n d; rfl
  | succ f ih =>
    intro n d
    unfold shiftUpTo
    have h : d * c ≤ n * c ↔ d ≤ n := ⟨fun x => Nat.le_of_mul_le_mul_right x hc, fun x => Nat.mul_le_mul_right c x⟩
    by_cases hdn : d ≤ n
    · rw [if_pos (h.mpr hdn), if_pos hdn]
    · rw [if_neg (fun x => hdn (h.mp x)), if_neg hdn, ← mul_assoc, ih]

lemma shiftUpTo_reaches (fuel : Nat) :
    ∀ n d, d ≤ n * 2 ^ fuel → d ≤ n * 2 ^ shiftUpTo fuel n d := by
  induction fuel with
  | zero => intro n d h; simpa [shiftUpTo] using h
  | succ f ih =>
    intro n d h
    unfold shiftUpTo
    by_cases hdn : d ≤ n
    · rw [if_pos hdn]; simpa using hdn
    · rw [if_neg hdn]
      have h2 : d ≤ 2 * n * 2 ^ f := by
        rw [pow_succ] at h
        calc d ≤ n * (2 ^ f * 2) := h
          _ = 2 * n * 2 ^ f := by ring
      have := ih (2 * n) d h2
      calc d ≤ 2 * n * 2 ^ shiftUpTo f (2 * n) d := this
        _ = n * 2 ^ (shiftUpTo f (2 * n) d + 1) := by rw [pow_succ]; ring

lemma shiftUpTo_minimal (fuel : Nat) :
    ∀ n d, shiftUpTo fuel n d = 0 ∨ n * 2 ^ shiftUpTo fuel n d < 2 * d := by
  induction fuel with
  | zero => intro n d; left; rfl
  | succ f ih =>
    intro n d
    unfold shiftUpTo
    by_cases hdn : d ≤ n
    · left; rw [if_pos hdn]
    · right
      rw [if_neg hdn]
      rcases ih (2 * n) d with h | h
      · rw [h]; simp; omega
      · calc n * 2 ^ (shiftUpTo f (2 * n) d + 1)
            = 2 * n * 2 ^ shiftUpTo f (2 * n) d := by rw [pow_succ]; ring
          _ < 2 * d := h

lemma f32Round_small (n d : Nat) (hn : 0 < n) (hlt : n < d * 2 ^ 24) :
    f32Round n d
      = (roundNearestEven (n * 2 ^ shiftUpTo 128 n (d * 2 ^ 23)) d,
         2 ^ shiftUpTo 128 n (d * 2 ^ 23)) := by
  unfold f32Round
  rw [if_neg (by omega), if_neg (by omega)]

lemma f32Round_scale (n d c : Nat) (hc : 0 < c) (hlt : n < d * 2 ^ 24) :
    f32Round (n * c) (d * c) = f32Round n d := by
  rcases Nat.eq_zero_or_pos n with h0 | h0
  · subst h0; simp [f32Round]
  · have hlt2 : n * c < d * c * 2 ^ 24 := by
      calc n * c < d * 2 ^ 24 * c := Nat.mul_lt_mul_of_pos_right hlt hc
        _ = d * c * 2 ^ 24 := by ring
    rw [f32Round_small n d h0 hlt, f32Round_small (n * c) (d * c) (Nat.mul_pos h0 hc) hlt2]
    have hk : shiftUpTo 128 (n * c) (d * c * 2 ^ 23) = shiftUpTo 128 n (d * 2 ^ 23) := by
      rw [show d * c * 2 ^ 23 = d * 2 ^ 23 * c by ring]
      exact shiftUpTo_scale c hc 128 n (d * 2 ^ 23)
    rw [hk, show n * c * 2 ^ shiftUpTo 128 n (d * 2 ^ 23)
      = n * 2 ^ shiftUpTo 128 n (d * 2 ^ 23) * c by ring, roundNearestEven_scale _ _ _ hc]

lemma f32OfNat_small (n : Nat) (hn : 0 < n) (h : n < 2 ^ 24) :
    f32OfNat n = (n * 2 ^ shiftUpTo 128 n (2 ^ 23), 2 ^ shiftUpTo 128 n (2 ^ 23)) := by
  unfold f32OfNat
  rw [f32Round_small n 1 hn (by omega), one_mul,
    roundNearestEven_exact _ 1 (one_dvd _), Nat.div_one]

lemma f32Div_ofNat (pos total : Nat) (hp : 0 < pos) (hle : pos ≤ total) (ht : total < 2 ^ 24) :
    f32Div (f32OfNat pos) (f32OfNat total) = f32Round pos total := by
  rw [f32OfNat_small pos hp (by omega), f32OfNat_small total (by omega) ht]
  unfold f32Div
  simp only
  have hc : 0 < 2 ^ shiftUpTo 128 pos (2 ^ 23) * 2 ^ shiftUpTo 128 total (2 ^ 23) := by positivity
  rw [show pos * 2 ^ shiftUpTo 128 pos (2 ^ 23) * 2 ^ shiftUpTo 128 total (2 ^ 23)
        = pos * (2 ^ shiftUpTo 128 pos (2 ^ 23) * 2 ^ shiftUpTo 128 total (2 ^ 23)) by ring,
      show 2 ^ shiftUpTo 128 pos (2 ^ 23) * (total * 2 ^ shiftUpTo 128 total (2 ^ 23))
        = total * (2 ^ shiftUpTo 128 pos (2 ^ 23) * 2 ^ shiftUpTo 128 total (2 ^ 23)) by ring]
  exact f32Round_scale pos total _ hc (by
    calc pos ≤ total := hle
      _ < total * 2 ^ 24 := by omega)

lemma f32OfNat_sixteen : f32OfNat LCD_COLS.toNat = (2 ^ 23, 2 ^ 19) := by decide

lemma cell_floor (pos total P q r : Nat) (ht : 0 < total) (hP : 0 < P)
    (hq : pos * (16 * P) = q * total + r) (hr : r < total) :
    q / P = 16 * pos / total := by
  have h1 : 16 * pos / total * total ≤ 16 * pos := Nat.div_mul_le_self _ _
  have h2 : 16 * pos < total * (16 * pos / total + 1) := Nat.lt_mul_div_succ _ ht
  generalize 16 * pos / total = K at h1 h2
  have lo : K * P ≤ q := by
    have : K * P * total < (q + 1) * total := by nlinarith
    have := Nat.lt_of_mul_lt_mul_right this
    omega
  have hi : q < (K + 1) * P := by
    have : q * total < (K + 1) * P * total := by nlinarith
    exact Nat.lt_of_mul_lt_mul_right this
  exact Nat.div_eq_of_lt_le lo hi

lemma cell_floor_up (pos total P q r : Nat) (ht : 0 < total)
    (hq : pos * (16 * P) = q * total + r) (hr : r < total) (hP : total < 2 * P)
    (hup : total ≤ 2 * r) :
    (q + 1) / P = 16 * pos / total := by
  have hP0 : 0 < P := by omega
  have h0 := cell_floor pos total P q r ht hP0 hq hr
  have h1 : 16 * pos / total * total ≤ 16 * pos := Nat.div_mul_le_self _ _
  have h2 : 16 * pos < total * (16 * pos / total + 1) := Nat.lt_mul_div_succ _ ht
  have lo : 16 * pos / total * P ≤ q := by
    rw [← h0]; exact Nat.div_mul_le_self _ _
  generalize 16 * pos / total = K at h1 h2 lo
  apply Nat.div_eq_of_lt_le (by omega)
  by_contra hcon
  push_neg at hcon
  have hA : 16 * pos + 1 ≤ total * (K + 1) := h2
  have e1 : 2 * (pos * (16 * P)) ≥ (2 * q + 1) * total := by nlinarith
  have e2 : 2 * q + 2 ≥ 2 * ((K + 1) * P) := by omega
  have e3 : (2 * q + 2) * total ≥ 2 * ((K + 1) * P) * total := Nat.mul_le_mul_right _ e2
  have e4 : 2 * P * (16 * pos + 1) ≤ 2 * P * (total * (K + 1)) := Nat.mul_le_mul_left _ hA
  nlinarith

lemma two_pow_le_iff (a b : Nat) : 2 ^ a ≤ 2 ^ b ↔ a ≤ b :=
  Nat.pow_le_pow_iff_right (by norm_num)

/-- The significand and exponent chosen by `f32Round pos total` for `0 < pos ≤ total`. -/
lemma f32Round_bounds (pos total : Nat) (hp : 0 < pos) (hle : pos ≤ total)
    (hb : total < 2 ^ 24) :
    total * 2 ^ 23 ≤ pos * 2 ^ shiftUpTo 128 pos (total * 2 ^ 23) ∧
    pos * 2 ^ shiftUpTo 128 pos (total * 2 ^ 23) < total * 2 ^ 24 ∧
    23 ≤ shiftUpTo 128 pos (total * 2 ^ 23) ∧
    shiftUpTo 128 pos (total * 2 ^ 23) < 48 ∧
    (pos < total → 24 ≤ shiftUpTo 128 pos (total * 2 ^ 23)) := by
  have h1 : total * 2 ^ 23 ≤ pos * 2 ^ shiftUpTo 128 pos (total * 2 ^ 23) := by
    apply shiftUpTo_reaches
    calc total * 2 ^ 23 ≤ 2 ^ 24 * 2 ^ 23 := Nat.mul_le_mul_right _ (le_of_lt hb)
      _ ≤ 1 * 2 ^ 128 := by norm_num
      _ ≤ pos * 2 ^ 128 := Nat.mul_le_mul_right _ hp
  have h2 : pos * 2 ^ shiftUpTo 128 pos (total * 2 ^ 23) < total * 2 ^ 24 := by
    rcases shiftUpTo_minimal 128 pos (total * 2 ^ 23) with h | h
    · rw [h]; omega
    · omega
  generalize shiftUpTo 128 pos (total * 2 ^ 23) = k at h1 h2
  have hk23 : 23 ≤ k := by
    by_contra hcon
    push_neg at hcon
    have : 2 ^ k ≤ 2 ^ 22 := (two_pow_le_iff _ _).mpr (by omega)
    have : pos * 2 ^ k ≤ total * 2 ^ 22 := Nat.mul_le_mul hle this
    omega
  have hk48 : k < 48 := by
    by_contra hcon
    push_neg at hcon
    have : 2 ^ 48 ≤ 2 ^ k := (two_pow_le_iff _ _).mpr hcon
    have : 1 * 2 ^ 48 ≤ pos * 2 ^ k := Nat.mul_le_mul hp this
    omega
  refine ⟨h1, h2, hk23, hk48, ?_⟩
  intro hlt
  by_contra hcon
  push_neg at hcon
  have : 2 ^ k ≤ 2 ^ 23 := (two_pow_le_iff _ _).mpr (by omega)
  have : pos * 2 ^ k ≤ pos * 2 ^ 23 := Nat.mul_le_mul_left _ this
  omega

lemma roundNearestEven_cases (n d : Nat) :
    (roundNearestEven n d = n / d) ∨
    (roundNearestEven n d = n / d + 1 ∧ d ≤ 2 * (n % d)) := by
  unfold roundNearestEven
  split_ifs with h
  · right; exact ⟨rfl, by omega⟩
  · left; rfl

/-- Multiplying a binary32 value with significand `m` in `[2^23, 2^24]` by 16 and
truncating gives `floor (16 * m / 2^k)`: the product is exact. -/
lemma f32ToInt_mul_sixteen (m k : Nat) (hm1 : 2 ^ 23 ≤ m) (hm2 : m ≤ 2 ^ 24) (hk1 : 23 ≤ k)
    (hk2 : k < 48) :
    f32ToInt (f32Mul (m, 2 ^ k) (2 ^ 23, 2 ^ 19)) = ((16 * m / 2 ^ k : Nat) : Int) := by
  unfold f32Mul f32ToInt
  simp only
  have hkpow : 2 ^ 23 ≤ 2 ^ k := (two_pow_le_iff _ _).mpr hk1
  have hsc : f32Round (m * 2 ^ 23) (2 ^ k * 2 ^ 19) = f32Round (16 * m) (2 ^ k) := by
    rw [show m * 2 ^ 23 = 16 * m * 2 ^ 19 by ring]
    exact f32Round_scale (16 * m) (2 ^ k) (2 ^ 19) (by norm_num) (by nlinarith)
  rw [hsc, f32Round_small (16 * m) (2 ^ k) (by omega) (by nlinarith)]
  simp only
  have hreach : 2 ^ k * 2 ^ 23 ≤ 16 * m * 2 ^ shiftUpTo 128 (16 * m) (2 ^ k * 2 ^ 23) := by
    apply shiftUpTo_reaches
    have : 2 ^ k ≤ 2 ^ 48 := (two_pow_le_iff _ _).mpr (by omega)
    calc 2 ^ k * 2 ^ 23 ≤ 2 ^ 48 * 2 ^ 23 := Nat.mul_le_mul_right _ this
      _ ≤ 1 * 2 ^ 128 := by norm_num
      _ ≤ 16 * m * 2 ^ 128 := Nat.mul_le_mul_right _ (by omega)
  generalize shiftUpTo 128 (16 * m) (2 ^ k * 2 ^ 23) = j at hreach
  have hdvd : 2 ^ k ∣ 16 * m * 2 ^ j := by
    have hkj : k ≤ j + 5 := by
      have h1 : 2 ^ (k + 23) ≤ 2 ^ (j + 28) := by
        calc 2 ^ (k + 23) = 2 ^ k * 2 ^ 23 := by rw [pow_add]
          _ ≤ 16 * m * 2 ^ j := hreach
          _ ≤ 16 * 2 ^ 24 * 2 ^ j := Nat.mul_le_mul_right _ (by omega)
          _ = 2 ^ (j + 28) := by rw [pow_add]; ring
      have := (two_pow_le_iff _ _).mp h1
      omega
    rcases Nat.lt_or_ge k (j + 5) with h | h
    · have h4 : 2 ^ k ∣ 2 ^ (j + 4) := Nat.pow_dvd_pow 2 (by omega)
      have : 16 * m * 2 ^ j = 2 ^ (j + 4) * m := by rw [pow_add]; ring
      rw [this]
      exact Dvd.dvd.mul_right h4 m
    · have hk : k = j + 5 := by omega
      subst hk
      have hm : m = 2 ^ 24 := by
        have h1 : 2 ^ j * (2 ^ 28) ≤ 2 ^ j * (16 * m) := by
          calc 2 ^ j * 2 ^ 28 = 2 ^ (j + 5) * 2 ^ 23 := by rw [pow_add]; ring
            _ ≤ 16 * m * 2 ^ j := hreach
            _ = 2 ^ j * (16 * m) := by ring
        have := Nat.le_of_mul_le_mul_left h1 (by positivity)
        omega
      subst hm
      have : 16 * 2 ^ 24 * 2 ^ j = 2 ^ (j + 5) * 2 ^ 23 := by rw [pow_add]; ring
      rw [this]
      exact Dvd.intro _ rfl
  rw [roundNearestEven_exact _ _ hdvd, Nat.div_div_eq_div_mul,
    Nat.mul_div_mul_right _ _ (by positivity)]

lemma filledWidth_zero (total : Nat) : filledWidth 0 total = 0 := by
  unfold filledWidth
  simp only [f32OfNat_sixteen]
  have h0 : f32OfNat 0 = (0, 1) := by decide
  rw [h0]
  simp [f32Div, f32Mul, f32Round, f32ToInt]

/-- For sizes below `2^21` the single-precision computation of `filledWidth` yields the
exact `floor (16 * pos / total)`. -/
lemma filledWidth_exact (pos total : Nat) (ht : 0 < total) (hle : pos ≤ total)
    (hb : total < 2 ^ 21) : filledWidth pos total = ((16 * pos / total : Nat) : Int) := by
  rcases Nat.eq_zero_or_pos pos with h0 | hp
  · subst h0
    rw [filledWidth_zero]
    simp
  · have hb24 : total < 2 ^ 24 := by omega
    obtain ⟨h1, h2, hk23, hk48, hk24⟩ := f32Round_bounds pos total hp hle hb24
    unfold filledWidth
    simp only [f32OfNat_sixteen]
    rw [f32Div_ofNat pos total hp hle hb24, f32Round_small pos total hp (by omega)]
    generalize shiftUpTo 128 pos (total * 2 ^ 23) = k at h1 h2 hk23 hk48 hk24
    have hq : pos * 2 ^ k = pos * 2 ^ k / total * total + pos * 2 ^ k % total :=
      (Nat.div_add_mod' _ _).symm
    have hr : pos * 2 ^ k % total < total := Nat.mod_lt _ ht
    have hq1 : 2 ^ 23 ≤ pos * 2 ^ k / total := by
      rw [Nat.le_div_iff_mul_le ht]
      omega
    have hq2 : pos * 2 ^ k / total < 2 ^ 24 := by
      rw [Nat.div_lt_iff_lt_mul ht]
      omega
    have hpow : 2 ^ k = 16 * 2 ^ (k - 4) := by
      rw [show (16 : Nat) = 2 ^ 4 by norm_num, ← pow_add]
      congr 1
      omega
    have hP0 : 0 < 2 ^ (k - 4) := by positivity
    have hq' : pos * (16 * 2 ^ (k - 4))
        = pos * 2 ^ k / total * total + pos * 2 ^ k % total := by
      rw [← hpow]; exact hq
    have hdiv : ∀ m, 16 * m / 2 ^ k = m / 2 ^ (k - 4) := by
      intro m
      rw [hpow, Nat.mul_div_mul_left _ _ (by norm_num)]
    rcases roundNearestEven_cases (pos * 2 ^ k) total with hm | ⟨hm, hup⟩
    · rw [hm, f32ToInt_mul_sixteen _ k hq1 (by omega) hk23 hk48, hdiv,
        cell_floor pos total (2 ^ (k - 4)) _ _ ht hP0 hq' hr]
    · have hlt : pos < total := by
        rcases Nat.lt_or_ge pos total with h | h
        · exact h
        · exfalso
          have hpe : pos = total := by omega
          subst hpe
          rw [Nat.mul_mod_right] at hup
          omega
      have hk := hk24 hlt
      have hP : total < 2 * 2 ^ (k - 4) := by
        have h21 : 2 ^ 21 ≤ 2 ^ (k - 3) := (two_pow_le_iff _ _).mpr (by omega)
        have : 2 * 2 ^ (k - 4) = 2 ^ (k - 3) := by
          rw [show k - 3 = (k - 4) + 1 by omega, pow_succ]; ring
        omega
      rw [hm, f32ToInt_mul_sixteen _ k (by omega) (by omega) hk23 hk48, hdiv,
        cell_floor_up pos total (2 ^ (k - 4)) _ _ ht hq' hr hP hup]


/-! ## The progress bar -/

lemma progressLine_eq (n : Nat) (h : n ≤ 16) :
    progressLine (n : Int)
      = List.replicate n PROGRESS_CHAR_FILLED ++ List.replicate (16 - n) PROGRESS_CHAR_EMPTY := by
  interval_cases n <;> decide

lemma emptyLine_eq : emptyLine = List.replicate 16 PROGRESS_CHAR_EMPTY := by decide

/-- C10 as stated fails for large files, because `filledWidth` is computed in single
precision: with `bytesConsumed = 1441794` and `bytesTotal = 2097155` the quotient rounds
up to exactly `11/16`, so 11 cells are filled, while `floor (1441794 * 16 / 2097155) = 10`. -/
theorem C10_counterexample :
    (1441794 : Nat) ≤ 2097155 ∧ (1441794 * 16 / 2097155 : Nat) = 10 ∧
    (updateDisplay tracks (playingAt 0 0) (renderEnv 0 1441794 2097155)).lineBuffer1
      = List.replicate 11 PROGRESS_CHAR_FILLED ++ List.replicate 5 PROGRESS_CHAR_EMPTY := by
  decide

/-- C10 amended: when playing, not paused, with an open file of `0 < bytesTotal < 2^21`
bytes, for every `bytesConsumed ≤ bytesTotal` the second line is exactly
`floor (bytesConsumed * 16 / bytesTotal)` filled cells in the leftmost columns followed by
unfilled cells up to 16 columns; and in a state satisfying the flag invariant, when not
playing, or when not paused and there is no open file or `bytesTotal = 0`, all 16 cells are
unfilled. -/
theorem C10_progress_bar (cat : List String) (s : Player) (e : DisplayEnv) :
    (s.isPlaying = true → s.isPaused = false → s.file = true → e.fileOpen = true →
      0 < e.size → e.size < 2 ^ 21 → e.pos ≤ e.size →
      (updateDisplay cat s e).lineBuffer1
        = List.replicate (e.pos * 16 / e.size) PROGRESS_CHAR_FILLED
          ++ List.replicate (16 - e.pos * 16 / e.size) PROGRESS_CHAR_EMPTY) ∧
    (FlagsOk s →
      s.isPlaying = false ∨
        (s.isPaused = false ∧ (s.file = false ∨ e.fileOpen = false ∨ e.size = 0)) →
      (updateDisplay cat s e).lineBuffer1 = List.replicate 16 PROGRESS_CHAR_EMPTY) := by
  refine ⟨?_, ?_⟩
  · intro h1 h2 h3 h4 h5 h6 h7
    have hs : e.size % 4294967296 = e.size := Nat.mod_eq_of_lt (by omega)
    have hp : e.pos % 4294967296 = e.pos := Nat.mod_eq_of_lt (by omega)
    have hle : 16 * e.pos / e.size ≤ 16 := by
      apply Nat.div_le_of_le_mul
      omega
    simp only [updateDisplay, h1, h2, h3, h4, hs, hp, Bool.or_false, Bool.and_self, if_true,
      Bool.false_eq_true, if_false, h5, decide_True]
    rw [filledWidth_exact e.pos e.size h5 h7 h6, progressLine_eq _ hle, Nat.mul_comm]
  · intro hinv h
    have hpa : s.isPaused = false := by
      rcases h with h | h
      · cases hp : s.isPaused
        · rfl
        · rw [hinv hp] at h; exact absurd h (by simp)
      · exact h.1
    rw [← emptyLine_eq]
    rcases h with h | ⟨-, h | h | h⟩
    · simp [updateDisplay, hpa, h]
    · simp [updateDisplay, hpa, h]
    · simp [updateDisplay, hpa, h]
    · simp only [updateDisplay, hpa, h, Bool.or_false, Bool.false_eq_true, if_false,
        Nat.zero_mod]
      split_ifs with h1 h2 <;> first | rfl | (exfalso; simp at h2)

/-- C10 amended, applied to `bytesConsumed = 5`, `bytesTotal = 20`: four filled cells
followed by twelve unfilled ones. -/
theorem C10_progress_bar_witness :
    (updateDisplay tracks (playingAt 0 0) (renderEnv 0 5 20)).lineBuffer1
      = List.replicate 4 PROGRESS_CHAR_FILLED ++ List.replicate 12 PROGRESS_CHAR_EMPTY :=
  (C10_progress_bar tracks (playingAt 0 0) (renderEnv 0 5 20)).1 (by decide) (by decide)
    (by decide) (by decide) (by decide) (by decide) (by decide)


/-! ## The LED animation engine -/

lemma clearAll_eq : clearAll = [LedCall.clearDisplay 0, LedCall.clearDisplay 1,
    LedCall.clearDisplay 2, LedCall.clearDisplay 3] := by decide

lemma ledMatrixAnimate_switch (s : Led) (sel : LedAnimation) (e : LedEnv)
    (h : s.currentLedAnimation ≠ sel) :
    ledMatrixAnimate s sel e
      = ledMatrixAnimate { s with currentLedAnimation := sel, ledAnimationStep := 0 } sel e := by
  unfold ledMatrixAnimate
  simp [h]

lemma tdiv_eight (k : Nat) : (k : Int).tdiv 8 = ((k / 8 : Nat) : Int) := by
  rw [Int.tdiv_eq_ediv (by omega) (by norm_num)]
  omega

lemma tmod_eight (k : Nat) : (k : Int).tmod 8 = ((k % 8 : Nat) : Int) := by
  rw [Int.tmod_eq_emod (by omega) (by norm_num)]
  omega

lemma step_wrap (n : Nat) (hlt : n < 32) (s : Led) :
    (if ({ s with ledAnimationStep := (n : Int) + 1 } : Led).ledAnimationStep ≥ NUM_LED_MATRICES * 8
      then { ({ s with ledAnimationStep := (n : Int) + 1 } : Led) with ledAnimationStep := 0 }
      else ({ s with ledAnimationStep := (n : Int) + 1 } : Led))
      = { s with ledAnimationStep := (((n + 1) % 32 : Nat) : Int) } := by
  simp only [NUM_LED_MATRICES]
  by_cases h32 : n + 1 = 32
  · rw [if_pos (by omega), h32]
    rfl
  · rw [if_neg (by omega), Nat.mod_eq_of_lt (by omega)]
    simp

lemma ledMatrixAnimate_vertical (s : Led) (e : LedEnv) (n : Nat)
    (hm : s.currentLedAnimation = .VERTICAL_SWEEP) (hn : s.ledAnimationStep = (n : Int))
    (hlt : n < 32) :
    ledMatrixAnimate s .VERTICAL_SWEEP e
      = ({ s with ledAnimationStep := (((n + 1) % 32 : Nat) : Int) }, verticalFrame n) := by
  have h1 : (NUM_LED_MATRICES * 8 - 1 - (n : Int)) = (((31 - n : Nat)) : Int) := by
    simp only [NUM_LED_MATRICES]; omega
  have h2 : (NUM_LED_MATRICES - 1 - (((31 - n) / 8 : Nat) : Int))
      = (((3 - (31 - n) / 8 : Nat)) : Int) := by
    simp only [NUM_LED_MATRICES]; omega
  have hw := step_wrap n hlt s
  unfold ledMatrixAnimate verticalFrame
  simp only [hm, hn, ne_eq, not_true_eq_false, if_false, h1, tdiv_eight, tmod_eight, h2]
  simp only [hm] at hw
  rw [hw]

lemma ledMatrixAnimate_horizontal (s : Led) (e : LedEnv) (n : Nat)
    (hm : s.currentLedAnimation = .HORIZONTAL_SWEEP) (hn : s.ledAnimationStep = (n : Int))
    (hlt : n < 32) :
    ledMatrixAnimate s .HORIZONTAL_SWEEP e
      = ({ s with ledAnimationStep := (((n + 1) % 32 : Nat) : Int) }, horizontalFrame n) := by
  have h2 : (NUM_LED_MATRICES - 1 - (((n / 8 : Nat)) : Int)) = (((3 - n / 8 : Nat)) : Int) := by
    simp only [NUM_LED_MATRICES]; omega
  have h3 : ((7 : Int) - (((n % 8 : Nat)) : Int)) = (((7 - n % 8 : Nat)) : Int) := by omega
  have hw := step_wrap n hlt s
  unfold ledMatrixAnimate horizontalFrame
  simp only [hm, hn, ne_eq, not_true_eq_false, if_false, tdiv_eight, tmod_eight, h2, h3]
  simp only [hm] at hw
  rw [hw]

lemma ledMatrixAnimate_mode (s : Led) (sel : LedAnimation) (e : LedEnv) :
    (ledMatrixAnimate s sel e).1.currentLedAnimation = sel := by
  unfold ledMatrixAnimate
  by_cases h : s.currentLedAnimation = sel
  · cases sel <;> simp only [h, ne_eq, not_true_eq_false, if_false] <;> split_ifs <;> rfl
  · cases sel <;> simp only [h, ne_eq, not_false_eq_true, if_true] <;> split_ifs <;> rfl

lemma ledMatrixAnimate_step_other (s : Led) (sel : LedAnimation) (e : LedEnv)
    (hm : s.currentLedAnimation = sel)
    (h : sel = .MUSIC ∨ sel = .LIFELINE ∨ sel = .OFF) :
    (ledMatrixAnimate s sel e).1.ledAnimationStep = s.ledAnimationStep := by
  unfold ledMatrixAnimate
  rcases h with h | h | h <;> subst h
  · simp only [hm, ne_eq, not_true_eq_false, if_false]
  · simp only [hm, ne_eq, not_true_eq_false, if_false]
    split_ifs <;> rfl
  · simp only [hm, ne_eq, not_true_eq_false, if_false]

/-- C11: LED mode switch. When the selected mode differs from the current one, the call
of `ledMatrixAnimate` behaves, whatever the prior step value, exactly as a call from step
0 with the selected mode already current: it adopts the selected mode and draws the
step-0 frame of that mode (Vertical Sweep: logical column 31, that is column 7 of panel 0;
Horizontal Sweep: row 7 of panel 3), leaving the step at 1 for the two sweeps and at 0 for
Music, Lifeline and Off. When the selected mode equals the current one the step is not
reset: at step `n < 32` a sweep draws the frame of step `n` and moves to `(n + 1) % 32`,
and the other modes leave the step as it is. -/
theorem C11_mode_switch (s : Led) (sel : LedAnimation) (e : LedEnv) :
    (s.currentLedAnimation ≠ sel →
      ledMatrixAnimate s sel e
        = ledMatrixAnimate { s with currentLedAnimation := sel, ledAnimationStep := 0 } sel e ∧
      (ledMatrixAnimate s sel e).1.currentLedAnimation = sel ∧
      (sel = .VERTICAL_SWEEP →
        (ledMatrixAnimate s sel e).2 = clearAll ++ [LedCall.setColumn 0 7 0xFF] ∧
        (ledMatrixAnimate s sel e).1.ledAnimationStep = 1) ∧
      (sel = .HORIZONTAL_SWEEP →
        (ledMatrixAnimate s sel e).2 = clearAll ++ [LedCall.setRow 3 7 0xFF] ∧
        (ledMatrixAnimate s sel e).1.ledAnimationStep = 1) ∧
      (sel = .MUSIC ∨ sel = .LIFELINE ∨ sel = .OFF →
        (ledMatrixAnimate s sel e).1.ledAnimationStep = 0)) ∧
    (s.currentLedAnimation = sel →
      (∀ n : Nat, s.ledAnimationStep = (n : Int) → n < 32 →
        (sel = .VERTICAL_SWEEP →
          (ledMatrixAnimate s sel e).2 = verticalFrame n ∧
          (ledMatrixAnimate s sel e).1.ledAnimationStep = (((n + 1) % 32 : Nat) : Int)) ∧
        (sel = .HORIZONTAL_SWEEP →
          (ledMatrixAnimate s sel e).2 = horizontalFrame n ∧
          (ledMatrixAnimate s sel e).1.ledAnimationStep = (((n + 1) % 32 : Nat) : Int))) ∧
      (sel = .MUSIC ∨ sel = .LIFELINE ∨ sel = .OFF →
        (ledMatrixAnimate s sel e).1.ledAnimationStep = s.ledAnimationStep)) := by
  refine ⟨?_, ?_⟩
  · intro hne
    have hsw := ledMatrixAnimate_switch s sel e hne
    refine ⟨hsw, ledMatrixAnimate_mode s sel e, ?_, ?_, ?_⟩
    · intro hv
      subst hv
      rw [hsw, ledMatrixAnimate_vertical _ e 0 rfl rfl (by norm_num)]
      exact ⟨rfl, rfl⟩
    · intro hv
      subst hv
      rw [hsw, ledMatrixAnimate_horizontal _ e 0 rfl rfl (by norm_num)]
      exact ⟨rfl, rfl⟩
    · intro ho
      rw [hsw, ledMatrixAnimate_step_other _ sel e rfl ho]
  · intro heq
    refine ⟨?_, ledMatrixAnimate_step_other s sel e heq⟩
    intro n hn hlt
    refine ⟨?_, ?_⟩
    · intro hv
      subst hv
      rw [ledMatrixAnimate_vertical s e n heq hn hlt]
      exact ⟨rfl, rfl⟩
    · intro hv
      subst hv
      rw [ledMatrixAnimate_horizontal s e n heq hn hlt]
      exact ⟨rfl, rfl⟩

/-- C11 applied: the engine is in Horizontal Sweep at step 17 when Vertical Sweep is
selected; the next call adopts it and lights column 7 of panel 0, logical column 31. -/
theorem C11_mode_switch_witness :
    (ledMatrixAnimate { Led.init with currentLedAnimation := .HORIZONTAL_SWEEP,
                                      ledAnimationStep := 17 }
      .VERTICAL_SWEEP (ledTickOf .VERTICAL_SWEEP).env).2
      = clearAll ++ [LedCall.setColumn 0 7 0xFF] ∧
    (ledMatrixAnimate { Led.init with currentLedAnimation := .HORIZONTAL_SWEEP,
                                      ledAnimationStep := 17 }
      .VERTICAL_SWEEP (ledTickOf .VERTICAL_SWEEP).env).1.ledAnimationStep = 1 :=
  ((C11_mode_switch { Led.init with currentLedAnimation := .HORIZONTAL_SWEEP,
                                    ledAnimationStep := 17 }
    .VERTICAL_SWEEP (ledTickOf .VERTICAL_SWEEP).env).1 (by decide)).2.2.1 rfl

lemma ledRun_cons (s : Led) (t : LedTick) (rest : List LedTick) :
    ledRun s (t :: rest) = ledRun (ledMatrixAnimate s t.selected t.env).1 rest := by
  simp [ledRun]

lemma ledFrames_vertical (ticks : List LedTick) :
    ∀ (s : Led) (n : Nat), (∀ t ∈ ticks, t.selected = LedAnimation.VERTICAL_SWEEP) →
      s.currentLedAnimation = .VERTICAL_SWEEP → s.ledAnimationStep = (n : Int) → n < 32 →
      ledFrames s ticks = (List.range ticks.length).map (fun k => verticalFrame ((n + k) % 32)) ∧
      (ledRun s ticks).ledAnimationStep = (((n + ticks.length) % 32 : Nat) : Int) := by
  induction ticks with
  | nil =>
    intro s n _ _ hn hlt
    simp [ledFrames, ledRun, hn, Nat.mod_eq_of_lt hlt]
  | cons t rest ih =>
    intro s n hsel hm hn hlt
    have ht : t.selected = LedAnimation.VERTICAL_SWEEP := hsel t (List.mem_cons_self _ _)
    have hstep := ledMatrixAnimate_vertical s t.env n hm hn hlt
    have hi := ih (ledMatrixAnimate s t.selected t.env).1 ((n + 1) % 32)
      (fun t' ht' => hsel t' (List.mem_cons_of_mem _ ht'))
      (by rw [ht, hstep]; exact hm) (by rw [ht, hstep]) (Nat.mod_lt _ (by norm_num))
    rw [ledRun_cons]
    unfold ledFrames
    rw [hi.1, hi.2]
    refine ⟨?_, ?_⟩
    · rw [ht, hstep, List.length_cons, List.range_succ_eq_map, List.map_cons, List.map_map]
      simp only [Nat.add_zero, Nat.mod_eq_of_lt hlt, List.cons.injEq, true_and]
      apply List.map_congr_left
      intro k _
      simp only [Function.comp]
      congr 1
      omega
    · congr 1
      simp only [List.length_cons]
      omega

lemma ledFrames_horizontal (ticks : List LedTick) :
    ∀ (s : Led) (n : Nat), (∀ t ∈ ticks, t.selected = LedAnimation.HORIZONTAL_SWEEP) →
      s.currentLedAnimation = .HORIZONTAL_SWEEP → s.ledAnimationStep = (n : Int) → n < 32 →
      ledFrames s ticks
        = (List.range ticks.length).map (fun k => horizontalFrame ((n + k) % 32)) ∧
      (ledRun s ticks).ledAnimationStep = (((n + ticks.length) % 32 : Nat) : Int) := by
  induction ticks with
  | nil =>
    intro s n _ _ hn hlt
    simp [ledFrames, ledRun, hn, Nat.mod_eq_of_lt hlt]
  | cons t rest ih =>
    intro s n hsel hm hn hlt
    have ht : t.selected = LedAnimation.HORIZONTAL_SWEEP := hsel t (List.mem_cons_self _ _)
    have hstep := ledMatrixAnimate_horizontal s t.env n hm hn hlt
    have hi := ih (ledMatrixAnimate s t.selected t.env).1 ((n + 1) % 32)
      (fun t' ht' => hsel t' (List.mem_cons_of_mem _ ht'))
      (by rw [ht, hstep]; exact hm) (by rw [ht, hstep]) (Nat.mod_lt _ (by norm_num))
    rw [ledRun_cons]
    unfold ledFrames
    rw [hi.1, hi.2]
    refine ⟨?_, ?_⟩
    · rw [ht, hstep, List.length_cons, List.range_succ_eq_map, List.map_cons, List.map_map]
      simp only [Nat.add_zero, Nat.mod_eq_of_lt hlt, List.cons.injEq, true_and]
      apply List.map_congr_left
      intro k _
      simp only [Function.comp]
      congr 1
      omega
    · congr 1
      simp only [List.length_cons]
      omega

lemma sweep_columns_perm (n : Nat) (hlt : n < 32) :
    ((List.range 32).map (fun k => 31 - (n + k) % 32)).Perm (List.range 32) := by
  interval_cases n <;> decide

lemma sweep_rows_perm (n : Nat) (hlt : n < 32) :
    ((List.range 32).map (fun k => (3 - (n + k) % 32 / 8, 7 - (n + k) % 32 % 8))).Perm
      ((List.range 32).map (fun k => (3 - k / 8, 7 - k % 8))) := by
  interval_cases n <;> decide

/-- C12: Vertical Sweep with four panels. At every step `n` in `[0, 32)` with no mode
change, one tick makes exactly five driver calls: `clearDisplay` for panels 0, 1, 2 and 3,
then one column write, `0xFF` to column `(31 - n) % 8` of physical panel `3 - (31 - n) / 8`
(logical column `31 - n`); it then sets the step to `(n + 1) % 32`. Hence in any 32
consecutive ticks the `k`-th one clears all four panels and lights logical column
`31 - (n + k) % 32` and no other: the 32 logical columns are lit once each, descending
(from step 0: 31, 30, .., 0), never two in one tick, and the step counter is back at `n`. -/
theorem C12_vertical_sweep (s : Led) (n : Nat)
    (hm : s.currentLedAnimation = .VERTICAL_SWEEP) (hn : s.ledAnimationStep = (n : Int))
    (hlt : n < 32) :
    (∀ e, ledMatrixAnimate s .VERTICAL_SWEEP e
        = ({ s with ledAnimationStep := (((n + 1) % 32 : Nat) : Int) },
           [LedCall.clearDisplay 0, LedCall.clearDisplay 1, LedCall.clearDisplay 2,
            LedCall.clearDisplay 3,
            LedCall.setColumn ((3 - (31 - n) / 8 : Nat) : Int)
              (((31 - n) % 8 : Nat) : Int) 0xFF])) ∧
    (∀ ticks : List LedTick, ticks.length = 32 →
      (∀ t ∈ ticks, t.selected = LedAnimation.VERTICAL_SWEEP) →
      ledFrames s ticks
        = (List.range 32).map (fun k =>
            [LedCall.clearDisplay 0, LedCall.clearDisplay 1, LedCall.clearDisplay 2,
             LedCall.clearDisplay 3,
             LedCall.setColumn ((3 - (31 - (n + k) % 32) / 8 : Nat) : Int)
               (((31 - (n + k) % 32) % 8 : Nat) : Int) 0xFF]) ∧
      (ledRun s ticks).ledAnimationStep = (n : Int)) ∧
    ((List.range 32).map (fun k => 31 - (n + k) % 32)).Perm (List.range 32) ∧
    (n = 0 → (List.range 32).map (fun k => 31 - (n + k) % 32) = (List.range 32).reverse) := by
  have hclear : clearAll = [LedCall.clearDisplay 0, LedCall.clearDisplay 1,
      LedCall.clearDisplay 2, LedCall.clearDisplay 3] := by decide
  have hframe : ∀ m : Nat, verticalFrame m
      = [LedCall.clearDisplay 0, LedCall.clearDisplay 1, LedCall.clearDisplay 2,
         LedCall.clearDisplay 3,
         LedCall.setColumn ((3 - (31 - m) / 8 : Nat) : Int) (((31 - m) % 8 : Nat) : Int) 0xFF] := by
    intro m
    unfold verticalFrame
    rw [hclear]
    rfl
  refine ⟨fun e => ?_, ?_, sweep_columns_perm n hlt, ?_⟩
  · rw [ledMatrixAnimate_vertical s e n hm hn hlt, hframe]
  · intro ticks hlen hsel
    have h := ledFrames_vertical ticks s n hsel hm hn hlt
    rw [hlen] at h
    refine ⟨?_, ?_⟩
    · rw [h.1]
      apply List.map_congr_left
      intro k _
      exact hframe _
    · rw [h.2]
      congr 1
      omega
  · intro h0
    subst h0
    decide

/-- C12 applied from the initial LED state: the first tick clears the four panels and
lights column 7 of panel 0, and 32 ticks bring the step back to 0. -/
theorem C12_vertical_sweep_witness :
    (ledMatrixAnimate Led.init .VERTICAL_SWEEP (ledTickOf .VERTICAL_SWEEP).env).2
      = [LedCall.clearDisplay 0, LedCall.clearDisplay 1, LedCall.clearDisplay 2,
         LedCall.clearDisplay 3, LedCall.setColumn 0 7 0xFF] ∧
    (ledRun Led.init (List.replicate 32 (ledTickOf .VERTICAL_SWEEP))).ledAnimationStep = 0 := by
  have h := C12_vertical_sweep Led.init 0 rfl rfl (by norm_num)
  refine ⟨by decide, ?_⟩
  exact (h.2.1 (List.replicate 32 (ledTickOf .VERTICAL_SWEEP)) (by simp)
      (fun t ht => by rw [(List.mem_replicate.mp ht).2]; rfl)).2

/-- C17: Horizontal Sweep with four panels. At every step `n` in `[0, 32)` with no mode
change, one tick makes exactly five driver calls: `clearDisplay` for panels 0, 1, 2 and 3,
then one row write, `0xFF` to row `7 - n % 8` of physical panel `3 - n / 8`; it then sets the
step to `(n + 1) % 32`. Hence in any 32 consecutive ticks the `k`-th one clears all four
panels and lights the row of step `(n + k) % 32` and no other: panel 3 is swept during
steps 0..7 and panel 0 during steps 24..31, each of the 32 (panel, row) pairs is lit exactly
once, and the step counter is back at `n`. -/
theorem C17_horizontal_sweep (s : Led) (n : Nat)
    (hm : s.currentLedAnimation = .HORIZONTAL_SWEEP) (hn : s.ledAnimationStep = (n : Int))
    (hlt : n < 32) :
    (∀ e, ledMatrixAnimate s .HORIZONTAL_SWEEP e
        = ({ s with ledAnimationStep := (((n + 1) % 32 : Nat) : Int) },
           [LedCall.clearDisplay 0, LedCall.clearDisplay 1, LedCall.clearDisplay 2,
            LedCall.clearDisplay 3,
            LedCall.setRow ((3 - n / 8 : Nat) : Int) ((7 - n % 8 : Nat) : Int) 0xFF])) ∧
    (∀ ticks : List LedTick, ticks.length = 32 →
      (∀ t ∈ ticks, t.selected = LedAnimation.HORIZONTAL_SWEEP) →
      ledFrames s ticks
        = (List.range 32).map (fun k =>
            [LedCall.clearDisplay 0, LedCall.clearDisplay 1, LedCall.clearDisplay 2,
             LedCall.clearDisplay 3,
             LedCall.setRow ((3 - (n + k) % 32 / 8 : Nat) : Int)
               ((7 - (n + k) % 32 % 8 : Nat) : Int) 0xFF]) ∧
      (ledRun s ticks).ledAnimationStep = (n : Int)) ∧
    ((List.range 32).map (fun k => (3 - (n + k) % 32 / 8, 7 - (n + k) % 32 % 8))).Perm
      ((List.range 32).map (fun k => (3 - k / 8, 7 - k % 8))) ∧
    ((List.range 32).map (fun k => (3 - k / 8, 7 - k % 8))).Nodup ∧
    (n < 8 → 3 - n / 8 = 3) ∧ (24 ≤ n → 3 - n / 8 = 0) := by
  have hclear : clearAll = [LedCall.clearDisplay 0, LedCall.clearDisplay 1,
      LedCall.clearDisplay 2, LedCall.clearDisplay 3] := by decide
  have hframe : ∀ m : Nat, horizontalFrame m
      = [LedCall.clearDisplay 0, LedCall.clearDisplay 1, LedCall.clearDisplay 2,
         LedCall.clearDisplay 3,
         LedCall.setRow ((3 - m / 8 : Nat) : Int) ((7 - m % 8 : Nat) : Int) 0xFF] := by
    intro m
    unfold horizontalFrame
    rw [hclear]
    rfl
  refine ⟨fun e => ?_, ?_, sweep_rows_perm n hlt, by decide, by omega, by omega⟩
  · rw [ledMatrixAnimate_horizontal s e n hm hn hlt, hframe]
  · intro ticks hlen hsel
    have h := ledFrames_horizontal ticks s n hsel hm hn hlt
    rw [hlen] at h
    refine ⟨?_, ?_⟩
    · rw [h.1]
      apply List.map_congr_left
      intro k _
      exact hframe _
    · rw [h.2]
      congr 1
      omega

/-- C17 applied at step 9: the four panels are cleared, row 6 of panel 2 is lit and the
step becomes 10. -/
theorem C17_horizontal_sweep_witness :
    (ledMatrixAnimate { Led.init with currentLedAnimation := .HORIZONTAL_SWEEP,
                                      ledAnimationStep := 9 }
      .HORIZONTAL_SWEEP (ledTickOf .HORIZONTAL_SWEEP).env).2
      = [LedCall.clearDisplay 0, LedCall.clearDisplay 1, LedCall.clearDisplay 2,
         LedCall.clearDisplay 3, LedCall.setRow 2 6 0xFF] ∧
    ledMatrixAnimate { Led.init with currentLedAnimation := .HORIZONTAL_SWEEP,
                                     ledAnimationStep := 9 }
      .HORIZONTAL_SWEEP (ledTickOf .HORIZONTAL_SWEEP).env
      = ({ Led.init with currentLedAnimation := .HORIZONTAL_SWEEP, ledAnimationStep := 10 },
         [LedCall.clearDisplay 0, LedCall.clearDisplay 1, LedCall.clearDisplay 2,
          LedCall.clearDisplay 3, LedCall.setRow 2 6 0xFF]) :=
  ⟨by decide,
   (C17_horizontal_sweep { Led.init with currentLedAnimation := .HORIZONTAL_SWEEP,
                                         ledAnimationStep := 9 } 9 rfl rfl (by norm_num)).1
     (ledTickOf .HORIZONTAL_SWEEP).env⟩

lemma clearAll_inRange : ∀ c ∈ clearAll, c.inRange := by
  rw [clearAll_eq]
  intro c hc
  simp only [List.mem_cons, List.mem_singleton, List.not_mem_nil, or_false] at hc
  rcases hc with rfl | rfl | rfl | rfl <;> simp [LedCall.inRange]

lemma verticalFrame_inRange (n : Nat) : ∀ c ∈ verticalFrame n, c.inRange := by
  intro c hc
  unfold verticalFrame at hc
  rcases List.mem_append.mp hc with h | h
  · exact clearAll_inRange c h
  · rw [List.mem_singleton] at h
    subst h
    simp only [LedCall.inRange]
    omega

lemma horizontalFrame_inRange (n : Nat) (hlt : n < 32) :
    ∀ c ∈ horizontalFrame n, c.inRange := by
  intro c hc
  unfold horizontalFrame at hc
  rcases List.mem_append.mp hc with h | h
  · exact clearAll_inRange c h
  · rw [List.mem_singleton] at h
    subst h
    simp only [LedCall.inRange]
    omega

/-- One call keeps the step in `[0, 32)` and addresses only existing panels, columns
and rows. -/
lemma ledMatrixAnimate_inRange (s : Led) (sel : LedAnimation) (e : LedEnv)
    (h0 : 0 ≤ s.ledAnimationStep) (h1 : s.ledAnimationStep < 32) :
    0 ≤ (ledMatrixAnimate s sel e).1.ledAnimationStep ∧
    (ledMatrixAnimate s sel e).1.ledAnimationStep < 32 ∧
    ∀ c ∈ (ledMatrixAnimate s sel e).2, c.inRange := by
  -- reduce to the case where the selected mode is current
  have key : ∀ s : Led, s.currentLedAnimation = sel → 0 ≤ s.ledAnimationStep →
      s.ledAnimationStep < 32 →
      0 ≤ (ledMatrixAnimate s sel e).1.ledAnimationStep ∧
      (ledMatrixAnimate s sel e).1.ledAnimationStep < 32 ∧
      ∀ c ∈ (ledMatrixAnimate s sel e).2, c.inRange := by
    intro s hm h0 h1
    obtain ⟨n, hn⟩ := Int.eq_ofNat_of_zero_le h0
    have hlt : n < 32 := by omega
    cases sel with
    | VERTICAL_SWEEP =>
      rw [ledMatrixAnimate_vertical s e n hm hn hlt]
      exact ⟨by simp only; omega, by simp only; omega, verticalFrame_inRange n⟩
    | HORIZONTAL_SWEEP =>
      rw [ledMatrixAnimate_horizontal s e n hm hn hlt]
      exact ⟨by simp only; omega, by simp only; omega, horizontalFrame_inRange n hlt⟩
    | MUSIC =>
      rw [ledMatrixAnimate_step_other s _ e hm (Or.inl rfl)]
      refine ⟨h0, h1, ?_⟩
      intro c hc
      unfold ledMatrixAnimate at hc
      simp only [hm, ne_eq, not_true_eq_false, if_false] at hc
      rcases List.mem_append.mp hc with h | h
      · exact clearAll_inRange c h
      · obtain ⟨col, hcol, rfl⟩ := List.mem_map.mp h
        have hc32 : col < 32 := by simpa [NUM_LED_MATRICES] using hcol
        simp only [LedCall.inRange, tdiv_eight, tmod_eight]
        omega
    | LIFELINE =>
      rw [ledMatrixAnimate_step_other s _ e hm (Or.inr (Or.inl rfl))]
      refine ⟨h0, h1, ?_⟩
      intro c hc
      unfold ledMatrixAnimate at hc
      simp only [hm, ne_eq, not_true_eq_false, if_false] at hc
      rcases List.mem_append.mp hc with h | h
      · exact clearAll_inRange c h
      · obtain ⟨col, hcol, rfl⟩ := List.mem_map.mp h
        have hc32 : col < 32 := by simpa [NUM_LED_MATRICES] using hcol
        simp only [LedCall.inRange, tdiv_eight, tmod_eight, NUM_LED_MATRICES]
        omega
    | OFF =>
      rw [ledMatrixAnimate_step_other s _ e hm (Or.inr (Or.inr rfl))]
      refine ⟨h0, h1, ?_⟩
      intro c hc
      unfold ledMatrixAnimate at hc
      simp only [hm, ne_eq, not_true_eq_false, if_false] at hc
      exact clearAll_inRange c hc
  by_cases hm : s.currentLedAnimation = sel
  · exact key s hm h0 h1
  · rw [ledMatrixAnimate_switch s sel e hm]
    exact key _ rfl (le_refl _) (by norm_num)

lemma ledRun_inRange (ticks : List LedTick) :
    ∀ s : Led, 0 ≤ s.ledAnimationStep → s.ledAnimationStep < 32 →
      0 ≤ (ledRun s ticks).ledAnimationStep ∧ (ledRun s ticks).ledAnimationStep < 32 ∧
      ∀ frame ∈ ledFrames s ticks, ∀ c ∈ frame, c.inRange := by
  induction ticks with
  | nil =>
    intro s h0 h1
    exact ⟨h0, h1, by simp [ledFrames]⟩
  | cons t rest ih =>
    intro s h0 h1
    have hstep := ledMatrixAnimate_inRange s t.selected t.env h0 h1
    have hi := ih _ hstep.1 hstep.2.1
    rw [ledRun_cons]
    refine ⟨hi.1, hi.2.1, ?_⟩
    intro frame hf
    unfold ledFrames at hf
    rcases List.mem_cons.mp hf with h | h
    · rw [h]; exact hstep.2.2
    · exact hi.2.2 frame h

/-- C19: the step counter stays in `[0, 32)`: it is 0 initially, and after every series of
calls of `ledMatrixAnimate`, whatever modes are selected and whatever `random` draws
(a mode change resets it, the two sweeps wrap it at 32, Music, Lifeline and Off leave it
unchanged). Therefore every driver call made in any of these calls addresses a panel in
`[0, 4)` and a column or row in `[0, 8)`. -/
theorem C19_step_bound (ticks : List LedTick) :
    (0 ≤ Led.init.ledAnimationStep ∧ Led.init.ledAnimationStep < 32) ∧
    0 ≤ (ledRun Led.init ticks).ledAnimationStep ∧
    (ledRun Led.init ticks).ledAnimationStep < 32 ∧
    (∀ frame ∈ ledFrames Led.init ticks, ∀ c ∈ frame, c.inRange) ∧
    (∀ (s : Led) (sel : LedAnimation) (e : LedEnv),
      0 ≤ s.ledAnimationStep → s.ledAnimationStep < 32 →
      0 ≤ (ledMatrixAnimate s sel e).1.ledAnimationStep ∧
      (ledMatrixAnimate s sel e).1.ledAnimationStep < 32 ∧
      ∀ c ∈ (ledMatrixAnimate s sel e).2, c.inRange) := by
  have h := ledRun_inRange ticks Led.init (by decide) (by decide)
  exact ⟨by decide, h.1, h.2.1, h.2.2, ledMatrixAnimate_inRange⟩

/-- C19 applied at step 31 of Vertical Sweep: the step wraps to 0 and stays in range. -/
theorem C19_step_bound_witness :
    0 ≤ (ledMatrixAnimate { Led.init with ledAnimationStep := 31 } .VERTICAL_SWEEP
          (ledTickOf .VERTICAL_SWEEP).env).1.ledAnimationStep ∧
    (ledMatrixAnimate { Led.init with ledAnimationStep := 31 } .VERTICAL_SWEEP
          (ledTickOf .VERTICAL_SWEEP).env).1.ledAnimationStep < 32 :=
  ⟨((C19_step_bound []).2.2.2.2 { Led.init with ledAnimationStep := 31 } .VERTICAL_SWEEP
      (ledTickOf .VERTICAL_SWEEP).env (by decide) (by decide)).1,
   ((C19_step_bound []).2.2.2.2 { Led.init with ledAnimationStep := 31 } .VERTICAL_SWEEP
      (ledTickOf .VERTICAL_SWEEP).env (by decide) (by decide)).2.1⟩


lemma lifelineShift_length (d : List Nat) : (lifelineShift d).length = 32 := by
  simp [lifelineShift, NUM_LED_MATRICES]

lemma lifelineShift_getD (d : List Nat) (i : Nat) (hi : i < 31) :
    (lifelineShift d).getD i 0 = d.getD (i + 1) 0 := by
  unfold lifelineShift
  rw [List.getD_eq_getElem?_getD, List.getElem?_append_left (by simp [NUM_LED_MATRICES]; exact hi)]
  simp [NUM_LED_MATRICES, hi]

lemma lifeline_set_getD (d : List Nat) (v : Nat) :
    ((lifelineShift d).set 31 v).length = 32 ∧
    (∀ i, i < 31 → ((lifelineShift d).set 31 v).getD i 0 = d.getD (i + 1) 0) ∧
    ((lifelineShift d).set 31 v).getD 31 0 = v := by
  have hl := lifelineShift_length d
  refine ⟨by simp [hl], ?_, ?_⟩
  · intro i hi
    rw [List.getD_eq_getElem?_getD, List.getElem?_set_ne (by omega),
      ← List.getD_eq_getElem?_getD, lifelineShift_getD d i hi]
  · rw [List.getD_eq_getElem?_getD, List.getElem?_set_self (by omega)]
    rfl

lemma lifeline_calls (d : List Nat) :
    clearAll ++ (List.range (NUM_LED_MATRICES * 8).toNat).map (fun (col_logical : Nat) =>
      LedCall.setColumn ((NUM_LED_MATRICES - 1) - (col_logical : Int).tdiv 8)
        ((col_logical : Int).tmod 8) (d.getD col_logical 0))
      = lifelineFrame d := by
  unfold lifelineFrame
  have h32 : (NUM_LED_MATRICES * 8).toNat = 32 := by decide
  rw [h32]
  congr 1

lemma ledMatrixAnimate_lifeline (s : Led) (e : LedEnv)
    (hm : s.currentLedAnimation = .LIFELINE) (h0 : 0 ≤ s.lifeline_blip_counter)
    (h3 : s.lifeline_blip_counter ≤ 3) :
    ledMatrixAnimate s .LIFELINE e
      = ({ s with
            lifeline_data := (lifelineShift s.lifeline_data).set 31
              (if s.lifeline_blip_counter = 3 then blip_up1
               else if s.lifeline_blip_counter = 2 then blip_up2
               else if s.lifeline_blip_counter = 1 then blip_up1 else lifeline_base),
            lifeline_blip_counter :=
              (if s.lifeline_blip_counter > 0 then s.lifeline_blip_counter - 1
               else if e.blipDraw = 0 then 3 else 0) },
         lifelineFrame ((lifelineShift s.lifeline_data).set 31
              (if s.lifeline_blip_counter = 3 then blip_up1
               else if s.lifeline_blip_counter = 2 then blip_up2
               else if s.lifeline_blip_counter = 1 then blip_up1 else lifeline_base))) := by
  have h31 : (NUM_LED_MATRICES * 8 - 1).toNat = 31 := by decide
  unfold ledMatrixAnimate
  simp only [hm, ne_eq, not_true_eq_false, if_false, h31, lifeline_calls]
  rcases (by omega : s.lifeline_blip_counter = 0 ∨ s.lifeline_blip_counter = 1 ∨
      s.lifeline_blip_counter = 2 ∨ s.lifeline_blip_counter = 3) with h | h | h | h
  · simp only [h]
    by_cases hd : e.blipDraw = 0
    · simp [hd]
    · simp [hd]
  · simp [h]
  · simp [h]
  · simp [h]

/-- C16: one Lifeline tick on the 32-byte shift register `d` with blip counter `c` in
`[0, 3]`. Afterwards `d'[i] = d[i + 1]` for every `i < 31` (the oldest value is dropped) and
the register still has 32 entries; for `c = 3, 2, 1` the newest entry `d'[31]` is `blip_up1`,
`blip_up2`, `blip_up1` and `c' = c - 1`; for `c = 0` it is `lifeline_base` and `c'` is 3 when
the draw `random(0, 10)` is 0 and 0 otherwise; `c'` is again in `[0, 3]`; and the tick clears
all panels and writes `d'[k]` to column `k % 8` of physical panel `3 - k / 8` for every
logical column `k`. Consequently a started blip (`c = 3`) puts exactly `blip_up1`,
`blip_up2`, `blip_up1` into the newest column on the next three ticks, leaving them in
columns 29, 30, 31 with the counter back at 0. -/
theorem C16_lifeline_tick (s : Led) (e : LedEnv) (hm : s.currentLedAnimation = .LIFELINE)
    (h0 : 0 ≤ s.lifeline_blip_counter) (h3 : s.lifeline_blip_counter ≤ 3) :
    (ledMatrixAnimate s .LIFELINE e).1.lifeline_data.length = 32 ∧
    (∀ i, i < 31 →
      (ledMatrixAnimate s .LIFELINE e).1.lifeline_data.getD i 0 = s.lifeline_data.getD (i + 1) 0) ∧
    (s.lifeline_blip_counter = 3 →
      (ledMatrixAnimate s .LIFELINE e).1.lifeline_data.getD 31 0 = blip_up1 ∧
      (ledMatrixAnimate s .LIFELINE e).1.lifeline_blip_counter = 2) ∧
    (s.lifeline_blip_counter = 2 →
      (ledMatrixAnimate s .LIFELINE e).1.lifeline_data.getD 31 0 = blip_up2 ∧
      (ledMatrixAnimate s .LIFELINE e).1.lifeline_blip_counter = 1) ∧
    (s.lifeline_blip_counter = 1 →
      (ledMatrixAnimate s .LIFELINE e).1.lifeline_data.getD 31 0 = blip_up1 ∧
      (ledMatrixAnimate s .LIFELINE e).1.lifeline_blip_counter = 0) ∧
    (s.lifeline_blip_counter = 0 →
      (ledMatrixAnimate s .LIFELINE e).1.lifeline_data.getD 31 0 = lifeline_base ∧
      (ledMatrixAnimate s .LIFELINE e).1.lifeline_blip_counter
        = if e.blipDraw = 0 then 3 else 0) ∧
    (0 ≤ (ledMatrixAnimate s .LIFELINE e).1.lifeline_blip_counter ∧
      (ledMatrixAnimate s .LIFELINE e).1.lifeline_blip_counter ≤ 3) ∧
    (ledMatrixAnimate s .LIFELINE e).2
      = lifelineFrame (ledMatrixAnimate s .LIFELINE e).1.lifeline_data ∧
    (s.lifeline_blip_counter = 3 → ∀ e2 e3 : LedEnv,
      (ledRun s [⟨.LIFELINE, e⟩, ⟨.LIFELINE, e2⟩]).lifeline_data.getD 31 0 = blip_up2 ∧
      (ledRun s [⟨.LIFELINE, e⟩, ⟨.LIFELINE, e2⟩, ⟨.LIFELINE, e3⟩]).lifeline_data.getD 29 0
        = blip_up1 ∧
      (ledRun s [⟨.LIFELINE, e⟩, ⟨.LIFELINE, e2⟩, ⟨.LIFELINE, e3⟩]).lifeline_data.getD 30 0
        = blip_up2 ∧
      (ledRun s [⟨.LIFELINE, e⟩, ⟨.LIFELINE, e2⟩, ⟨.LIFELINE, e3⟩]).lifeline_data.getD 31 0
        = blip_up1 ∧
      (ledRun s [⟨.LIFELINE, e⟩, ⟨.LIFELINE, e2⟩, ⟨.LIFELINE, e3⟩]).lifeline_blip_counter = 0) := by
  have hstep := ledMatrixAnimate_lifeline s e hm h0 h3
  have hset := fun v => lifeline_set_getD s.lifeline_data v
  refine ⟨?_, ?_, ?_, ?_, ?_, ?_, ?_, ?_, ?_⟩
  · rw [hstep]; exact (hset _).1
  · intro i hi
    rw [hstep]; exact (hset _).2.1 i hi
  · intro hc
    rw [hstep]
    simp only [hc]
    exact ⟨(hset _).2.2, by norm_num⟩
  · intro hc
    rw [hstep]
    simp only [hc]
    exact ⟨(hset _).2.2, by norm_num⟩
  · intro hc
    rw [hstep]
    simp only [hc]
    exact ⟨(hset _).2.2, by norm_num⟩
  · intro hc
    rw [hstep]
    simp only [hc]
    exact ⟨(hset _).2.2, by norm_num⟩
  · rw [hstep]
    simp only
    split_ifs <;> omega
  · rw [hstep]
  · intro hc e2 e3
    -- the three ticks, one after the other
    have hs1 : (ledMatrixAnimate s .LIFELINE e).1
        = { s with lifeline_data := (lifelineShift s.lifeline_data).set 31 blip_up1,
                   lifeline_blip_counter := 2 } := by
      rw [hstep]; simp [hc]
    have hstep2 := ledMatrixAnimate_lifeline
      { s with lifeline_data := (lifelineShift s.lifeline_data).set 31 blip_up1,
               lifeline_blip_counter := 2 } e2 hm (by norm_num) (by norm_num)
    have hs2 : (ledMatrixAnimate { s with
          lifeline_data := (lifelineShift s.lifeline_data).set 31 blip_up1,
          lifeline_blip_counter := 2 } .LIFELINE e2).1
        = { s with lifeline_data :=
                     (lifelineShift ((lifelineShift s.lifeline_data).set 31 blip_up1)).set 31
                       blip_up2,
                   lifeline_blip_counter := 1 } := by
      rw [hstep2]; simp
    have hstep3 := ledMatrixAnimate_lifeline
      { s with lifeline_data :=
                 (lifelineShift ((lifelineShift s.lifeline_data).set 31 blip_up1)).set 31
                   blip_up2,
               lifeline_blip_counter := 1 } e3 hm (by norm_num) (by norm_num)
    have hs3 : (ledMatrixAnimate { s with
          lifeline_data :=
            (lifelineShift ((lifelineShift s.lifeline_data).set 31 blip_up1)).set 31 blip_up2,
          lifeline_blip_counter := 1 } .LIFELINE e3).1
        = { s with lifeline_data :=
                     (lifelineShift ((lifelineShift
                        ((lifelineShift s.lifeline_data).set 31 blip_up1)).set 31 blip_up2)).set
                        31 blip_up1,
                   lifeline_blip_counter := 0 } := by
      rw [hstep3]; simp
    have hr2 : ledRun s [⟨.LIFELINE, e⟩, ⟨.LIFELINE, e2⟩]
        = { s with lifeline_data :=
                     (lifelineShift ((lifelineShift s.lifeline_data).set 31 blip_up1)).set 31
                       blip_up2,
                   lifeline_blip_counter := 1 } := by
      simp only [ledRun, List.foldl_cons, List.foldl_nil]
      rw [hs1, hs2]
    have hr3 : ledRun s [⟨.LIFELINE, e⟩, ⟨.LIFELINE, e2⟩, ⟨.LIFELINE, e3⟩]
        = { s with lifeline_data :=
                     (lifelineShift ((lifelineShift
                        ((lifelineShift s.lifeline_data).set 31 blip_up1)).set 31 blip_up2)).set
                        31 blip_up1,
                   lifeline_blip_counter := 0 } := by
      simp only [ledRun, List.foldl_cons, List.foldl_nil]
      rw [hs1, hs2, hs3]
    rw [hr2, hr3]
    simp only
    refine ⟨(lifeline_set_getD _ _).2.2, ?_, ?_, (lifeline_set_getD _ _).2.2, trivial⟩
    · rw [(lifeline_set_getD _ _).2.1 29 (by norm_num), (lifeline_set_getD _ _).2.1 30 (by norm_num),
        (lifeline_set_getD _ _).2.2]
    · rw [(lifeline_set_getD _ _).2.1 30 (by norm_num), (lifeline_set_getD _ _).2.2]

/-- C16 applied from the initial LED state with Lifeline current and a draw of 0: the
baseline is inserted and a blip starts. -/
theorem C16_lifeline_tick_witness :
    (ledMatrixAnimate { Led.init with currentLedAnimation := .LIFELINE } .LIFELINE
      ⟨[], 0⟩).1.lifeline_data.getD 31 0 = lifeline_base ∧
    (ledMatrixAnimate { Led.init with currentLedAnimation := .LIFELINE } .LIFELINE
      ⟨[], 0⟩).1.lifeline_blip_counter = 3 :=
  (C16_lifeline_tick { Led.init with currentLedAnimation := .LIFELINE } ⟨[], 0⟩ rfl
    (by decide) (by decide)).2.2.2.2.2.1 rfl


/-! ## The animation-mode button -/

lemma onAnimation_selected (s : Player) (t : Nat) :
    (onAnimation s t).selectedLedAnimation = s.selectedLedAnimation.next := by
  unfold onAnimation
  cases h : s.selectedLedAnimation <;> simp only [h] <;> decide

lemma pressAnimationMany_frame (stamps : List Nat) :
    ∀ s : Player,
      (pressAnimationMany s stamps).selectedLedAnimation
        = (LedAnimation.next^[stamps.length]) s.selectedLedAnimation ∧
      (pressAnimationMany s stamps).currentTrack = s.currentTrack ∧
      (pressAnimationMany s stamps).isPlaying = s.isPlaying ∧
      (pressAnimationMany s stamps).isPaused = s.isPaused := by
  induction stamps with
  | nil => intro s; simp [pressAnimationMany]
  | cons t rest ih =>
    intro s
    have hstep : pressAnimationMany s (t :: rest) = pressAnimationMany (onAnimation s t) rest := by
      simp [pressAnimationMany]
    have hf := onAnimation_frame s t
    have hi := ih (onAnimation s t)
    rw [hstep, hi.1, hi.2.1, hi.2.2.1, hi.2.2.2, onAnimation_selected]
    exact ⟨by simp [Function.iterate_succ_apply], hf.2.2.1, hf.2.2.2.1, hf.2.2.2.2⟩

/-- C14: each accepted Animation press replaces `selectedLedAnimation` by its successor in
the cycle Vertical Sweep, Horizontal Sweep, Music, Lifeline, Off, Vertical Sweep, and
leaves `currentTrack`, `isPlaying` and `isPaused` as they are; five accepted presses return
to the starting mode, and the five modes passed through (the start and its first four
successors) are pairwise distinct, so all five modes are visited. -/
theorem C14_animation_cycle (s : Player) (t : Nat) :
    (onAnimation s t).selectedLedAnimation = s.selectedLedAnimation.next ∧
    (onAnimation s t).currentTrack = s.currentTrack ∧
    (onAnimation s t).isPlaying = s.isPlaying ∧
    (onAnimation s t).isPaused = s.isPaused ∧
    (∀ stamps : List Nat, stamps.length = 5 →
      (pressAnimationMany s stamps).selectedLedAnimation = s.selectedLedAnimation ∧
      (pressAnimationMany s stamps).currentTrack = s.currentTrack ∧
      (pressAnimationMany s stamps).isPlaying = s.isPlaying ∧
      (pressAnimationMany s stamps).isPaused = s.isPaused) ∧
    [s.selectedLedAnimation, s.selectedLedAnimation.next, s.selectedLedAnimation.next.next,
      s.selectedLedAnimation.next.next.next,
      s.selectedLedAnimation.next.next.next.next].Nodup ∧
    s.selectedLedAnimation.next.next.next.next.next = s.selectedLedAnimation := by
  have hf := onAnimation_frame s t
  refine ⟨onAnimation_selected s t, hf.2.2.1, hf.2.2.2.1, hf.2.2.2.2, ?_, ?_, ?_⟩
  · intro stamps hlen
    have h := pressAnimationMany_frame stamps s
    rw [hlen] at h
    refine ⟨?_, h.2⟩
    rw [h.1]
    cases s.selectedLedAnimation <;> rfl
  · cases s.selectedLedAnimation <;> decide
  · cases s.selectedLedAnimation <;> rfl

/-- C14 applied from the initial state (Vertical Sweep): one press selects Horizontal
Sweep, five presses select Vertical Sweep again. -/
theorem C14_animation_cycle_witness :
    (onAnimation Player.init 1000).selectedLedAnimation = LedAnimation.HORIZONTAL_SWEEP ∧
    (pressAnimationMany Player.init [1000, 1200, 1400, 1600, 1800]).selectedLedAnimation
      = LedAnimation.VERTICAL_SWEEP :=
  ⟨(C14_animation_cycle Player.init 1000).1,
   ((C14_animation_cycle Player.init 1000).2.2.2.2.1 [1000, 1200, 1400, 1600, 1800] rfl).1⟩


/-! ## End-to-end scenario -/

lemma animationBlock_wav (s : Player) (e : LoopEnv) : (animationBlock s e).wav = s.wav := by
  unfold animationBlock onAnimation
  split_ifs <;> rfl

lemma buttonBlock_released (cat : List String) (s : Player) (e : LoopEnv)
    (h1 : e.btnPrev = false) (h2 : e.btnNext = false) (h3 : e.btnPlay = false) :
    buttonBlock cat s e = s := by
  unfold buttonBlock
  simp [h1, h2, h3]

lemma playbackTick_running (s : Player) (e : LoopEnv)
    (hp : s.isPlaying = true) (hq : s.isPaused = false) (hw : s.wav = true)
    (h1 : e.wavRunning = true) (h2 : e.pumpOk = true) :
    (playbackTick s e).isPlaying = true ∧ (playbackTick s e).isPaused = false ∧
    (playbackTick s e).wav = true ∧ (playbackTick s e).currentTrack = s.currentTrack := by
  unfold playbackTick
  simp [hp, hq, hw, h1, h2]

lemma playbackTick_finished (s : Player) (e : LoopEnv)
    (hp : s.isPlaying = true) (hq : s.isPaused = false) (hw : s.wav = true)
    (h1 : e.wavRunning = true) (h2 : e.pumpOk = false) :
    (playbackTick s e).isPlaying = false ∧ (playbackTick s e).isPaused = false ∧
    (playbackTick s e).currentTrack = s.currentTrack := by
  unfold playbackTick
  simp [hp, hq, hw, h1, h2]

lemma loop_running_quiet (cat : List String) (s : Player) (e : LoopEnv)
    (hp : s.isPlaying = true) (hq : s.isPaused = false) (hw : s.wav = true)
    (he : e.wavRunning = true ∧ e.pumpOk = true ∧ e.btnPrev = false ∧ e.btnNext = false ∧
      e.btnPlay = false) :
    (loop cat s e).isPlaying = true ∧ (loop cat s e).isPaused = false ∧
    (loop cat s e).wav = true ∧ (loop cat s e).currentTrack = s.currentTrack := by
  obtain ⟨h1, h2, h3, h4, h5⟩ := he
  have ht := playbackTick_running s e hp hq hw h1 h2
  have ha := animationBlock_flags (playbackTick s e) e
  unfold loop
  rw [buttonBlock_released cat _ e h3 h4 h5, ha.1, ha.2.1, ha.2.2.1, animationBlock_wav]
  exact ht

lemma loopMany_running_quiet (cat : List String) (envs : List LoopEnv) :
    ∀ s : Player, s.isPlaying = true → s.isPaused = false → s.wav = true →
      (∀ e ∈ envs, e.wavRunning = true ∧ e.pumpOk = true ∧ e.btnPrev = false ∧
        e.btnNext = false ∧ e.btnPlay = false) →
      (loopMany cat s envs).isPlaying = true ∧ (loopMany cat s envs).isPaused = false ∧
      (loopMany cat s envs).wav = true ∧ (loopMany cat s envs).currentTrack = s.currentTrack := by
  induction envs with
  | nil => intro s hp hq hw _; exact ⟨hp, hq, hw, rfl⟩
  | cons e rest ih =>
    intro s hp hq hw he
    have h := loop_running_quiet cat s e hp hq hw (he e (List.mem_cons_self _ _))
    have hstep : loopMany cat s (e :: rest) = loopMany cat (loop cat s e) rest := by
      simp [loopMany]
    have hi := ih (loop cat s e) h.1 h.2.1 h.2.2.1 (fun e' he' => he e' (List.mem_cons_of_mem _ he'))
    rw [hstep]
    exact ⟨hi.1, hi.2.1, hi.2.2.1, by rw [hi.2.2.2, h.2.2.2]⟩

lemma loop_finish (cat : List String) (s : Player) (e : LoopEnv)
    (hp : s.isPlaying = true) (hq : s.isPaused = false) (hw : s.wav = true)
    (he : e.wavRunning = true ∧ e.pumpOk = false ∧ e.btnPrev = false ∧ e.btnNext = false ∧
      e.btnPlay = false) :
    (loop cat s e).isPlaying = false ∧ (loop cat s e).isPaused = false ∧
    (loop cat s e).currentTrack = s.currentTrack := by
  obtain ⟨h1, h2, h3, h4, h5⟩ := he
  have ht := playbackTick_finished s e hp hq hw h1 h2
  have ha := animationBlock_flags (playbackTick s e) e
  unfold loop
  rw [buttonBlock_released cat _ e h3 h4 h5, ha.1, ha.2.1, ha.2.2.1]
  exact ht

lemma playbackTick_init (e : LoopEnv) : playbackTick Player.init e = Player.init := by
  unfold playbackTick
  simp [Player.init]

lemma loop_play_from_init (cat : List String) (e : LoopEnv)
    (hd : usub e.tButtons 0 ≥ debounceDelay) (h1 : e.btnPrev = false) (h2 : e.btnNext = false)
    (h3 : e.btnPlay = true) (h4 : e.play.openOk = true) (h5 : e.play.beginOk = true) :
    (loop cat Player.init e).isPlaying = true ∧ (loop cat Player.init e).isPaused = false ∧
    (loop cat Player.init e).wav = true ∧ (loop cat Player.init e).currentTrack = 0 ∧
    (loop cat Player.init e).audio = [AudioCall.openFile (trackAt cat 0), AudioCall.begin] := by
  have hb : buttonBlock cat Player.init e = onPlay cat Player.init e.tStamp e.play := by
    have := loop_track_accepted cat Player.init e hd
    rw [playbackTick_init] at this
    rw [this, if_neg (by simp [h1]), if_neg (by simp [h2]), if_pos h3]
  have hplay : (onPlay cat Player.init e.tStamp e.play).isPlaying = true ∧
      (onPlay cat Player.init e.tStamp e.play).isPaused = false ∧
      (onPlay cat Player.init e.tStamp e.play).wav = true ∧
      (onPlay cat Player.init e.tStamp e.play).currentTrack = 0 ∧
      (onPlay cat Player.init e.tStamp e.play).audio
        = [AudioCall.openFile (trackAt cat 0), AudioCall.begin] := by
    unfold onPlay playWAV
    simp [Player.init, h4, h5]
  have ha := animationBlock_flags (buttonBlock cat Player.init e) e
  unfold loop
  rw [playbackTick_init, ha.1, ha.2.1, ha.2.2.1, ha.2.2.2.2, animationBlock_wav, hb]
  exact hplay

lemma updateDisplay_idle (cat : List String) (s : Player) (e : DisplayEnv)
    (hp : s.isPlaying = false) (hq : s.isPaused = false) :
    (updateDisplay cat s e).lineBuffer0 = "Ready...       ".toList ++ [MUSIC_NOTE_CHAR] ∧
    (updateDisplay cat s e).lineBuffer1 = List.replicate 16 PROGRESS_CHAR_EMPTY := by
  have h1 : fitCells "Ready...".toList = "Ready...       ".toList := by decide
  refine ⟨?_, ?_⟩
  · simp only [updateDisplay, titleLine, hp, hq, Bool.or_self, Bool.false_eq_true, if_false, h1]
  · rw [← emptyLine_eq]
    simp [updateDisplay, hp, hq]

/-- C13: end-to-end scenario. From the initial state (track 0, not playing, not paused),
an iteration `ePlay` accepts a Play press (only Play pressed among the track buttons) whose
file opens and whose decoder begins: `playWAV` is called for track 0, and `isPlaying` is
true, `isPaused` false. Through any number of iterations `mid` in which the session keeps
running and no track button is pressed this stays so. An iteration `eEnd` in which the
session reports completion (no track button pressed) leaves `isPlaying` and `isPaused`
false. A render of that state shows the label `Ready...` left-justified and blank-padded
in columns 0..14 with the note glyph in column 15, and 16 unfilled cells on the second line,
exactly as a render of the initial state does, and sends the same two rows to the LCD. -/
theorem C13_end_to_end (cat : List String) (ePlay eEnd : LoopEnv) (mid : List LoopEnv)
    (eR : DisplayEnv)
    (hd : usub ePlay.tButtons Player.init.lastButtonPress ≥ debounceDelay)
    (hb : ePlay.btnPrev = false ∧ ePlay.btnNext = false ∧ ePlay.btnPlay = true)
    (ho : ePlay.play.openOk = true ∧ ePlay.play.beginOk = true)
    (hmid : ∀ e ∈ mid, e.wavRunning = true ∧ e.pumpOk = true ∧ e.btnPrev = false ∧
      e.btnNext = false ∧ e.btnPlay = false)
    (hend : eEnd.wavRunning = true ∧ eEnd.pumpOk = false ∧ eEnd.btnPrev = false ∧
      eEnd.btnNext = false ∧ eEnd.btnPlay = false) :
    (Player.init.currentTrack = 0 ∧ Player.init.isPlaying = false ∧
      Player.init.isPaused = false) ∧
    ((loop cat Player.init ePlay).isPlaying = true ∧
      (loop cat Player.init ePlay).isPaused = false ∧
      (loop cat Player.init ePlay).currentTrack = 0 ∧
      (loop cat Player.init ePlay).audio
        = [AudioCall.openFile (trackAt cat 0), AudioCall.begin]) ∧
    ((loopMany cat (loop cat Player.init ePlay) mid).isPlaying = true ∧
      (loopMany cat (loop cat Player.init ePlay) mid).isPaused = false) ∧
    ((loop cat (loopMany cat (loop cat Player.init ePlay) mid) eEnd).isPlaying = false ∧
      (loop cat (loopMany cat (loop cat Player.init ePlay) mid) eEnd).isPaused = false) ∧
    ((updateDisplay cat (loop cat (loopMany cat (loop cat Player.init ePlay) mid) eEnd)
        eR).lineBuffer0 = "Ready...       ".toList ++ [MUSIC_NOTE_CHAR] ∧
      (updateDisplay cat (loop cat (loopMany cat (loop cat Player.init ePlay) mid) eEnd)
        eR).lineBuffer1 = List.replicate 16 PROGRESS_CHAR_EMPTY) ∧
    ((updateDisplay cat (loop cat (loopMany cat (loop cat Player.init ePlay) mid) eEnd)
        eR).lineBuffer0 = (updateDisplay cat Player.init eR).lineBuffer0 ∧
      (updateDisplay cat (loop cat (loopMany cat (loop cat Player.init ePlay) mid) eEnd)
        eR).lineBuffer1 = (updateDisplay cat Player.init eR).lineBuffer1 ∧
      (updateDisplay cat (loop cat (loopMany cat (loop cat Player.init ePlay) mid) eEnd)
        eR).lcd = (updateDisplay cat Player.init eR).lcd) := by
  have h1 := loop_play_from_init cat ePlay hd hb.1 hb.2.1 hb.2.2 ho.1 ho.2
  have h2 := loopMany_running_quiet cat mid _ h1.1 h1.2.1 h1.2.2.1 hmid
  have h3 := loop_finish cat _ eEnd h2.1 h2.2.1 h2.2.2.1 hend
  have h4 := updateDisplay_idle cat _ eR h3.1 h3.2.1
  have h5 := updateDisplay_idle cat Player.init eR rfl rfl
  refine ⟨⟨rfl, rfl, rfl⟩, ⟨h1.1, h1.2.1, h1.2.2.2.1, h1.2.2.2.2⟩, ⟨h2.1, h2.2.1⟩,
    ⟨h3.1, h3.2.1⟩, h4, ?_, ?_, ?_⟩
  · rw [h4.1, h5.1]
  · rw [h4.2, h5.2]
  · have hl : ∀ s : Player, (updateDisplay cat s eR).lcd
        = if eR.lockOk then some (lcdRow0 (updateDisplay cat s eR).lineBuffer0,
            lcdRow1 (updateDisplay cat s eR).lineBuffer1) else none := fun s => rfl
    rw [hl, hl, h4.1, h4.2, h5.1, h5.2]

/-- C13 applied to the sketch: Play at clock reading 1000, two quiet iterations, the
session ends at reading 1030, and the display shows the idle frame. -/
theorem C13_end_to_end_witness :
    (loop tracks Player.init (buttonsEnv 1000 false false true false)).isPlaying = true ∧
    (loop tracks (loopMany tracks (loop tracks Player.init (buttonsEnv 1000 false false true false))
      [quietEnv 1010, quietEnv 1020]) { quietEnv 1030 with pumpOk := false }).isPlaying = false ∧
    (updateDisplay tracks
      (loop tracks (loopMany tracks (loop tracks Player.init (buttonsEnv 1000 false false true false))
        [quietEnv 1010, quietEnv 1020]) { quietEnv 1030 with pumpOk := false })
      (renderEnv 1250 0 0)).lineBuffer0 = "Ready...       ".toList ++ [MUSIC_NOTE_CHAR] := by
  have h := C13_end_to_end tracks (buttonsEnv 1000 false false true false)
    { quietEnv 1030 with pumpOk := false } [quietEnv 1010, quietEnv 1020] (renderEnv 1250 0 0)
    (by decide) (by decide) (by decide) (by decide) (by decide)
  exact ⟨h.2.1.1, h.2.2.2.1.1, h.2.2.2.2.1.1⟩


/-! ## The scroll offset -/

lemma scrollAdvance_eq (s : Player) (L : Int) (e : DisplayEnv) :
    scrollAdvance s L e
      = if (scrollStep s e).titleScrollOffset = L then
          { scrollStep s e with isScrollingPaused := true, endScrollPauseTime := e.tPauseStamp }
        else if wrapTaken s L e = true then { scrollStep s e with titleScrollOffset := 0 }
        else scrollStep s e := by
  unfold scrollAdvance wrapTaken scrollStep
  simp only
  split_ifs <;> simp_all <;> (exfalso; omega)

lemma ScrollOk_of_reset (cat : List String) (s : Player) (h0 : s.titleScrollOffset = 0)
    (hp : s.isScrollingPaused = false) : ScrollOk cat s := by
  unfold ScrollOk
  exact ⟨fun h => by rw [hp] at h; exact absurd h (by simp), fun _ => Or.inl h0⟩

lemma ScrollOk_of_same (cat : List String) (s s1 : Player)
    (ht : s1.currentTrack = s.currentTrack) (ho : s1.titleScrollOffset = s.titleScrollOffset)
    (hp : s1.isScrollingPaused = s.isScrollingPaused) (h : ScrollOk cat s) : ScrollOk cat s1 := by
  unfold ScrollOk titleOf at *
  rw [ht, ho, hp]
  exact h

lemma playWAV_scroll (s : Player) (f : String) (e : PlayEnv) :
    (playWAV s f e).titleScrollOffset = 0 ∧ (playWAV s f e).isScrollingPaused = false := by
  unfold playWAV
  cases h1 : e.openOk <;> cases h2 : e.beginOk <;> cases h3 : (s.wav && e.wasRunning) <;>
    simp [h3]

lemma playbackTick_scroll (s : Player) (e : LoopEnv) :
    (playbackTick s e).titleScrollOffset = s.titleScrollOffset ∧
    (playbackTick s e).isScrollingPaused = s.isScrollingPaused := by
  unfold playbackTick
  cases h1 : s.isPlaying <;> cases h2 : s.isPaused <;> cases h3 : s.wav <;>
    cases h4 : e.wavRunning <;> cases h5 : e.pumpOk <;> simp [h1, h2]

lemma animationBlock_scroll (s : Player) (e : LoopEnv) :
    (animationBlock s e).titleScrollOffset = s.titleScrollOffset ∧
    (animationBlock s e).isScrollingPaused = s.isScrollingPaused := by
  unfold animationBlock onAnimation
  split_ifs <;> simp

lemma buttonBlock_scrollOk (cat : List String) (s : Player) (e : LoopEnv)
    (h : ScrollOk cat s) : ScrollOk cat (buttonBlock cat s e) := by
  unfold buttonBlock
  split_ifs
  · exact ScrollOk_of_reset cat _ (playWAV_scroll _ _ _).1 (playWAV_scroll _ _ _).2
  · exact ScrollOk_of_reset cat _ (playWAV_scroll _ _ _).1 (playWAV_scroll _ _ _).2
  · unfold onPlay
    simp only
    split_ifs
    · exact ScrollOk_of_reset cat _ (playWAV_scroll _ _ _).1 (playWAV_scroll _ _ _).2
    · exact ScrollOk_of_same cat s _ rfl rfl rfl h
  · exact h
  · exact h

lemma loop_scrollOk (cat : List String) (s : Player) (e : LoopEnv) (h : ScrollOk cat s) :
    ScrollOk cat (loop cat s e) := by
  have h1 : ScrollOk cat (playbackTick s e) :=
    ScrollOk_of_same cat s _ (playbackTick_frame s e).2.2.1 (playbackTick_scroll s e).1
      (playbackTick_scroll s e).2 h
  have h2 := buttonBlock_scrollOk cat _ e h1
  unfold loop
  exact ScrollOk_of_same cat _ _ (animationBlock_flags _ e).2.2.1 (animationBlock_scroll _ e).1
    (animationBlock_scroll _ e).2 h2

lemma scrollStep_frame (s : Player) (e : DisplayEnv) :
    (scrollStep s e).currentTrack = s.currentTrack ∧
    (scrollStep s e).isScrollingPaused = s.isScrollingPaused ∧
    (scrollStep s e).isPlaying = s.isPlaying ∧ (scrollStep s e).isPaused = s.isPaused ∧
    (usub e.tScrollCheck s.lastScrollTime ≥ scrollSpeedDelay →
      (scrollStep s e).titleScrollOffset = s.titleScrollOffset + 1 ∧
      (scrollStep s e).lastScrollTime = e.tScrollStamp) ∧
    (usub e.tScrollCheck s.lastScrollTime < scrollSpeedDelay → scrollStep s e = s) := by
  unfold scrollStep
  split_ifs with h
  · exact ⟨rfl, rfl, rfl, rfl, fun _ => ⟨rfl, rfl⟩, fun h2 => absurd h (by omega)⟩
  · exact ⟨rfl, rfl, rfl, rfl, fun h2 => absurd h2 h, fun _ => rfl⟩

/-- In a state satisfying the invariant, a render of an overflowing title that is not
paused at the end never takes the wrap branch, and its result is the timed increment,
followed by entering the pause when the offset reaches the title length. -/
lemma scrollAdvance_of_ok (cat : List String) (s : Player) (e : DisplayEnv)
    (h : ScrollOk cat s) (hL : 15 < (titleOf cat s).length) (hnp : s.isScrollingPaused = false) :
    wrapTaken s ((titleOf cat s).length : Int) e = false ∧
    0 ≤ s.titleScrollOffset ∧ s.titleScrollOffset < ((titleOf cat s).length : Int) ∧
    scrollAdvance s ((titleOf cat s).length : Int) e
      = if (scrollStep s e).titleScrollOffset = ((titleOf cat s).length : Int) then
          { scrollStep s e with isScrollingPaused := true, endScrollPauseTime := e.tPauseStamp }
        else scrollStep s e := by
  have hb : 0 ≤ s.titleScrollOffset ∧ s.titleScrollOffset < ((titleOf cat s).length : Int) := by
    rcases h.2 hnp with h0 | h0
    · rw [h0]; omega
    · exact h0
  have hf := scrollStep_frame s e
  have hw : wrapTaken s ((titleOf cat s).length : Int) e = false := by
    unfold wrapTaken
    rw [decide_eq_false_iff_not]
    rintro ⟨-, h2⟩
    simp only [LCD_COLS] at h2
    rcases Nat.lt_or_ge (usub e.tScrollCheck s.lastScrollTime) scrollSpeedDelay with ht | ht
    · rw [hf.2.2.2.2.2 ht] at h2; omega
    · rw [(hf.2.2.2.2.1 ht).1] at h2; omega
  refine ⟨hw, hb.1, hb.2, ?_⟩
  rw [scrollAdvance_eq, hw]
  simp

lemma titleLine_reset (cat : List String) (s : Player) (e : DisplayEnv)
    (h : (s.isPlaying = false ∧ s.isPaused = false) ∨ (titleOf cat s).length ≤ 15) :
    (titleLine cat s e).1 = { s with titleScrollOffset := 0, isScrollingPaused := false } := by
  unfold titleLine
  simp only
  rcases h with ⟨h1, h2⟩ | h
  · simp [h1, h2]
  · have hL : ¬ (((displayName (trackAt cat s.currentTrack)).length : Int) > LCD_COLS - 1) := by
      unfold titleOf at h
      simp only [LCD_COLS]
      omega
    split_ifs <;> rfl

lemma titleOf_congr (cat : List String) (s s1 : Player) (h : s1.currentTrack = s.currentTrack) :
    titleOf cat s1 = titleOf cat s := by
  unfold titleOf
  rw [h]

lemma ScrollOk_of_pausedAt (cat : List String) (s s1 : Player)
    (ht : s1.currentTrack = s.currentTrack) (hp : s1.isScrollingPaused = true)
    (ho : s1.titleScrollOffset = ((titleOf cat s).length : Int))
    (hL : 15 < (titleOf cat s).length) : ScrollOk cat s1 := by
  unfold ScrollOk
  rw [titleOf_congr cat s s1 ht]
  exact ⟨fun _ => ⟨ho, hL⟩, fun hc => by rw [hp] at hc; exact absurd hc (by simp)⟩

lemma ScrollOk_of_inside (cat : List String) (s s1 : Player)
    (ht : s1.currentTrack = s.currentTrack) (hp : s1.isScrollingPaused = false)
    (h0 : 0 ≤ s1.titleScrollOffset)
    (h1 : s1.titleScrollOffset < ((titleOf cat s).length : Int)) : ScrollOk cat s1 := by
  unfold ScrollOk
  rw [titleOf_congr cat s s1 ht]
  exact ⟨fun hc => by rw [hp] at hc; exact absurd hc (by simp), fun _ => Or.inr ⟨h0, h1⟩⟩

lemma updateDisplay_scrollOk (cat : List String) (s : Player) (e : DisplayEnv)
    (h : ScrollOk cat s) : ScrollOk cat (updateDisplay cat s e).state := by
  rw [updateDisplay_state]
  by_cases hplay : s.isPlaying = true ∨ s.isPaused = true
  · by_cases hL : 15 < (titleOf cat s).length
    · cases hp : s.isScrollingPaused
      · -- scrolling
        rw [titleLine_scrolling cat s e hplay hL hp]
        simp only
        obtain ⟨-, hb0, hb1, heq⟩ := scrollAdvance_of_ok cat s e h hL hp
        have hf := scrollStep_frame s e
        rw [heq]
        have hoff : (scrollStep s e).titleScrollOffset = s.titleScrollOffset ∨
            (scrollStep s e).titleScrollOffset = s.titleScrollOffset + 1 := by
          rcases Nat.lt_or_ge (usub e.tScrollCheck s.lastScrollTime) scrollSpeedDelay with ht | ht
          · left; rw [hf.2.2.2.2.2 ht]
          · right; exact (hf.2.2.2.2.1 ht).1
        split_ifs with hEq
        · exact ScrollOk_of_pausedAt cat s _ hf.1 rfl hEq hL
        · refine ScrollOk_of_inside cat s _ hf.1 (by rw [hf.2.1, hp]) ?_ ?_
          · rcases hoff with ho | ho <;> rw [ho] <;> omega
          · rcases hoff with ho | ho <;> rw [ho] at hEq ⊢ <;> omega
      · -- paused at the end
        rw [titleLine_paused cat s e hplay hL hp]
        split_ifs
        · exact ScrollOk_of_reset cat _ rfl rfl
        · exact h
    · rw [titleLine_reset cat s e (Or.inr (by omega))]
      exact ScrollOk_of_reset cat _ rfl rfl
  · have hidle : s.isPlaying = false ∧ s.isPaused = false := by
      push_neg at hplay
      exact ⟨by simpa using hplay.1, by simpa using hplay.2⟩
    rw [titleLine_reset cat s e (Or.inl hidle)]
    exact ScrollOk_of_reset cat _ rfl rfl

lemma run_scrollOk (cat : List String) (evs : List Event) :
    ∀ s, ScrollOk cat s → ScrollOk cat (run cat s evs) := by
  induction evs with
  | nil => intro s h; simpa [run] using h
  | cons ev rest ih =>
    intro s h
    have : run cat s (ev :: rest) = run cat (step cat s ev) rest := by simp [run]
    rw [this]
    apply ih
    cases ev with
    | tick e => exact loop_scrollOk cat s e h
    | render e => exact updateDisplay_scrollOk cat s e h

lemma renderMany_scrollOk (cat : List String) (envs : List DisplayEnv) :
    ∀ s, ScrollOk cat s →
      ScrollOk cat (renderMany cat s envs) ∧
      (renderMany cat s envs).currentTrack = s.currentTrack ∧
      (renderMany cat s envs).isPlaying = s.isPlaying ∧
      (renderMany cat s envs).isPaused = s.isPaused := by
  induction envs with
  | nil => intro s h; exact ⟨h, rfl, rfl, rfl⟩
  | cons e rest ih =>
    intro s h
    have hstep : renderMany cat s (e :: rest)
        = renderMany cat (updateDisplay cat s e).state rest := by
      simp [renderMany]
    have hf := titleLine_flags cat s e
    have hi := ih _ (updateDisplay_scrollOk cat s e h)
    rw [hstep]
    rw [updateDisplay_state] at hi ⊢
    exact ⟨hi.1, by rw [hi.2.1, hf.2.2], by rw [hi.2.2.1, hf.1], by rw [hi.2.2.2, hf.2.1]⟩

lemma scrollOk_init (cat : List String) : ScrollOk cat Player.init :=
  ScrollOk_of_reset cat _ rfl rfl

/-- The effect of a scrolling render on the offset and on `lastScrollTime`, in a state
satisfying the invariant. -/
lemma updateDisplay_scrolling_of_ok (cat : List String) (s : Player) (e : DisplayEnv)
    (h : ScrollOk cat s) (hplay : s.isPlaying = true ∨ s.isPaused = true)
    (hL : 15 < (titleOf cat s).length) (hnp : s.isScrollingPaused = false) :
    (updateDisplay cat s e).state.titleScrollOffset = (scrollStep s e).titleScrollOffset ∧
    (updateDisplay cat s e).state.lastScrollTime = (scrollStep s e).lastScrollTime := by
  rw [updateDisplay_state, titleLine_scrolling cat s e hplay hL hnp]
  simp only
  rw [(scrollAdvance_of_ok cat s e h hL hnp).2.2.2]
  split_ifs <;> exact ⟨rfl, rfl⟩

/-- C15: scroll advance timing, in every state the sketch reaches from its initial state by
whole `loop` iterations and `updateDisplay` calls. In a render of a title longer than 15
characters that is not in the paused-at-end state, if at least 350 ms have elapsed since
`lastScrollTime` (as the sketch computes it) the offset increases by exactly one and
`lastScrollTime` receives the clock reading; otherwise both stay as they are. So the offset
increases by one if and only if 350 ms have elapsed, and never by more than one in a single
render, however long the elapsed time. -/
theorem C15_scroll_timing (cat : List String) (evs : List Event) (e : DisplayEnv)
    (hplay : (run cat Player.init evs).isPlaying = true ∨
      (run cat Player.init evs).isPaused = true)
    (hL : 15 < (titleOf cat (run cat Player.init evs)).length)
    (hnp : (run cat Player.init evs).isScrollingPaused = false) :
    (usub e.tScrollCheck (run cat Player.init evs).lastScrollTime ≥ scrollSpeedDelay →
      (updateDisplay cat (run cat Player.init evs) e).state.titleScrollOffset
        = (run cat Player.init evs).titleScrollOffset + 1 ∧
      (updateDisplay cat (run cat Player.init evs) e).state.lastScrollTime = e.tScrollStamp) ∧
    (usub e.tScrollCheck (run cat Player.init evs).lastScrollTime < scrollSpeedDelay →
      (updateDisplay cat (run cat Player.init evs) e).state.titleScrollOffset
        = (run cat Player.init evs).titleScrollOffset ∧
      (updateDisplay cat (run cat Player.init evs) e).state.lastScrollTime
        = (run cat Player.init evs).lastScrollTime) ∧
    ((updateDisplay cat (run cat Player.init evs) e).state.titleScrollOffset
        = (run cat Player.init evs).titleScrollOffset + 1
      ↔ usub e.tScrollCheck (run cat Player.init evs).lastScrollTime ≥ scrollSpeedDelay) ∧
    (run cat Player.init evs).titleScrollOffset
      ≤ (updateDisplay cat (run cat Player.init evs) e).state.titleScrollOffset ∧
    (updateDisplay cat (run cat Player.init evs) e).state.titleScrollOffset
      ≤ (run cat Player.init evs).titleScrollOffset + 1 := by
  have hok := run_scrollOk cat evs Player.init (scrollOk_init cat)
  generalize run cat Player.init evs = s at hplay hL hnp hok ⊢
  have hu := updateDisplay_scrolling_of_ok cat s e hok hplay hL hnp
  have hf := scrollStep_frame s e
  rw [hu.1, hu.2]
  have hyes := hf.2.2.2.2.1
  have hno := hf.2.2.2.2.2
  refine ⟨hyes, fun ht => by rw [hno ht]; exact ⟨rfl, rfl⟩, ?_, ?_, ?_⟩
  · constructor
    · intro h1
      by_contra hc
      rw [hno (by omega)] at h1
      omega
    · intro ht
      exact (hyes ht).1
  · rcases Nat.lt_or_ge (usub e.tScrollCheck s.lastScrollTime) scrollSpeedDelay with ht | ht
    · rw [hno ht]
    · rw [(hyes ht).1]; omega
  · rcases Nat.lt_or_ge (usub e.tScrollCheck s.lastScrollTime) scrollSpeedDelay with ht | ht
    · rw [hno ht]; omega
    · rw [(hyes ht).1]

set_option maxRecDepth 1000000 in
/-- C15 applied to the sketch after Next was accepted at clock reading 1000 and one render
at reading 1350 advanced the offset to 1: a render only 100 ms later leaves the offset at 1. -/
theorem C15_scroll_timing_witness :
    (run tracks Player.init [Event.tick (buttonsEnv 1000 false true false false),
      Event.render (renderEnv 1350 0 100)]).titleScrollOffset = 1 ∧
    (updateDisplay tracks
      (run tracks Player.init [Event.tick (buttonsEnv 1000 false true false false),
        Event.render (renderEnv 1350 0 100)])
      (renderEnv 1450 0 100)).state.titleScrollOffset = 1 := by
  have h := (C15_scroll_timing tracks [Event.tick (buttonsEnv 1000 false true false false),
    Event.render (renderEnv 1350 0 100)] (renderEnv 1450 0 100) (by decide) (by decide)
    (by decide)).2.1 (by decide)
  have h1 : (run tracks Player.init [Event.tick (buttonsEnv 1000 false true false false),
      Event.render (renderEnv 1350 0 100)]).titleScrollOffset = 1 := by decide
  exact ⟨h1, by rw [h.1, h1]⟩

/-- C20: scroll-offset bound for a fixed title of length `L > 15`. Start from the reset state
(`titleScrollOffset = 0`, `isScrollingPaused = false`) with that title current; after
every series of renders, whatever the clock readings, the title is the same,
`0 ≤ titleScrollOffset ≤ L`, and `titleScrollOffset = L` exactly when `isScrollingPaused` is
true; so the offset never lies in `(L, L + 15)`, and the next render, when it enters the
scrolling branch, does not take the wrap branch
`titleScrollOffset >= titleLen + contentWidthLine0`. The same invariant holds in every
state reached from the initial state by `loop` iterations and renders, since `playWAV`
resets the scroll state whenever the track changes. -/
theorem C20_scroll_bound (cat : List String) (s0 : Player) (envs : List DisplayEnv)
    (e : DisplayEnv) (hL : 15 < (titleOf cat s0).length) (h0 : s0.titleScrollOffset = 0)
    (hnp : s0.isScrollingPaused = false) :
    titleOf cat (renderMany cat s0 envs) = titleOf cat s0 ∧
    0 ≤ (renderMany cat s0 envs).titleScrollOffset ∧
    (renderMany cat s0 envs).titleScrollOffset ≤ ((titleOf cat s0).length : Int) ∧
    ((renderMany cat s0 envs).titleScrollOffset = ((titleOf cat s0).length : Int)
      ↔ (renderMany cat s0 envs).isScrollingPaused = true) ∧
    ¬ (((titleOf cat s0).length : Int) < (renderMany cat s0 envs).titleScrollOffset ∧
       (renderMany cat s0 envs).titleScrollOffset < ((titleOf cat s0).length : Int) + 15) ∧
    ((renderMany cat s0 envs).isScrollingPaused = false →
      wrapTaken (renderMany cat s0 envs) ((titleOf cat s0).length : Int) e = false) ∧
    (∀ evs : List Event, ScrollOk cat (run cat Player.init evs)) := by
  have hr := renderMany_scrollOk cat envs s0 (ScrollOk_of_reset cat s0 h0 hnp)
  have ht : titleOf cat (renderMany cat s0 envs) = titleOf cat s0 :=
    titleOf_congr cat s0 _ hr.2.1
  have hok := hr.1
  have hL2 : 15 < (titleOf cat (renderMany cat s0 envs)).length := by rw [ht]; exact hL
  generalize renderMany cat s0 envs = s at ht hok hL2 ⊢
  have hpa : s.isScrollingPaused = true → s.titleScrollOffset = ((titleOf cat s0).length : Int) :=
    fun hp => by rw [← ht]; exact (hok.1 hp).1
  have hin : s.isScrollingPaused = false →
      0 ≤ s.titleScrollOffset ∧ s.titleScrollOffset < ((titleOf cat s0).length : Int) := by
    intro hp
    rw [← ht]
    rcases hok.2 hp with hz | hz
    · rw [hz]; omega
    · exact hz
  have hbound : 0 ≤ s.titleScrollOffset ∧ s.titleScrollOffset ≤ ((titleOf cat s0).length : Int) := by
    cases hp : s.isScrollingPaused
    · have := hin hp; omega
    · have := hpa hp; omega
  refine ⟨ht, hbound.1, hbound.2, ?_, by omega, ?_,
    fun evs => run_scrollOk cat evs Player.init (scrollOk_init cat)⟩
  · constructor
    · intro heq
      cases hp : s.isScrollingPaused
      · have := hin hp; omega
      · rfl
    · exact hpa
  · intro hp
    rw [← ht]
    exact (scrollAdvance_of_ok cat s e hok hL2 hp).1

set_option maxRecDepth 1000000 in
/-- C20 applied to track 1 of the sketch (`L = 36`): after the 36 renders that scroll it to
the end the offset is 36 and the renderer is paused. -/
theorem C20_scroll_bound_witness :
    (renderMany tracks (playingAt 1 0)
      ((List.range 36).map (fun k => renderEnv (350 * (k + 1)) 0 100))).titleScrollOffset = 36 ∧
    (renderMany tracks (playingAt 1 0)
      ((List.range 36).map (fun k => renderEnv (350 * (k + 1)) 0 100))).isScrollingPaused
      = true := by
  have h := C20_scroll_bound tracks (playingAt 1 0)
    ((List.range 36).map (fun k => renderEnv (350 * (k + 1)) 0 100)) (renderEnv 0 0 100)
    (by decide) (by decide) (by decide)
  have h1 : (renderMany tracks (playingAt 1 0)
      ((List.range 36).map (fun k => renderEnv (350 * (k + 1)) 0 100))).titleScrollOffset
      = 36 := by decide
  exact ⟨h1, h.2.2.2.1.mp h1⟩


/-! ## The display name -/

/-- Outside the catalog: for a file name that contains `".wav"` before its extension,
`strstr` finds the first occurrence, so `"/ocean.waves.wav"` would be shown as `ocean`,
whereas the file name without its directory and trailing extension is `ocean.waves`. -/
lemma displayName_first_match :
    displayName "/ocean.waves.wav" = "ocean".toList ∧
    displayName "/ocean.waves.wav" ≠ "ocean.waves".toList ∧
    filenameStart "/ocean.waves.wav".toList = "ocean.waves".toList ++ ".wav".toList := by
  decide

end MusicBox
